import Mathlib

/-!
# pg_top: the Linux machine module (`machine/m_linux.c`)

A shallow embedding of the process-table engine of `m_linux.c`: the per-process
record (`struct top_proc`), the pid-keyed store, the `/proc` readers, the refresh
cycle `get_process_info`, the header and I/O line formatters and the sort-order
registry with its `ORDERKEY_*` comparison chains.

Conventions of the embedding.

* `unsigned long` and `unsigned int` values are natural numbers; every operation
  that can wrap is reduced modulo `2 ^ 64` or `2 ^ 32` explicitly.  A conversion
  to `int` keeps the low 32 bits (two's complement), see `to_int`.
* `long long` values are integers.  Signed overflow is undefined in C, so the
  results of signed additions and subtractions are the exact integers.
* `double` values are exact rationals: rounding is not represented.  A division
  is only formed where the divisor is known to be non-zero, or its result is an
  `Option` that is `none` for a zero divisor.
* A `char *` that is assigned before every use is a `String`.  The command name
  `name` of a record, which the comparison functions read and which stays the
  null pointer until `update_str` first assigns it, is an `Option String` with
  `none` for `NULL`.  File contents are lists of characters and a C string ends
  at the first NUL.
* The process exits (`exit(1)`), faults (a null or out-of-bounds access) or has
  no defined behaviour (a double converted to an `int` that cannot hold it)
  where a function returns `none`.
* What other translation units and libraries provide (`HZ`, `MAX_COLS`,
  `STATE_IDLE`, `update_state`, `printable`, `qsort`, the page size) is a field
  of `Env`.
-/

namespace PgTop

/-! ## Machine integers and doubles -/

/-- Conversion of an integer value to `int`: the low 32 bits, two's complement. -/
def to_int (x : Int) : Int := (x + 2 ^ 31) % 2 ^ 32 - 2 ^ 31

/-- Conversion of an integer value to `unsigned long` (64 bits). -/
def to_ulong (x : Int) : Nat := (x % 2 ^ 64).toNat

/-- Conversion of an integer value to `unsigned int` (32 bits). -/
def to_uint (x : Int) : Nat := (x % 2 ^ 32).toNat

/-- The truncation of a double toward zero. -/
def trunc (x : ℚ) : Int := if 0 ≤ x then ⌊x⌋ else ⌈x⌉

/-- The cast `(int) x` of a double: truncation toward zero; `none` when the truncated
value is not a value of `int`, where the conversion is undefined. -/
def double_to_int (x : ℚ) : Option Int :=
  if -2 ^ 31 ≤ trunc x ∧ trunc x < 2 ^ 31 then some (trunc x) else none

/-! ## C strings -/

/-- The NUL character. -/
def NUL : Char := Char.ofNat 0

/-- The C string held by a buffer: its characters up to the first NUL. -/
def cstr (b : List Char) : List Char := b.takeWhile (fun c => c != NUL)

/-- Locale-free `isspace`: space, and the controls `\t \n \v \f \r`. -/
def isspace (c : Char) : Bool := c.toNat == 32 || (9 ≤ c.toNat && c.toNat ≤ 13)

/-- Library `strcmp` on the characters of two strings.  Only the sign of the result
is specified by C; the model returns `-1`, `0` or `1`. -/
def strcmp_chars : List Char → List Char → Int
  | [], [] => 0
  | [], _ :: _ => -1
  | _ :: _, [] => 1
  | a :: as, b :: bs =>
    if a = b then strcmp_chars as bs else if a.toNat < b.toNat then -1 else 1

/-- Library `strcmp`. -/
def strcmp (s t : String) : Int := strcmp_chars s.data t.data

/-- Library `strchr(s, c)`: the text from the first `c` on, `none` for `NULL`. -/
def strchr : List Char → Char → Option (List Char)
  | [], _ => none
  | x :: xs, c => if x = c then some (x :: xs) else strchr xs c

/-- Library `strrchr(s, c)`, returned as the text before the last `c` and the text
after it; `none` for `NULL`. -/
def strrchr : List Char → Char → Option (List Char × List Char)
  | [], _ => none
  | x :: xs, c =>
    match strrchr xs c with
    | some (pre, post) => some (x :: pre, post)
    | none => if x = c then some ([], xs) else none

/-- Value of a run of decimal digits. -/
def digits_value (ds : List Char) : Nat :=
  ds.foldl (fun acc d => 10 * acc + (d.toNat - 48)) 0

/-- Library `strtoul(p, &p, 10)`: the value and the advanced pointer.  Without a
digit the value is 0 and the pointer is not moved; a value that does not fit is
`ULONG_MAX`; a minus sign negates modulo `2 ^ 64`. -/
def strtoul (p : List Char) : Nat × List Char :=
  let q := p.dropWhile isspace
  let neg := q.head? == some (Char.ofNat 45)
  let r := if q.head? == some (Char.ofNat 45) || q.head? == some (Char.ofNat 43) then q.tail else q
  let ds := r.takeWhile Char.isDigit
  if ds.isEmpty then (0, p)
  else
    let v := digits_value ds
    let v1 := if 2 ^ 64 ≤ v then 2 ^ 64 - 1 else if neg then (2 ^ 64 - v) % 2 ^ 64 else v
    (v1, r.dropWhile Char.isDigit)

/-- Library `atoll`: optional blanks and sign, then digits; saturating at the ends of
the `long long` range. -/
def atoll (p : List Char) : Int :=
  let q := p.dropWhile isspace
  let neg := q.head? == some (Char.ofNat 45)
  let r := if q.head? == some (Char.ofNat 45) || q.head? == some (Char.ofNat 43) then q.tail else q
  let v : Int := digits_value (r.takeWhile Char.isDigit)
  if neg then max (-v) (-(2 ^ 63)) else min v (2 ^ 63 - 1)

/-! ## Process records -/

/-- A two-element `long long` array. -/
structure Slots where
  s0 : Int
  s1 : Int
deriving DecidableEq

/-- Read of `value[i]`.  Only 0 and 1 are valid indexes. -/
def Slots.get (v : Slots) (i : Int) : Int := if i = 0 then v.s0 else v.s1

/-- Store `value[i] = x`.  Only 0 and 1 are valid indexes. -/
def Slots.set (v : Slots) (i : Int) (x : Int) : Slots :=
  if i = 0 then { v with s0 := x } else { v with s1 := x }

/-- The record `struct top_proc` (the tree linkage `entry` is the store itself). -/
structure top_proc where
  pid : Int
  index : Int
  name : Option String
  usename : String
  size : Nat
  rss : Nat
  state : Int
  pgstate : Int
  time : Nat
  start_time : Nat
  xtime : Nat
  qtime : Nat
  locks : Nat
  pcpu : ℚ
  iops : Slots
  syscr : Slots
  syscw : Slots
  read_bytes : Slots
  write_bytes : Slots
  application_name : String
  client_addr : String
  repstate : String
  primary : String
  sent : String
  write : String
  flush : String
  replay : String
  sent_lag : Int
  write_lag : Int
  flush_lag : Int
  replay_lag : Int
deriving DecidableEq

/-- The record after `memset(n, 0, sizeof(struct top_proc))`. -/
def top_proc.zero : top_proc :=
  { pid := 0, index := 0, name := none, usename := "", size := 0, rss := 0, state := 0,
    pgstate := 0, time := 0, start_time := 0, xtime := 0, qtime := 0, locks := 0, pcpu := 0,
    iops := ⟨0, 0⟩, syscr := ⟨0, 0⟩, syscw := ⟨0, 0⟩, read_bytes := ⟨0, 0⟩,
    write_bytes := ⟨0, 0⟩, application_name := "", client_addr := "", repstate := "",
    primary := "", sent := "", write := "", flush := "", replay := "",
    sent_lag := 0, write_lag := 0, flush_lag := 0, replay_lag := 0 }

/-- `diff_stat(value, index)`: `value[index] - value[(index + 1) % 2]`. -/
def diff_stat (value : Slots) (index : Int) : Int :=
  value.get index - value.get (Int.tmod (index + 1) 2)

/-- `skip_ws`: advance over white space. -/
def skip_ws (p : List Char) : List Char := p.dropWhile isspace

/-- `skip_token`: advance over white space, then over the token that follows. -/
def skip_token (p : List Char) : List Char :=
  (p.dropWhile isspace).dropWhile (fun c => !isspace c)

/-- `topproccmp`: the order of the store, by pid. -/
def topproccmp (e1 e2 : top_proc) : Int :=
  if e1.pid < e2.pid then -1 else if e1.pid > e2.pid then 1 else 0

/-- `xfrm_cmdline(p, len)`: every NUL among the first `len - 1` bytes becomes a space. -/
def xfrm_cmdline (p : List Char) (len : Nat) : List Char :=
  (p.take (len - 1)).map (fun c => if c = NUL then Char.ofNat 32 else c) ++ p.drop (len - 1)

/-! ## The store

`head_proc` is a red-black tree of libbsd (`RB_HEAD`, `RB_GENERATE` with `topproccmp`).
The tree is represented by its in-order traversal, a list ascending in `topproccmp`;
rebalancing does not change the traversal. -/

/-- `RB_INSERT(pgproc, &head_proc, elm)`: descend comparing `elm` with the members;
on a member that compares equal return it and leave the tree alone, otherwise link
`elm` in at its place and return `NULL`. -/
def RB_INSERT : List top_proc → top_proc → List top_proc × Option top_proc
  | [], elm => ([elm], none)
  | e :: rest, elm =>
    if topproccmp elm e < 0 then (elm :: e :: rest, none)
    else if topproccmp elm e > 0 then ((e :: (RB_INSERT rest elm).1), (RB_INSERT rest elm).2)
    else (e :: rest, some e)

/-- Effect on the store of the writes made through the pointer `n`: the member with
the pid of `n` now holds the value `n`. -/
def write_back (head : List top_proc) (n : top_proc) : List top_proc :=
  head.map (fun e => if e.pid = n.pid then n else e)


/-! ## What the module takes from elsewhere -/

/-- Constants and functions of other translation units and of the C library. -/
structure Env where
  /-- Clock ticks per second, `HZ` of `sys/param.h`. -/
  HZ : Nat
  /-- Width limit `MAX_COLS`. -/
  MAX_COLS : Nat
  /-- Result of `sysconf(_SC_PAGESIZE)`. -/
  pagesize : Nat
  /-- Length `NPROCSTATES` of the state histogram. -/
  NPROCSTATES : Nat
  /-- Database state code `STATE_IDLE`. -/
  STATE_IDLE : Int
  /-- Mode code `MODE_REPLICATION`. -/
  MODE_REPLICATION : Int
  /-- Effect of `update_state(&pgstate, text)`: the new value of `pgstate`. -/
  update_state : Int → String → Int
  /-- Effect of `printable(str)` on the string. -/
  printable : String → String
  /-- Library `qsort` over the first entries of an array, with a comparison function
  that may fault; `none` when a comparison the library makes faults. -/
  qsort : (top_proc → top_proc → Option Int) → List top_proc → Option (List top_proc)

/-- The fields of `struct process_select` the module reads. -/
structure process_select where
  idle : Int
  fullcmd : Int
  usename : String
deriving DecidableEq

/-- What the reads of `/proc/<pid>/` return while one row is processed. -/
structure ProcFiles where
  /-- Bytes of `cmdline`; `none` when it cannot be opened. -/
  cmdline : Option (List Char)
  /-- Bytes of `stat`.  When the file cannot be read the buffer keeps the path text,
  which has no parenthesis: the caller passes such a text. -/
  stat : List Char
  /-- Bytes of `io`; `none` when it cannot be opened. -/
  io : Option (List Char)
deriving DecidableEq

/-- `BUFFERLEN`. -/
def BUFFERLEN : Nat := 255

/-- `bytetok(x)`: `((x) + 512) >> 10` on `unsigned long`. -/
def bytetok (x : Nat) : Nat := ((x + 512) % 2 ^ 64) / 1024

/-- `pagetok(x)`: `(x) * sysconf(_SC_PAGESIZE) >> 10` on `unsigned long`. -/
def pagetok (env : Env) (x : Nat) : Nat := ((x * env.pagesize) % 2 ^ 64) / 1024

/-- `GET_VALUE(v)`: go to the next colon, step over it and the blank, copy the text up
to the newline and convert it with `atoll`.  Returns the value and the pointer `p`,
which is left at the start of the value.  `none`: no colon, the string ends within
the two steps after the colon, no newline, or the text has `BUFFERLEN` characters or
more (`exit(1)`). -/
def GET_VALUE (p : List Char) : Option (Int × List Char) :=
  match strchr p ':' with
  | some (_ :: _ :: p2) =>
    match strchr p2 '\n' with
    | some q =>
      if BUFFERLEN ≤ p2.length - q.length then none
      else some (atoll (p2.take (p2.length - q.length)), p2)
    | none => none
  | _ => none

/-- The state code set by the `switch` of `read_one_proc_stat`; an unlisted character
leaves the 0 stored at entry. -/
def state_of_char (c : Char) : Int :=
  if c = 'R' then 1 else if c = 'S' then 2 else if c = 'D' then 3
  else if c = 'Z' then 4 else if c = 'T' then 5 else if c = 'W' then 6 else 0

/-- First part of `read_one_proc_stat`: the full command line.  Returns the record
and the local `fullcmd`. -/
def read_cmdline (env : Env) (proc : top_proc) (sel : process_select) (f : ProcFiles) :
    top_proc × Int :=
  if sel.fullcmd = 1 then
    match f.cmdline with
    | some bytes =>
      let buffer := bytes.take env.MAX_COLS
      if 1 < buffer.length then
        let text := String.mk (cstr (xfrm_cmdline buffer buffer.length))
        ({ proc with name := some (env.printable text) }, 1)
      else (proc, 0)
    | none => (proc, 0)
  else (proc, sel.fullcmd)

/-- Last part of `read_one_proc_stat`: the counters of `/proc/<pid>/io`. -/
def read_io (proc : top_proc) (f : ProcFiles) : Option top_proc :=
  match f.io with
  | none => some proc
  | some bytes =>
    let p := skip_token (skip_token (cstr (bytes.take 4095)))
    match GET_VALUE p with
    | none => none
    | some (syscr, p) =>
      let proc := { proc with syscr := proc.syscr.set proc.index syscr }
      let proc := { proc with iops := proc.iops.set proc.index syscr }
      match GET_VALUE p with
      | none => none
      | some (syscw, p) =>
        let proc := { proc with syscw := proc.syscw.set proc.index syscw }
        let proc := { proc with
          iops := proc.iops.set proc.index (proc.iops.get proc.index + syscw) }
        match GET_VALUE p with
        | none => none
        | some (rb, p) =>
          let proc := { proc with read_bytes := proc.read_bytes.set proc.index rb }
          match GET_VALUE p with
          | none => none
          | some (wb, p) =>
            let proc := { proc with write_bytes := proc.write_bytes.set proc.index wb }
            match GET_VALUE p with
            | none => none
            | some (cwb, _) =>
              some { proc with write_bytes :=
                proc.write_bytes.set proc.index (proc.write_bytes.get proc.index - cwb) }

/-- A run of `k` calls `p = skip_token(p)`. -/
def skip_tokens : Nat → List Char → List Char
  | 0, p => p
  | k + 1, p => skip_tokens k (skip_token p)

/-- Middle part of `read_one_proc_stat`, after the state character: ten skipped fields,
`utime` and `stime`, six skipped fields, `start_time`, `vsize`, `rss`. -/
def read_stat_fields (env : Env) (proc : top_proc) (p : List Char) : top_proc :=
  let utime := strtoul (skip_tokens 10 p)
  let stime := strtoul utime.2
  let proc := { proc with time := (utime.1 + stime.1) % 2 ^ 64 }
  let start_time := strtoul (skip_tokens 6 stime.2)
  let vsize := strtoul start_time.2
  let rss := strtoul vsize.2
  { proc with start_time := start_time.1, size := bytetok vsize.1, rss := pagetok env rss.1 }

/-- `read_one_proc_stat(proc, sel)`. -/
def read_one_proc_stat (env : Env) (proc : top_proc) (sel : process_select) (f : ProcFiles) :
    Option top_proc :=
  let proc := { proc with state := 0 }
  let (proc, fullcmd) := read_cmdline env proc sel f
  let buffer := cstr (f.stat.take 4095)
  match strchr buffer '(' with
  | none => some proc
  | some p =>
    match strrchr p.tail ')' with
    | none => some proc
    | some (cmd, rest) =>
      let proc := if fullcmd = 0 then { proc with name := some (env.printable (String.mk cmd)) }
        else proc
      match skip_ws rest with
      | [] => some proc
      | c :: p =>
        let proc := { proc with state := state_of_char c }
        read_io (read_stat_fields env proc p) f

/-! ## The refresh cycle -/

/-- A `struct timeval`. -/
structure timeval where
  tv_sec : Int
  tv_usec : Int
deriving DecidableEq

/-- One tuple of the result of `pg_processes` or `pg_replication`, with the numeric
columns already converted by `atoi` or `atol`, and the `/proc` contents met while the
row is processed. -/
structure Row where
  pid : Int
  usename : String
  state : String
  xstart : Int
  qstart : Int
  locks : Int
  query : String
  application_name : String
  client_addr : String
  wal_insert : String
  sent : String
  write : String
  flush : String
  replay : String
  sent_lag : Int
  write_lag : Int
  flush_lag : Int
  replay_lag : Int
  files : ProcFiles
deriving DecidableEq

/-- The file-scope variables of the module. -/
structure State where
  /-- The store `head_proc`. -/
  head_proc : List top_proc
  timediff : ℚ
  lasttime : timeval
  /-- The entries of `pgtable` written in the last cycle (the first `p_active`). -/
  pgtable : List top_proc
  proc_index : Nat
  process_states : List Int
  fmt_header : List Char
  /-- The fields `p_active` and `p_total` of `struct system_info`. -/
  p_active : Nat
  p_total : Nat

/-- The locals of the row loop of `get_process_info`, with the store. -/
structure Loop where
  head_proc : List top_proc
  pgtable : List top_proc
  process_states : List Int
  total_procs : Nat
  active_procs : Nat

/-- `process_states[k]++`; `none` for an index outside the array. -/
def tally (ps : List Int) (k : Int) : Option (List Int) :=
  if 0 ≤ k ∧ k.toNat < ps.length then some (ps.modify (fun c => c + 1) k.toNat) else none

/-- The quotient `(n->time - otime) / tickdiff`: an `unsigned long` difference, converted
to double and divided. -/
def cpu_quotient (time otime : Nat) (tickdiff : ℚ) : ℚ :=
  (to_ulong ((time : Int) - (otime : Int)) : ℚ) / tickdiff

/-- The test `tickdiff > 0.0` and the assignment of `pcpu` under it. -/
def set_pcpu (n : top_proc) (otime : Nat) (tickdiff : ℚ) : top_proc :=
  if 0 < tickdiff then
    if cpu_quotient n.time otime tickdiff < 1 / 10000 then { n with pcpu := 0 }
    else { n with pcpu := cpu_quotient n.time otime tickdiff }
  else n

/-- The inclusion test of normal mode. -/
def is_active (env : Env) (sel : process_select) (n : top_proc) : Bool :=
  (sel.idle != 0 || n.pgstate != env.STATE_IDLE) &&
    (sel.usename.data.head? == none || strcmp n.usename sel.usename == 0)

/-- The replication branch of the loop body: the columns copied into the record. -/
def fill_replication (n : top_proc) (row : Row) : top_proc :=
  { n with usename := row.usename, application_name := row.application_name,
           client_addr := row.client_addr, repstate := row.state,
           primary := row.wal_insert, sent := row.sent, write := row.write,
           flush := row.flush, replay := row.replay, sent_lag := row.sent_lag,
           write_lag := row.write_lag, flush_lag := row.flush_lag,
           replay_lag := row.replay_lag }

/-- The columns copied into the record in normal mode, after `read_one_proc_stat`. -/
def fill_process (env : Env) (sel : process_select) (n : top_proc) (row : Row) : top_proc :=
  let n := if sel.fullcmd = 2 then { n with name := some (env.printable row.query) } else n
  { n with pgstate := env.update_state n.pgstate row.state, usename := row.usename,
           xtime := to_ulong row.xstart, qtime := to_ulong row.qstart,
           locks := to_uint row.locks }

/-- The slot flip `n->index = (n->index + 1) % 2`. -/
def flip (n : top_proc) : top_proc := { n with index := Int.tmod (n.index + 1) 2 }

/-- The record `n` after the allocation, the insert and the `if (p != NULL)`. -/
def upsert_record (head : List top_proc) (pid : Int) : top_proc :=
  match (RB_INSERT head { top_proc.zero with pid := pid }).2 with
  | some p => p
  | none => { top_proc.zero with pid := pid, time := 0 }

/-- One iteration of the row loop of `get_process_info`. -/
def process_row (env : Env) (sel : process_select) (mode : Int) (tickdiff : ℚ)
    (l : Loop) (row : Row) : Option Loop :=
  let head := (RB_INSERT l.head_proc { top_proc.zero with pid := row.pid }).1
  let n := upsert_record l.head_proc row.pid
  let otime := n.time
  if mode = env.MODE_REPLICATION then
    let n := fill_replication n row
    some { head_proc := write_back head (flip n), pgtable := l.pgtable ++ [n],
           process_states := l.process_states, total_procs := l.total_procs + 1,
           active_procs := l.active_procs + 1 }
  else
    match read_one_proc_stat env n sel row.files with
    | none => none
    | some n =>
      let n := fill_process env sel n row
      match tally l.process_states n.pgstate with
      | none => none
      | some ps =>
        let n := set_pcpu n otime tickdiff
        some { head_proc := write_back head (flip n),
               pgtable := if is_active env sel n then l.pgtable ++ [n] else l.pgtable,
               process_states := ps, total_procs := l.total_procs + 1,
               active_procs := if is_active env sel n then l.active_procs + 1
                               else l.active_procs }

/-- The row loop `for (i = 0; i < rows; i++)`. -/
def process_rows (env : Env) (sel : process_select) (mode : Int) (tickdiff : ℚ) :
    Loop → List Row → Option Loop
  | l, [] => some l
  | l, row :: rows =>
    match process_row env sel mode tickdiff l row with
    | none => none
    | some l1 => process_rows env sel mode tickdiff l1 rows

/-- The elapsed time computed at the head of `get_process_info`. -/
def elapsed (lasttime thistime : timeval) : ℚ :=
  if lasttime.tv_sec ≠ 0 then
    ((thistime.tv_sec - lasttime.tv_sec : Int) : ℚ) +
      ((thistime.tv_usec - lasttime.tv_usec : Int) : ℚ) * (1 / 1000000)
  else 0

/-! ## The sort orders -/

/-- The comparison keys, one per `ORDERKEY_*` definition. -/
inductive OrderKey where
  | IOPS | LAG_FLUSH | LAG_REPLAY | LAG_SENT | LAG_WRITE | LOCKS | MEM | NAME | PCTCPU
  | QTIME | READS | RSSIZE | STATE | SYSCR | SYSCW | WRITES | XTIME
deriving DecidableEq

/-- The value a key assigns to the `int result`; `none` where the assignment faults
(`strcmp` on a null `name`) or is undefined (a CPU difference no `int` holds). -/
def OrderKey.result (k : OrderKey) (p1 p2 : top_proc) : Option Int :=
  match k with
  | .IOPS => some (to_int (diff_stat p2.iops p2.index - diff_stat p1.iops p1.index))
  | .LAG_FLUSH => some (to_int (p2.flush_lag - p1.flush_lag))
  | .LAG_REPLAY => some (to_int (p2.replay_lag - p1.replay_lag))
  | .LAG_SENT => some (to_int (p2.sent_lag - p1.sent_lag))
  | .LAG_WRITE => some (to_int (p2.write_lag - p1.write_lag))
  | .LOCKS => some (to_int (to_uint ((p2.locks : Int) - (p1.locks : Int))))
  | .MEM => some (to_int (to_ulong ((p2.size : Int) - (p1.size : Int))))
  | .NAME =>
    match p1.name, p2.name with
    | some s1, some s2 => some (strcmp s1 s2)
    | _, _ => none
  | .PCTCPU => double_to_int (p2.pcpu - p1.pcpu)
  | .QTIME => some (to_int (to_ulong ((p2.qtime : Int) - (p1.qtime : Int))))
  | .READS =>
    some (to_int (diff_stat p2.read_bytes p2.index - diff_stat p1.read_bytes p1.index))
  | .RSSIZE => some (to_int (to_ulong ((p2.rss : Int) - (p1.rss : Int))))
  | .STATE => some (if p1.pgstate < p2.pgstate then 1 else 0)
  | .SYSCR => some (to_int (diff_stat p2.syscr p2.index - diff_stat p1.syscr p1.index))
  | .SYSCW => some (to_int (diff_stat p2.syscw p2.index - diff_stat p1.syscw p1.index))
  | .WRITES =>
    some (to_int (diff_stat p2.write_bytes p2.index - diff_stat p1.write_bytes p1.index))
  | .XTIME => some (to_int (to_ulong ((p2.xtime : Int) - (p1.xtime : Int))))

/-- The condition of the `if` a key opens, on the value just assigned: `== 0` for every
key but `ORDERKEY_STATE`, whose condition is the assigned value itself. -/
def OrderKey.test (k : OrderKey) (result : Int) : Bool :=
  match k with
  | .STATE => result != 0
  | _ => result == 0

/-- Execution of keys listed one after the other and closed by `;`: each key assigns
`result` and, when its condition holds, runs the rest; `none` when an assignment that is
reached has no value. -/
def run_keys : List OrderKey → top_proc → top_proc → Int → Option Int
  | [], _, _, result => some result
  | k :: ks, p1, p2, _ =>
    match k.result p1 p2 with
    | none => none
    | some r => if k.test r then run_keys ks p1 p2 r else some r

/-- A comparison function: the keys listed in its body. -/
structure Comparator where
  keys : List OrderKey
deriving DecidableEq

/-- Call of a comparison function on `v1` and `v2`; `result` starts uninitialised and is
always assigned, since no body is empty.  `none`: the call does not return. -/
def Comparator.call (c : Comparator) (v1 v2 : top_proc) : Option Int :=
  run_keys c.keys v1 v2 0

/-- `compare_cmd`. -/
def compare_cmd : Comparator := ⟨[.NAME, .PCTCPU, .STATE, .RSSIZE, .MEM]⟩

/-- `compare_cpu`. -/
def compare_cpu : Comparator := ⟨[.PCTCPU, .STATE, .RSSIZE, .MEM]⟩

/-- `compare_iops`. -/
def compare_iops : Comparator := ⟨[.IOPS, .SYSCW, .SYSCR, .READS, .WRITES, .NAME]⟩

/-- `compare_lag_flush`. -/
def compare_lag_flush : Comparator := ⟨[.LAG_FLUSH, .PCTCPU, .STATE, .MEM, .RSSIZE]⟩

/-- `compare_lag_replay`. -/
def compare_lag_replay : Comparator := ⟨[.LAG_REPLAY, .PCTCPU, .STATE, .MEM, .RSSIZE]⟩

/-- `compare_lag_sent`. -/
def compare_lag_sent : Comparator := ⟨[.LAG_SENT, .PCTCPU, .STATE, .MEM, .RSSIZE]⟩

/-- `compare_lag_write`. -/
def compare_lag_write : Comparator := ⟨[.LAG_WRITE, .PCTCPU, .STATE, .MEM, .RSSIZE]⟩

/-- `compare_locks`. -/
def compare_locks : Comparator := ⟨[.LOCKS, .QTIME, .PCTCPU, .STATE, .MEM, .RSSIZE]⟩

/-- `compare_qtime`. -/
def compare_qtime : Comparator := ⟨[.QTIME, .PCTCPU, .STATE, .MEM, .RSSIZE]⟩

/-- `compare_reads`. -/
def compare_reads : Comparator := ⟨[.READS, .SYSCR, .IOPS, .SYSCW, .WRITES, .NAME]⟩

/-- `compare_res`. -/
def compare_res : Comparator := ⟨[.RSSIZE, .MEM, .PCTCPU, .STATE]⟩

/-- `compare_size`. -/
def compare_size : Comparator := ⟨[.MEM, .RSSIZE, .PCTCPU, .STATE]⟩

/-- `compare_syscr`. -/
def compare_syscr : Comparator := ⟨[.SYSCR, .IOPS, .SYSCW, .READS, .WRITES, .NAME]⟩

/-- `compare_syscw`. -/
def compare_syscw : Comparator := ⟨[.SYSCW, .IOPS, .SYSCR, .READS, .WRITES, .NAME]⟩

/-- `compare_xtime`. -/
def compare_xtime : Comparator := ⟨[.XTIME, .PCTCPU, .STATE, .MEM, .RSSIZE]⟩

/-- `compare_writes`. -/
def compare_writes : Comparator := ⟨[.WRITES, .IOPS, .SYSCR, .SYSCW, .READS, .NAME]⟩

/-- `ordernames`; `none` is the closing `NULL`. -/
def ordernames : List (Option String) :=
  [some "cpu", some "size", some "res", some "xtime", some "qtime", some "iops",
   some "iorps", some "iowps", some "reads", some "writes", some "locks", some "command",
   some "flag", some "rlag", some "slag", some "wlag", none]

/-- `proc_compares`; `none` is the closing `NULL`. -/
def proc_compares : List (Option Comparator) :=
  [some compare_cpu, some compare_size, some compare_res, some compare_xtime,
   some compare_qtime, some compare_iops, some compare_syscr, some compare_syscw,
   some compare_reads, some compare_writes, some compare_locks, some compare_cmd,
   some compare_lag_flush, some compare_lag_replay, some compare_lag_sent,
   some compare_lag_write, none]

/-! ## `get_process_info` and the formatters -/

/-- `get_process_info(si, sel, compare_index, conninfo, mode)`.  `conn` is the tuples the
query returned, `none` when there is no connection; `thistime` is what `gettimeofday`
returned. -/
def get_process_info (env : Env) (st : State) (sel : process_select) (compare_index : Int)
    (conn : Option (List Row)) (mode : Int) (thistime : timeval) : Option State :=
  let timediff := elapsed st.lasttime thistime
  let tickdiff := timediff * (env.HZ : ℚ)
  let start : Loop :=
    { head_proc := st.head_proc, pgtable := [],
      process_states := List.replicate env.NPROCSTATES 0, total_procs := 0, active_procs := 0 }
  match process_rows env sel mode tickdiff start (conn.getD []) with
  | none => none
  | some l =>
    let st1 : State :=
      { head_proc := l.head_proc, timediff := timediff, lasttime := thistime,
        pgtable := l.pgtable, proc_index := 0, process_states := l.process_states,
        fmt_header := st.fmt_header, p_active := l.active_procs, p_total := l.total_procs }
    if 0 ≤ compare_index ∧ l.active_procs ≠ 0 then
      match proc_compares.get? compare_index.toNat with
      | some (some cmp) =>
        match env.qsort cmp.call l.pgtable with
        | some sorted => some { st1 with pgtable := sorted }
        | none => none
      | _ => none
    else some st1

/-- The initial contents of `fmt_header`. -/
def fmt_header_init : List Char :=
  "    PID X           SIZE   RES STATE   XTIME  QTIME  %CPU LOCKS COMMAND".data

/-- The state of the module before the first call. -/
def State.init (env : Env) : State :=
  { head_proc := [], timediff := 0, lasttime := ⟨0, 0⟩, pgtable := [], proc_index := 0,
    process_states := List.replicate env.NPROCSTATES 0, fmt_header := fmt_header_init,
    p_active := 0, p_total := 0 }

/-- `format_header(uname_field)`: the returned header and the new state.  `none`: the
copy has no destination (`strchr` found no `X`) or runs past the terminator. -/
def format_header (st : State) (uname_field : String) : Option (List Char × State) :=
  let uname_len := min uname_field.data.length 8
  match strchr st.fmt_header 'X' with
  | none => if uname_len = 0 then some (st.fmt_header, st) else none
  | some dst =>
    if dst.length < uname_len then none
    else
      let header := st.fmt_header.take (st.fmt_header.length - dst.length) ++
        uname_field.data.take uname_len ++ dst.drop uname_len
      some (header, { st with fmt_header := header })

/-- A quotient of doubles `d / timediff`; `none` when the divisor is zero. -/
def per_second (d : Int) (timediff : ℚ) : Option ℚ :=
  if timediff = 0 then none else some ((d : ℚ) / timediff)

/-- The arguments `format_next_io` hands to `snprintf` and `format_b`. -/
structure io_line where
  pid : Int
  iops : Option ℚ
  syscr : Option ℚ
  syscw : Option ℚ
  reads : Option ℚ
  writes : Option ℚ
  name : Option String

/-- `format_next_io(handle)`: the values formatted for `pgtable[proc_index++]`; `none`
when the cursor is past the entries written in the cycle. -/
def format_next_io (st : State) : Option (io_line × State) :=
  match st.pgtable.get? st.proc_index with
  | none => none
  | some p =>
    some ({ pid := p.pid,
            iops := per_second (diff_stat p.iops p.index) st.timediff,
            syscr := per_second (diff_stat p.syscr p.index) st.timediff,
            syscw := per_second (diff_stat p.syscw p.index) st.timediff,
            reads := per_second (diff_stat p.read_bytes p.index) st.timediff,
            writes := per_second (diff_stat p.write_bytes p.index) st.timediff,
            name := p.name },
          { st with proc_index := st.proc_index + 1 })

/-! ## Sequences of cycles -/

/-- The arguments and inputs of one call of `get_process_info`. -/
structure Cycle where
  sel : process_select
  compare_index : Int
  conn : Option (List Row)
  mode : Int
  thistime : timeval

/-- The calls of `get_process_info` made by the display loop, one after the other. -/
def run_cycles (env : Env) : State → List Cycle → Option State
  | st, [] => some st
  | st, c :: cs =>
    match get_process_info env st c.sel c.compare_index c.conn c.mode c.thistime with
    | none => none
    | some st1 => run_cycles env st1 cs

/-- The store is ascending in `topproccmp`, without two members that compare equal. -/
def store_sorted (head : List top_proc) : Prop :=
  head.Pairwise (fun a b => a.pid < b.pid)

/-! ## Concrete inputs -/

/-- Insertion of `x` before the first entry it does not sort after, by a comparison
function that may fault. -/
def example_insert (cmp : top_proc → top_proc → Option Int) (x : top_proc) :
    List top_proc → Option (List top_proc)
  | [] => some [x]
  | y :: ys =>
    match cmp x y with
    | none => none
    | some r =>
      if r ≤ 0 then some (x :: y :: ys) else (example_insert cmp x ys).map (fun t => y :: t)

/-- A sort by insertion, standing for the library `qsort`: it faults when a comparison
it makes faults. -/
def example_qsort (cmp : top_proc → top_proc → Option Int) :
    List top_proc → Option (List top_proc)
  | [] => some []
  | x :: xs => (example_qsort cmp xs).bind (example_insert cmp x)

/-- An environment: 100 ticks per second, 4 KiB pages, eight database states of which
state 2 is idle, replication mode 1, a `printable` that leaves its argument as it is
and the sort by insertion. -/
def example_env : Env :=
  { HZ := 100, MAX_COLS := 255, pagesize := 4096, NPROCSTATES := 8, STATE_IDLE := 2,
    MODE_REPLICATION := 1,
    update_state := fun _ s => if s = "idle" then 2 else if s = "active" then 1 else 0,
    printable := fun s => s,
    qsort := example_qsort }

/-- A tuple with the given pid, user and state text, no `/proc` data, zero elsewhere. -/
def example_row (pid : Int) (usename state : String) : Row :=
  { pid := pid, usename := usename, state := state, xstart := 0, qstart := 0, locks := 0,
    query := "", application_name := "", client_addr := "", wal_insert := "", sent := "",
    write := "", flush := "", replay := "", sent_lag := 0, write_lag := 0, flush_lag := 0,
    replay_lag := 0, files := { cmdline := none, stat := [], io := none } }

/-- A replication cycle whose row-set names pid 7 twice and pid 3 once. -/
def example_cycle_replication : Cycle :=
  { sel := { idle := 1, fullcmd := 0, usename := "" }, compare_index := -1,
    conn := some [example_row 7 "rep" "streaming", example_row 3 "rep" "streaming",
                  example_row 7 "rep" "streaming"],
    mode := 1, thistime := ⟨100, 0⟩ }

/-- The record a replication row of `example_row` leaves, with slot index `index`. -/
def example_record (pid index : Int) : top_proc :=
  { top_proc.zero with pid := pid, index := index, usename := "rep", repstate := "streaming" }

/-- The state after `example_cycle_replication` from the initial state. -/
def example_state_replication : State :=
  { head_proc := [example_record 3 1, example_record 7 0], timediff := 0,
    lasttime := ⟨100, 0⟩,
    pgtable := [example_record 7 0, example_record 3 0, example_record 7 1],
    proc_index := 0, process_states := List.replicate 8 0, fmt_header := fmt_header_init,
    p_active := 3, p_total := 3 }

/-- A pgtable entry whose read-bytes slots are (1000, 1500) with slot 1 current. -/
def example_io_record : top_proc :=
  { top_proc.zero with pid := 42, index := 1, read_bytes := ⟨1000, 1500⟩ }

/-- A state one second after the previous sample, with `example_io_record` under the
cursor. -/
def example_state_io : State :=
  { head_proc := [], timediff := 1, lasttime := ⟨101, 0⟩, pgtable := [example_io_record],
    proc_index := 0, process_states := List.replicate 8 0, fmt_header := fmt_header_init,
    p_active := 1, p_total := 1 }

/-- The CPU fraction in the words of the specification:
`(ticks_now - ticks_prev) / (elapsed_seconds * ticks_per_second)`. -/
def spec_cpu_fraction (ticks_now ticks_prev : Nat) (elapsed_seconds : ℚ)
    (ticks_per_second : Nat) : ℚ :=
  ((ticks_now : ℚ) - (ticks_prev : ℚ)) / (elapsed_seconds * (ticks_per_second : ℚ))

/-- A selection that shows idle processes of every user, short command names. -/
def example_sel : process_select := { idle := 1, fullcmd := 0, usename := "" }

/-- A status line with `utime` 30 and `stime` 10. -/
def example_stat_40 : List Char :=
  "5 (postgres) R 1 2 3 4 5 6 7 8 9 10 30 10 0 0 20 0 1 0 777 4096 1".data

/-- A row for pid 5 whose status line is `example_stat_40`; no I/O accounting. -/
def example_row_40 : Row :=
  { example_row 5 "alice" "active" with
    files := { cmdline := none, stat := example_stat_40, io := none } }

/-- A loop state whose store holds a record for pid 5 with a tick total of `time`. -/
def example_loop (time : Nat) : Loop :=
  { head_proc := [{ top_proc.zero with pid := 5, time := time }], pgtable := [],
    process_states := List.replicate 8 0, total_procs := 0, active_procs := 0 }

/-- The record of pid 5 after `example_row_40` is processed: slot index `index`, CPU
fraction `pcpu`. -/
def example_record_40 (index : Int) (pcpu : ℚ) : top_proc :=
  { top_proc.zero with pid := 5, index := index, name := some "postgres", usename := "alice",
                       size := 4, rss := 4, state := 1, pgstate := 1, time := 40,
                       start_time := 777, pcpu := pcpu }

/-- The loop state after `example_row_40` is processed from a store that holds pid 5
alone, with `pcpu` the CPU fraction stored. -/
def example_loop_after (pcpu : ℚ) : Loop :=
  { head_proc := [example_record_40 1 pcpu], pgtable := [example_record_40 0 pcpu],
    process_states := [0, 1, 0, 0, 0, 0, 0, 0], total_procs := 1, active_procs := 1 }

/-- The inclusion condition of normal mode in the words of the specification: idle
display is on or the database state is not idle, and the username filter is empty or
equals the username of the record. -/
def spec_included (env : Env) (sel : process_select) (n : top_proc) : Prop :=
  (sel.idle ≠ 0 ∨ n.pgstate ≠ env.STATE_IDLE) ∧ (sel.usename = "" ∨ n.usename = sel.usename)

instance (env : Env) (sel : process_select) (n : top_proc) :
    Decidable (spec_included env sel n) := by
  unfold spec_included; infer_instance

/-- A selection that hides idle processes and keeps the user alice. -/
def example_sel_alice : process_select := { idle := 0, fullcmd := 0, usename := "alice" }

/-- The loop state at the start of a cycle over an empty store. -/
def example_loop_start : Loop :=
  { head_proc := [], pgtable := [], process_states := List.replicate 8 0, total_procs := 0,
    active_procs := 0 }

/-- The key each order name stands for, in the words of the specification: CPU
fraction, memory size, resident size, transaction time, query time, I/O-ops delta,
read-syscall delta, write-syscall delta, read-byte delta, write-byte delta, lock count,
command name and the four replication lags. -/
def spec_named_key (name : String) : Option OrderKey :=
  if name = "cpu" then some .PCTCPU
  else if name = "size" then some .MEM
  else if name = "res" then some .RSSIZE
  else if name = "xtime" then some .XTIME
  else if name = "qtime" then some .QTIME
  else if name = "iops" then some .IOPS
  else if name = "iorps" then some .SYSCR
  else if name = "iowps" then some .SYSCW
  else if name = "reads" then some .READS
  else if name = "writes" then some .WRITES
  else if name = "locks" then some .LOCKS
  else if name = "command" then some .NAME
  else if name = "flag" then some .LAG_FLUSH
  else if name = "rlag" then some .LAG_REPLAY
  else if name = "slag" then some .LAG_SENT
  else if name = "wlag" then some .LAG_WRITE
  else none

/-- A replication cycle one second after `example_cycle_replication`, naming pid 7. -/
def example_cycle_next : Cycle :=
  { sel := { idle := 1, fullcmd := 0, usename := "" }, compare_index := -1,
    conn := some [example_row 7 "rep" "streaming"], mode := 1, thistime := ⟨101, 0⟩ }

/-- The state after `example_cycle_next` from `example_state_replication`. -/
def example_state_next : State :=
  { head_proc := [example_record 3 1, example_record 7 1], timediff := 1,
    lasttime := ⟨101, 0⟩, pgtable := [example_record 7 0], proc_index := 0,
    process_states := List.replicate 8 0, fmt_header := fmt_header_init,
    p_active := 1, p_total := 1 }

/-- The fields of a record that come from the operating system: command name, sizes,
run state, tick total, start time, CPU fraction and the five I/O counters. -/
def os_fields (n : top_proc) :
    Option String × Nat × Nat × Int × Nat × Nat × ℚ × Slots × Slots × Slots × Slots ×
      Slots :=
  (n.name, n.size, n.rss, n.state, n.time, n.start_time, n.pcpu, n.iops, n.syscr, n.syscw,
    n.read_bytes, n.write_bytes)

/-- A row for pid 9 of user alice, active, whose `/proc` files cannot be read. -/
def example_row_unread : Row := example_row 9 "alice" "active"

/-- The loop state after `example_row_unread` is processed from `example_loop_start`
in normal mode, with no time elapsed. -/
def example_loop_unread : Loop :=
  { head_proc := [{ top_proc.zero with pid := 9, index := 1, usename := "alice", pgstate := 1 }],
    pgtable := [{ top_proc.zero with pid := 9, usename := "alice", pgstate := 1 }],
    process_states := [0, 1, 0, 0, 0, 0, 0, 0], total_procs := 1, active_procs := 1 }

/-- What identifies an entry of the active buffer for membership: pid, username and
database state. -/
def entry_key (n : top_proc) : Int × String × Int := (n.pid, n.usename, n.pgstate)

/-- The state after a first normal-mode cycle over `example_row_40`, at clock 100. -/
def example_state_first : State :=
  { head_proc := [example_record_40 1 0], timediff := 0, lasttime := ⟨100, 0⟩,
    pgtable := [example_record_40 0 0], proc_index := 0,
    process_states := [0, 1, 0, 0, 0, 0, 0, 0], fmt_header := fmt_header_init,
    p_active := 1, p_total := 1 }

/-- The five values the `GET_VALUE` calls of `read_io` assign to `tmp`, in the order of
the calls; `none` when one of them exits. -/
def io_values (bytes : List Char) : Option (Int × Int × Int × Int × Int) :=
  match GET_VALUE (skip_token (skip_token (cstr (bytes.take 4095)))) with
  | none => none
  | some (v1, p) =>
    match GET_VALUE p with
    | none => none
    | some (v2, p) =>
      match GET_VALUE p with
      | none => none
      | some (v3, p) =>
        match GET_VALUE p with
        | none => none
        | some (v4, p) =>
          match GET_VALUE p with
          | none => none
          | some (v5, _) => some (v1, v2, v3, v4, v5)

/-- The status text has its parenthesised command and a state character after it, so
that `read_one_proc_stat` goes on to the I/O counters. -/
def status_complete (f : ProcFiles) : Prop :=
  ∃ p cmd rest c q, strchr (cstr (f.stat.take 4095)) '(' = some p ∧
    strrchr p.tail ')' = some (cmd, rest) ∧ skip_ws rest = c :: q

/-- The contents of `/proc/<pid>/io` as the kernel writes them. -/
def example_io_text : List Char :=
  "rchar: 1000\nwchar: 2000\nsyscr: 10\nsyscw: 20\nread_bytes: 4096\nwrite_bytes: 8192\ncancelled_write_bytes: 100\n".data

/-- A second I/O accounting text, read one cycle after `example_io_text`. -/
def example_io_text_next : List Char :=
  "rchar: 1500\nwchar: 2600\nsyscr: 15\nsyscw: 27\nread_bytes: 8192\nwrite_bytes: 12289\ncancelled_write_bytes: 100\n".data

/-- A row for pid 5 whose status line is `example_stat_40`, with the given I/O
accounting text (`none`: the file cannot be opened). -/
def example_row_io (io : Option (List Char)) : Row :=
  { example_row 5 "alice" "active" with
    files := { cmdline := none, stat := example_stat_40, io := io } }

/-- A normal-mode cycle at clock `sec` whose row-set is pid 5 alone, unsorted. -/
def example_cycle_io (sec : Int) (io : Option (List Char)) : Cycle :=
  { sel := example_sel, compare_index := -1, conn := some [example_row_io io], mode := 0,
    thistime := ⟨sec, 0⟩ }

/-- The record of pid 5 with the given slot index and I/O counter slots. -/
def example_record_io (index : Int) (syscr syscw iops read_bytes write_bytes : Slots) :
    top_proc :=
  { example_record_40 index 0 with syscr := syscr, syscw := syscw, iops := iops,
                                   read_bytes := read_bytes, write_bytes := write_bytes }

/-- A state at clock `sec` whose store holds `stored` and whose active buffer holds
`entry`, one process in state 1. -/
def example_state_of (sec : Int) (timediff : ℚ) (stored entry : top_proc) : State :=
  { head_proc := [stored], timediff := timediff, lasttime := ⟨sec, 0⟩, pgtable := [entry],
    proc_index := 0, process_states := [0, 1, 0, 0, 0, 0, 0, 0], fmt_header := fmt_header_init,
    p_active := 1, p_total := 1 }

/-- The relation of the three syscall counters of a record: in either slot the
I/O-ops counter is the sum of the read-syscall and the write-syscall counter. -/
def iops_is_sum (n : top_proc) : Prop :=
  ∀ s : Int, n.iops.get s = n.syscr.get s + n.syscw.get s

/-- The value the accounting text reports under a field name, in the words of the
specification: the number on the line that starts with the name and a colon. -/
def spec_io_field (name : String) (bytes : List Char) : Option Int :=
  ((bytes.splitOn (Char.ofNat 10)).find? (fun line => (name.data ++ [':']).isPrefixOf line)).map
    (fun line => atoll (line.drop (name.data.length + 1)))

/-- A record named `postgres` that is zero but for its database state and resident
size. -/
def example_proc (pgstate : Int) (rss : Nat) : top_proc :=
  { top_proc.zero with name := some "postgres", pgstate := pgstate, rss := rss }

/-- A first sample (slot 0 written, slot 1 zero) of a process named `postgres` in which
each I/O counter is `v`. -/
def example_proc_io (v : Int) : top_proc :=
  { top_proc.zero with name := some "postgres", iops := ⟨v, 0⟩, syscr := ⟨v, 0⟩,
                       syscw := ⟨v, 0⟩, read_bytes := ⟨v, 0⟩, write_bytes := ⟨v, 0⟩ }

/-- A row-set of an active process of alice and an idle process of bob, neither with
readable `/proc` files. -/
def example_rows_two : List Row := [example_row 9 "alice" "active", example_row 3 "bob" "idle"]

/-- The state after a first normal-mode cycle over `example_rows_two` at clock 100, with
idle processes hidden and the user filter alice. -/
def example_state_two : State :=
  { head_proc := [{ top_proc.zero with pid := 3, index := 1, usename := "bob", pgstate := 2 },
                  { top_proc.zero with pid := 9, index := 1, usename := "alice", pgstate := 1 }],
    timediff := 0, lasttime := ⟨100, 0⟩,
    pgtable := [{ top_proc.zero with pid := 9, usename := "alice", pgstate := 1 }],
    proc_index := 0, process_states := [0, 1, 1, 0, 0, 0, 0, 0],
    fmt_header := fmt_header_init, p_active := 1, p_total := 2 }

/-! # Properties -/

/-! ## The store holds one record per pid -/

theorem mem_RB_INSERT (head : List top_proc) (n x : top_proc)
    (hx : x ∈ (RB_INSERT head n).1) : x = n ∨ x ∈ head := by
  induction head with
  | nil => simp [RB_INSERT] at hx; exact Or.inl hx
  | cons e rest ih =>
    unfold RB_INSERT at hx
    split_ifs at hx with h1 h2
    · simp at hx; rcases hx with h | h | h
      · exact Or.inl h
      · exact Or.inr (by simp [h])
      · exact Or.inr (by simp [h])
    · simp at hx
      rcases hx with h | h
      · exact Or.inr (by simp [h])
      · rcases ih h with h | h
        · exact Or.inl h
        · exact Or.inr (by simp [h])
    · exact Or.inr hx

theorem topproccmp_neg (a b : top_proc) : topproccmp a b < 0 ↔ a.pid < b.pid := by
  unfold topproccmp; split_ifs <;> simp <;> omega

theorem topproccmp_pos (a b : top_proc) : topproccmp a b > 0 ↔ b.pid < a.pid := by
  unfold topproccmp; split_ifs <;> simp <;> omega

theorem RB_INSERT_sorted (head : List top_proc) (n : top_proc) (h : store_sorted head) :
    store_sorted (RB_INSERT head n).1 := by
  induction head with
  | nil => simp [RB_INSERT, store_sorted]
  | cons e rest ih =>
    have hs := h
    unfold store_sorted at h
    rw [List.pairwise_cons] at h
    unfold RB_INSERT
    split_ifs with h1 h2
    · rw [topproccmp_neg] at h1
      show List.Pairwise _ (n :: e :: rest)
      rw [List.pairwise_cons]
      refine ⟨?_, hs⟩
      intro x hx
      rcases List.mem_cons.1 hx with hx | hx
      · rw [hx]; exact h1
      · exact lt_trans h1 (h.1 x hx)
    · rw [gt_iff_lt, ← gt_iff_lt, topproccmp_pos] at h2
      show List.Pairwise _ (e :: (RB_INSERT rest n).1)
      rw [List.pairwise_cons]
      refine ⟨?_, ih h.2⟩
      intro x hx
      rcases mem_RB_INSERT rest n x hx with hx | hx
      · rw [hx]; exact h2
      · exact h.1 x hx
    · exact hs

theorem RB_INSERT_present (head : List top_proc) (n e : top_proc) (h : store_sorted head)
    (he : e ∈ head) (hp : e.pid = n.pid) : RB_INSERT head n = (head, some e) := by
  induction head with
  | nil => simp at he
  | cons a rest ih =>
    unfold store_sorted at h
    rw [List.pairwise_cons] at h
    unfold RB_INSERT
    rcases List.mem_cons.1 he with hea | her
    · subst hea
      have h1 : ¬ topproccmp n e < 0 := by rw [topproccmp_neg]; omega
      have h2 : ¬ topproccmp n e > 0 := by rw [topproccmp_pos]; omega
      simp [h1, h2]
    · have hlt := h.1 e her
      have h1 : ¬ topproccmp n a < 0 := by rw [topproccmp_neg]; omega
      have h2 : topproccmp n a > 0 := by rw [topproccmp_pos]; omega
      simp only [h1, h2, if_true, if_false]
      rw [ih h.2 her]

theorem RB_INSERT_absent (head : List top_proc) (n : top_proc)
    (h : ∀ e ∈ head, e.pid ≠ n.pid) :
    ∃ pre post, head = pre ++ post ∧ RB_INSERT head n = (pre ++ n :: post, none) := by
  induction head with
  | nil => exact ⟨[], [], rfl, rfl⟩
  | cons a rest ih =>
    unfold RB_INSERT
    split_ifs with h1 h2
    · exact ⟨[], a :: rest, rfl, rfl⟩
    · obtain ⟨pre, post, e1, e2⟩ := ih (fun e he => h e (by simp [he]))
      refine ⟨a :: pre, post, by simp [e1], ?_⟩
      rw [e2]; simp
    · exfalso
      rw [topproccmp_neg] at h1
      rw [gt_iff_lt, ← gt_iff_lt, topproccmp_pos] at h2
      have := h a (by simp)
      omega

theorem write_back_pids (head : List top_proc) (n : top_proc) :
    (write_back head n).map top_proc.pid = head.map top_proc.pid := by
  unfold write_back
  rw [List.map_map]
  apply List.map_congr_left
  intro e _
  simp only [Function.comp]
  split_ifs with h
  · exact h.symm
  · rfl

theorem store_sorted_iff (head : List top_proc) :
    store_sorted head ↔ (head.map top_proc.pid).Pairwise (fun a b => a < b) := by
  unfold store_sorted
  rw [List.pairwise_map]

theorem write_back_sorted (head : List top_proc) (n : top_proc) (h : store_sorted head) :
    store_sorted (write_back head n) := by
  rw [store_sorted_iff, write_back_pids, ← store_sorted_iff]; exact h

theorem process_row_head (env : Env) (sel : process_select) (mode : Int) (tickdiff : ℚ)
    (l l1 : Loop) (row : Row) (hr : process_row env sel mode tickdiff l row = some l1) :
    ∃ n, l1.head_proc =
      write_back (RB_INSERT l.head_proc { top_proc.zero with pid := row.pid }).1 n := by
  unfold process_row at hr
  simp only at hr
  split_ifs at hr with hm
  · injection hr with hr
    exact ⟨_, by rw [← hr]⟩
  · split at hr
    · exact absurd hr (by simp)
    · split at hr
      · exact absurd hr (by simp)
      · injection hr with hr
        exact ⟨_, by rw [← hr]⟩

theorem process_row_sorted (env : Env) (sel : process_select) (mode : Int) (tickdiff : ℚ)
    (l l1 : Loop) (row : Row) (h : store_sorted l.head_proc)
    (hr : process_row env sel mode tickdiff l row = some l1) : store_sorted l1.head_proc := by
  obtain ⟨n, hn⟩ := process_row_head env sel mode tickdiff l l1 row hr
  rw [hn]
  exact write_back_sorted _ _ (RB_INSERT_sorted _ _ h)

theorem process_rows_sorted (env : Env) (sel : process_select) (mode : Int) (tickdiff : ℚ)
    (rows : List Row) (l l1 : Loop) (h : store_sorted l.head_proc)
    (hr : process_rows env sel mode tickdiff l rows = some l1) : store_sorted l1.head_proc := by
  induction rows generalizing l with
  | nil => simp [process_rows] at hr; rw [← hr]; exact h
  | cons row rows ih =>
    unfold process_rows at hr
    split at hr
    · exact absurd hr (by simp)
    · next l2 h2 => exact ih l2 (process_row_sorted env sel mode tickdiff l l2 row h h2) hr

theorem get_process_info_head (env : Env) (st st1 : State) (sel : process_select)
    (compare_index : Int) (conn : Option (List Row)) (mode : Int) (thistime : timeval)
    (hr : get_process_info env st sel compare_index conn mode thistime = some st1) :
    ∃ l, process_rows env sel mode (elapsed st.lasttime thistime * (env.HZ : ℚ))
        { head_proc := st.head_proc, pgtable := [],
          process_states := List.replicate env.NPROCSTATES 0, total_procs := 0,
          active_procs := 0 } (conn.getD []) = some l
      ∧ st1.head_proc = l.head_proc ∧ st1.p_active = l.active_procs
      ∧ st1.p_total = l.total_procs ∧ st1.process_states = l.process_states
      ∧ st1.timediff = elapsed st.lasttime thistime
      ∧ (compare_index < 0 → st1.pgtable = l.pgtable) := by
  unfold get_process_info at hr
  simp only at hr
  split at hr
  · exact absurd hr (by simp)
  · next l hl =>
    refine ⟨l, hl, ?_⟩
    split_ifs at hr with hc
    · split at hr
      · split at hr
        · injection hr with hr
          subst hr
          exact ⟨rfl, rfl, rfl, rfl, rfl, fun h => absurd hc.1 (by omega)⟩
        · exact absurd hr (by simp)
      · exact absurd hr (by simp)
    · injection hr with hr
      subst hr
      exact ⟨rfl, rfl, rfl, rfl, rfl, fun _ => rfl⟩

/-- The two ways a call of `get_process_info` returns: without a sort, the active
buffer being the one the row loop left, or through `qsort`, which has returned the
buffer the state holds. -/
theorem get_process_info_cases (env : Env) (st st1 : State) (sel : process_select)
    (compare_index : Int) (conn : Option (List Row)) (mode : Int) (thistime : timeval)
    (hr : get_process_info env st sel compare_index conn mode thistime = some st1) :
    ∃ l, process_rows env sel mode (elapsed st.lasttime thistime * (env.HZ : ℚ))
        { head_proc := st.head_proc, pgtable := [],
          process_states := List.replicate env.NPROCSTATES 0, total_procs := 0,
          active_procs := 0 } (conn.getD []) = some l ∧
      (¬ (0 ≤ compare_index ∧ l.active_procs ≠ 0) ∧ st1.pgtable = l.pgtable ∨
        (0 ≤ compare_index ∧ l.active_procs ≠ 0) ∧
          ∃ cmp, proc_compares.get? compare_index.toNat = some (some cmp) ∧
            env.qsort cmp.call l.pgtable = some st1.pgtable) := by
  unfold get_process_info at hr
  simp only at hr
  split at hr
  · exact absurd hr (by simp)
  · next l hl =>
    refine ⟨l, hl, ?_⟩
    split_ifs at hr with hc
    · split at hr
      · next cmp hcmp =>
        split at hr
        · next sorted hq =>
          injection hr with hr
          subst hr
          exact Or.inr ⟨hc, cmp, hcmp, hq⟩
        · exact absurd hr (by simp)
      · exact absurd hr (by simp)
    · injection hr with hr
      subst hr
      exact Or.inl ⟨hc, rfl⟩

theorem get_process_info_sorted (env : Env) (st st1 : State) (sel : process_select)
    (compare_index : Int) (conn : Option (List Row)) (mode : Int) (thistime : timeval)
    (h : store_sorted st.head_proc)
    (hr : get_process_info env st sel compare_index conn mode thistime = some st1) :
    store_sorted st1.head_proc := by
  obtain ⟨l, hl, hh, _⟩ := get_process_info_head env st st1 sel compare_index conn mode thistime hr
  rw [hh]
  exact process_rows_sorted env sel mode _ _ _ l h hl

theorem run_cycles_sorted (env : Env) (cycles : List Cycle) (st st1 : State)
    (h : store_sorted st.head_proc) (hr : run_cycles env st cycles = some st1) :
    store_sorted st1.head_proc := by
  induction cycles generalizing st with
  | nil => simp [run_cycles] at hr; rw [← hr]; exact h
  | cons c cs ih =>
    unfold run_cycles at hr
    split at hr
    · exact absurd hr (by simp)
    · next st2 h2 =>
      exact ih st2 (get_process_info_sorted env st st2 _ _ _ _ _ h h2) hr

theorem sorted_nodup (head : List top_proc) (h : store_sorted head) :
    (head.map top_proc.pid).Nodup := by
  rw [store_sorted_iff] at h
  exact h.imp (fun hab => ne_of_lt hab)

/-- C1: after any sequence of refresh cycles, whatever the row-sets (a pid may repeat in
one), and at every point of a following row loop, no two records of the store have the
same pid; on such a store the insert of a pid that is present returns the stored record
and leaves the store as it was (so the time and the I/O slots of the record are
untouched and the fresh allocation is dropped), and the insert of an absent pid links
one all-zero record carrying that pid. -/
theorem C1_store_one_record_per_pid (env : Env) (cycles : List Cycle) (st : State)
    (hrun : run_cycles env (State.init env) cycles = some st) :
    (st.head_proc.map top_proc.pid).Nodup ∧
    (∀ (sel : process_select) (mode : Int) (tickdiff : ℚ) (rows : List Row) (l0 l : Loop),
      l0.head_proc = st.head_proc → process_rows env sel mode tickdiff l0 rows = some l →
      (l.head_proc.map top_proc.pid).Nodup) ∧
    (∀ (pid : Int) (e : top_proc), e ∈ st.head_proc → e.pid = pid →
      RB_INSERT st.head_proc { top_proc.zero with pid := pid } = (st.head_proc, some e) ∧
      upsert_record st.head_proc pid = e) ∧
    (∀ (pid : Int), (∀ e ∈ st.head_proc, e.pid ≠ pid) →
      (∃ pre post, st.head_proc = pre ++ post ∧
        RB_INSERT st.head_proc { top_proc.zero with pid := pid } =
          (pre ++ { top_proc.zero with pid := pid } :: post, none)) ∧
      upsert_record st.head_proc pid = { top_proc.zero with pid := pid }) := by
  have hs : store_sorted st.head_proc :=
    run_cycles_sorted env cycles (State.init env) st (by simp [State.init, store_sorted]) hrun
  refine ⟨sorted_nodup _ hs, ?_, ?_, ?_⟩
  · intro sel mode tickdiff rows l0 l h0 hl
    exact sorted_nodup _ (process_rows_sorted env sel mode tickdiff rows l0 l (h0 ▸ hs) hl)
  · intro pid e he hp
    have h := RB_INSERT_present st.head_proc { top_proc.zero with pid := pid } e hs he hp
    exact ⟨h, by simp [upsert_record, h]⟩
  · intro pid hab
    obtain ⟨pre, post, e1, e2⟩ :=
      RB_INSERT_absent st.head_proc { top_proc.zero with pid := pid } hab
    exact ⟨⟨pre, post, e1, e2⟩, by unfold upsert_record; rw [e2]; rfl⟩

theorem C1_witness :
    run_cycles example_env (State.init example_env) [example_cycle_replication]
      = some example_state_replication ∧
    (example_state_replication.head_proc.map top_proc.pid).Nodup :=
  ⟨by rfl, (C1_store_one_record_per_pid example_env [example_cycle_replication]
    example_state_replication (by rfl)).1⟩

/-! ## Differences of the two slots -/

theorem diff_stat_other (v : Slots) (i : Int) (hi : i = 0 ∨ i = 1) :
    diff_stat v i = v.get i - v.get (1 - i) := by
  rcases hi with h | h <;> subst h <;> rfl

/-- C2: for an index 0 or 1, `diff_stat` is the slot at the index minus the other slot,
never slot 0 as such: slots (1000, 1500) at index 1 and slots (1500, 1000) at index 0
both give 500; and each rate `format_next_io` formats for the entry under the cursor is
that difference divided by the elapsed seconds `timediff`, 500 per second for a
difference of 500 over one second. -/
theorem C2_diff_stat_other_slot (v : Slots) (i : Int) (hi : i = 0 ∨ i = 1)
    (st : State) (p : top_proc) (hp : st.pgtable.get? st.proc_index = some p)
    (ht : st.timediff ≠ 0) :
    diff_stat v i = v.get i - v.get (1 - i) ∧
    diff_stat ⟨1000, 1500⟩ 1 = 500 ∧ diff_stat ⟨1500, 1000⟩ 0 = 500 ∧
    (∃ line st1, format_next_io st = some (line, st1) ∧
      line.iops = some ((diff_stat p.iops p.index : ℚ) / st.timediff) ∧
      line.syscr = some ((diff_stat p.syscr p.index : ℚ) / st.timediff) ∧
      line.syscw = some ((diff_stat p.syscw p.index : ℚ) / st.timediff) ∧
      line.reads = some ((diff_stat p.read_bytes p.index : ℚ) / st.timediff) ∧
      line.writes = some ((diff_stat p.write_bytes p.index : ℚ) / st.timediff)) ∧
    per_second 500 1 = some 500 := by
  refine ⟨diff_stat_other v i hi, by decide, by decide, ?_, ?_⟩
  · unfold format_next_io
    rw [hp]
    exact ⟨_, _, rfl, by simp [per_second, ht], by simp [per_second, ht],
      by simp [per_second, ht], by simp [per_second, ht], by simp [per_second, ht]⟩
  · simp [per_second]

theorem C2_witness :
    ∃ line st1, format_next_io example_state_io = some (line, st1) ∧
      line.reads = some 500 := by
  obtain ⟨_, _, _, ⟨line, st1, h1, _, _, _, h2, _⟩, _⟩ :=
    C2_diff_stat_other_slot ⟨1000, 1500⟩ 1 (Or.inr rfl) example_state_io
      example_io_record rfl (by simp [example_state_io])
  refine ⟨line, st1, h1, ?_⟩
  rw [h2]
  have hd : diff_stat example_io_record.read_bytes example_io_record.index = 500 := by decide
  rw [hd]
  simp [example_state_io]

/-! ## What the readers leave alone -/

theorem read_io_frame (proc m : top_proc) (f : ProcFiles) (h : read_io proc f = some m) :
    ∃ a b c d e : Slots,
      m = { proc with iops := a, syscr := b, syscw := c, read_bytes := d, write_bytes := e } := by
  unfold read_io at h
  split at h
  · injection h with h
    exact ⟨proc.iops, proc.syscr, proc.syscw, proc.read_bytes, proc.write_bytes, h.symm⟩
  · simp only at h
    split at h
    · exact absurd h (by simp)
    · split at h
      · exact absurd h (by simp)
      · split at h
        · exact absurd h (by simp)
        · split at h
          · exact absurd h (by simp)
          · split at h
            · exact absurd h (by simp)
            · injection h with h
              exact ⟨_, _, _, _, _, h.symm⟩

theorem read_cmdline_frame (env : Env) (proc : top_proc) (sel : process_select)
    (f : ProcFiles) : ∃ s, (read_cmdline env proc sel f).1 = { proc with name := s } := by
  unfold read_cmdline
  split_ifs
  · split
    · simp only
      split_ifs
      · exact ⟨_, rfl⟩
      · exact ⟨proc.name, rfl⟩
    · exact ⟨proc.name, rfl⟩
  · exact ⟨proc.name, rfl⟩

/-- The outcomes of `read_one_proc_stat`: an early return that changed `state` and
`name` at most, or a full read of the status line followed by `read_io`. -/
theorem read_one_proc_stat_cases (env : Env) (proc m : top_proc) (sel : process_select)
    (f : ProcFiles) (h : read_one_proc_stat env proc sel f = some m) :
    (∃ s, m = { proc with state := 0, name := s } ∧
      (strchr (cstr (f.stat.take 4095)) '(' = none ∨
       (∃ p, strchr (cstr (f.stat.take 4095)) '(' = some p ∧
         (strrchr p.tail ')' = none ∨
          ∃ cmd rest, strrchr p.tail ')' = some (cmd, rest) ∧ skip_ws rest = [])))) ∨
    (∃ p cmd rest c q s, strchr (cstr (f.stat.take 4095)) '(' = some p ∧
      strrchr p.tail ')' = some (cmd, rest) ∧ skip_ws rest = c :: q ∧
      read_io (read_stat_fields env { proc with state := state_of_char c, name := s } q) f
        = some m) := by
  unfold read_one_proc_stat at h
  simp only at h
  obtain ⟨s0, hs0⟩ := read_cmdline_frame env { proc with state := 0 } sel f
  rw [hs0] at h
  split at h
  · next h1 =>
    injection h with h
    exact Or.inl ⟨s0, h.symm, Or.inl h1⟩
  · next p h1 =>
    split at h
    · next h2 =>
      injection h with h
      exact Or.inl ⟨s0, h.symm, Or.inr ⟨p, h1, Or.inl h2⟩⟩
    · next cmd rest h2 =>
      split at h
      · next h3 =>
        injection h with h
        refine Or.inl ⟨(if (read_cmdline env { proc with state := 0 } sel f).2 = 0
            then env.printable (String.mk cmd) else s0), ?_,
            Or.inr ⟨p, h1, Or.inr ⟨cmd, rest, h2, h3⟩⟩⟩
        rw [← h]
        split_ifs <;> rfl
      · next c q h3 =>
        refine Or.inr ⟨p, cmd, rest, c, q,
          (if (read_cmdline env { proc with state := 0 } sel f).2 = 0
            then env.printable (String.mk cmd) else s0), h1, h2, h3, ?_⟩
        rw [← h]
        split_ifs <;> rfl

theorem read_one_proc_stat_frame (env : Env) (proc m : top_proc) (sel : process_select)
    (f : ProcFiles) (h : read_one_proc_stat env proc sel f = some m) :
    m.pid = proc.pid ∧ m.index = proc.index ∧ m.pgstate = proc.pgstate ∧
    m.usename = proc.usename ∧ m.pcpu = proc.pcpu := by
  rcases read_one_proc_stat_cases env proc m sel f h with ⟨s, hm, _⟩ | ⟨p, cmd, rest, c, q, s, _, _, _, hio⟩
  · subst hm; exact ⟨rfl, rfl, rfl, rfl, rfl⟩
  · obtain ⟨a, b, c1, d, e, hm⟩ := read_io_frame _ _ _ hio
    subst hm; exact ⟨rfl, rfl, rfl, rfl, rfl⟩

theorem read_one_proc_stat_time (env : Env) (proc m : top_proc) (sel : process_select)
    (f : ProcFiles) (h : read_one_proc_stat env proc sel f = some m) :
    (∃ p cmd rest c q, strchr (cstr (f.stat.take 4095)) '(' = some p ∧
      strrchr p.tail ')' = some (cmd, rest) ∧ skip_ws rest = c :: q ∧
      m.time = ((strtoul (skip_tokens 10 q)).1 +
        (strtoul (strtoul (skip_tokens 10 q)).2).1) % 2 ^ 64) ∨
    m.time = proc.time := by
  rcases read_one_proc_stat_cases env proc m sel f h with ⟨s, hm, _⟩ | ⟨p, cmd, rest, c, q, s, h1, h2, h3, hio⟩
  · subst hm; exact Or.inr rfl
  · obtain ⟨a, b, c1, d, e, hm⟩ := read_io_frame _ _ _ hio
    subst hm; exact Or.inl ⟨p, cmd, rest, c, q, h1, h2, h3, rfl⟩

/-! ## One row of the loop -/

theorem RB_INSERT_some (head : List top_proc) (n e : top_proc)
    (h : (RB_INSERT head n).2 = some e) : e.pid = n.pid ∧ e ∈ head := by
  induction head with
  | nil => simp [RB_INSERT] at h
  | cons a rest ih =>
    unfold RB_INSERT at h
    by_cases h1 : topproccmp n a < 0
    · simp [h1] at h
    · by_cases h2 : topproccmp n a > 0
      · simp only [h1, h2, if_true, if_false] at h
        have := ih h
        exact ⟨this.1, by simp [this.2]⟩
      · simp only [h1, h2, if_false] at h
        injection h with h
        subst h
        rw [topproccmp_neg] at h1
        rw [gt_iff_lt, ← gt_iff_lt, topproccmp_pos] at h2
        exact ⟨by omega, by simp⟩

theorem RB_INSERT_has (head : List top_proc) (n : top_proc) :
    ∃ e ∈ (RB_INSERT head n).1, e.pid = n.pid := by
  induction head with
  | nil => exact ⟨n, by simp [RB_INSERT], rfl⟩
  | cons a rest ih =>
    unfold RB_INSERT
    split_ifs with h1 h2
    · exact ⟨n, by simp, rfl⟩
    · obtain ⟨e, he, hp⟩ := ih
      exact ⟨e, by simp [he], hp⟩
    · rw [topproccmp_neg] at h1
      rw [gt_iff_lt, ← gt_iff_lt, topproccmp_pos] at h2
      exact ⟨a, by simp, by omega⟩

theorem upsert_record_pid (head : List top_proc) (pid : Int) :
    (upsert_record head pid).pid = pid := by
  unfold upsert_record
  split
  · next p hp => exact (RB_INSERT_some head _ p hp).1
  · rfl

theorem upsert_record_new (head : List top_proc) (pid : Int)
    (h : ∀ e ∈ head, e.pid ≠ pid) :
    upsert_record head pid = { top_proc.zero with pid := pid } := by
  obtain ⟨pre, post, _, e2⟩ := RB_INSERT_absent head { top_proc.zero with pid := pid } h
  unfold upsert_record; rw [e2]; rfl

theorem upsert_record_old (head : List top_proc) (pid : Int) (e : top_proc)
    (hs : store_sorted head) (he : e ∈ head) (hp : e.pid = pid) :
    upsert_record head pid = e := by
  unfold upsert_record
  rw [RB_INSERT_present head { top_proc.zero with pid := pid } e hs he hp]

theorem write_back_mem (head : List top_proc) (x n : top_proc)
    (hn : n ∈ write_back head x) (hp : n.pid = x.pid) : n = x := by
  unfold write_back at hn
  rw [List.mem_map] at hn
  obtain ⟨e, _, he⟩ := hn
  split_ifs at he with h
  · exact he.symm
  · subst he; exact absurd hp h

theorem write_back_has (head : List top_proc) (x : top_proc)
    (h : ∃ e ∈ head, e.pid = x.pid) : x ∈ write_back head x := by
  obtain ⟨e, he, hp⟩ := h
  unfold write_back
  rw [List.mem_map]
  exact ⟨e, he, by simp [hp]⟩

theorem set_pcpu_frame (n : top_proc) (otime : Nat) (tickdiff : ℚ) :
    ∃ x, set_pcpu n otime tickdiff = { n with pcpu := x } := by
  unfold set_pcpu
  split_ifs
  · exact ⟨0, rfl⟩
  · exact ⟨_, rfl⟩
  · exact ⟨n.pcpu, rfl⟩

theorem set_pcpu_value (n : top_proc) (otime : Nat) (tickdiff : ℚ) (ht : 0 < tickdiff) :
    (set_pcpu n otime tickdiff).pcpu =
      if cpu_quotient n.time otime tickdiff < 1 / 10000 then 0
      else cpu_quotient n.time otime tickdiff := by
  unfold set_pcpu
  rw [if_pos ht]
  split_ifs <;> rfl

/-- The effect of one normal-mode iteration, in terms of the record `m` left by
`read_one_proc_stat` and the record `n` on which the inclusion test is made. -/
theorem process_row_normal (env : Env) (sel : process_select) (mode : Int) (tickdiff : ℚ)
    (l l1 : Loop) (row : Row) (hmode : mode ≠ env.MODE_REPLICATION)
    (hr : process_row env sel mode tickdiff l row = some l1) :
    ∃ m ps n, read_one_proc_stat env (upsert_record l.head_proc row.pid) sel row.files = some m ∧
      n = set_pcpu (fill_process env sel m row) (upsert_record l.head_proc row.pid).time tickdiff ∧
      tally l.process_states n.pgstate = some ps ∧
      l1.head_proc =
        write_back (RB_INSERT l.head_proc { top_proc.zero with pid := row.pid }).1 (flip n) ∧
      l1.pgtable = (if is_active env sel n then l.pgtable ++ [n] else l.pgtable) ∧
      l1.active_procs = (if is_active env sel n then l.active_procs + 1 else l.active_procs) ∧
      l1.process_states = ps ∧ l1.total_procs = l.total_procs + 1 := by
  unfold process_row at hr
  simp only [if_neg hmode] at hr
  split at hr
  · exact absurd hr (by simp)
  · next m hm =>
    split at hr
    · exact absurd hr (by simp)
    · next ps hps =>
      injection hr with hr
      subst hr
      refine ⟨m, ps, _, hm, rfl, ?_, rfl, rfl, rfl, rfl, rfl⟩
      obtain ⟨x, hx⟩ := set_pcpu_frame (fill_process env sel m row)
        (upsert_record l.head_proc row.pid).time tickdiff
      rw [hx]; exact hps

theorem process_row_normal_intro (env : Env) (sel : process_select) (mode : Int)
    (tickdiff : ℚ) (l : Loop) (row : Row) (m : top_proc) (ps : List Int)
    (hmode : mode ≠ env.MODE_REPLICATION)
    (hm : read_one_proc_stat env (upsert_record l.head_proc row.pid) sel row.files = some m)
    (hps : tally l.process_states (fill_process env sel m row).pgstate = some ps) :
    ∃ l1, process_row env sel mode tickdiff l row = some l1 ∧
      l1.head_proc =
        write_back (RB_INSERT l.head_proc { top_proc.zero with pid := row.pid }).1
          (flip (set_pcpu (fill_process env sel m row)
            (upsert_record l.head_proc row.pid).time tickdiff)) ∧
      l1.pgtable =
        (if is_active env sel (set_pcpu (fill_process env sel m row)
            (upsert_record l.head_proc row.pid).time tickdiff)
         then l.pgtable ++ [set_pcpu (fill_process env sel m row)
            (upsert_record l.head_proc row.pid).time tickdiff]
         else l.pgtable) := by
  unfold process_row
  simp only [if_neg hmode, hm]
  obtain ⟨x, hx⟩ := set_pcpu_frame (fill_process env sel m row)
    (upsert_record l.head_proc row.pid).time tickdiff
  have hps1 : tally l.process_states (fill_process env sel m row).pgstate = some ps := hps
  simp only [hps1]
  exact ⟨_, rfl, rfl, rfl⟩

theorem to_ulong_sub (a b : Nat) (hab : b ≤ a) (ha : a < 2 ^ 64) :
    to_ulong ((a : Int) - (b : Int)) = a - b := by
  unfold to_ulong
  have h1 : ((a : Int) - (b : Int)) = ((a - b : Nat) : Int) := by omega
  rw [h1]
  have h2 : ((a - b : Nat) : Int) % 2 ^ 64 = ((a - b : Nat) : Int) := by
    apply Int.emod_eq_of_lt <;> omega
  rw [h2]; simp

theorem cpu_quotient_no_wrap (a b : Nat) (tickdiff : ℚ) (hab : b ≤ a) (ha : a < 2 ^ 64) :
    cpu_quotient a b tickdiff = ((a : ℚ) - (b : ℚ)) / tickdiff := by
  unfold cpu_quotient
  rw [to_ulong_sub a b hab ha, Nat.cast_sub hab]

theorem cpu_quotient_same (a : Nat) (tickdiff : ℚ) :
    cpu_quotient a a tickdiff = ((a : ℚ) - (a : ℚ)) / tickdiff := by
  unfold cpu_quotient to_ulong
  simp

theorem read_one_proc_stat_time_complete (env : Env) (proc m : top_proc)
    (sel : process_select) (f : ProcFiles) (p cmd rest q : List Char) (c : Char)
    (h1 : strchr (cstr (f.stat.take 4095)) '(' = some p)
    (h2 : strrchr p.tail ')' = some (cmd, rest)) (h3 : skip_ws rest = c :: q)
    (h : read_one_proc_stat env proc sel f = some m) :
    m.time = ((strtoul (skip_tokens 10 q)).1 +
      (strtoul (strtoul (skip_tokens 10 q)).2).1) % 2 ^ 64 := by
  rcases read_one_proc_stat_cases env proc m sel f h with
    ⟨s, _, hbad⟩ | ⟨p', cmd', rest', c', q', s, g1, g2, g3, hio⟩
  · rcases hbad with hb | ⟨p', g1, hb⟩
    · rw [h1] at hb
      exact absurd hb (by simp)
    · rw [h1] at g1
      injection g1 with g1
      subst g1
      rcases hb with hb | ⟨cmd', rest', g2, g3⟩
      · rw [h2] at hb
        exact absurd hb (by simp)
      · rw [h2] at g2
        injection g2 with g2
        injection g2 with g2a g2b
        subst g2b
        rw [h3] at g3
        exact absurd g3 (by simp)
  · rw [h1] at g1
    injection g1 with g1
    subst g1
    rw [h2] at g2
    injection g2 with g2
    injection g2 with g2a g2b
    subst g2b
    rw [h3] at g3
    injection g3 with g3a g3b
    subst g3b
    obtain ⟨a, b, c1, d, e, hm⟩ := read_io_frame _ _ _ hio
    subst hm
    rfl

theorem read_one_proc_stat_time_incomplete (env : Env) (proc m : top_proc)
    (sel : process_select) (f : ProcFiles) (hbad : ¬ status_complete f)
    (h : read_one_proc_stat env proc sel f = some m) : m.time = proc.time := by
  rcases read_one_proc_stat_cases env proc m sel f h with
    ⟨s, hm, _⟩ | ⟨p, cmd, rest, c, q, s, g1, g2, g3, _⟩
  · subst hm
    rfl
  · exact absurd ⟨p, cmd, rest, c, q, g1, g2, g3⟩ hbad

/-- The CPU fraction of a normal-mode iteration with positive elapsed time: the stored
fraction is the snapped value of `(ticks_now - ticks_prev) mod 2 ^ 64` divided by
`elapsed * HZ`, the subtraction being one of `unsigned long`.  Here `ticks_prev` is the
tick total of the record found in the store, 0 for a record created by this row, and
`ticks_now` is the tick total after `read_one_proc_stat`: `utime + stime` of the status
line when the line is complete, and `ticks_prev` again when it is not.  Whenever
`ticks_prev ≤ ticks_now` the quotient is the one of the specification,
`(ticks_now - ticks_prev) / (elapsed * HZ)`. -/
theorem process_row_cpu_fraction (env : Env) (sel : process_select) (mode : Int)
    (timediff : ℚ) (l l1 : Loop) (row : Row) (hmode : mode ≠ env.MODE_REPLICATION)
    (ht : 0 < timediff) (hz : 0 < env.HZ)
    (hr : process_row env sel mode (timediff * (env.HZ : ℚ)) l row = some l1) :
    ∃ m, read_one_proc_stat env (upsert_record l.head_proc row.pid) sel row.files = some m ∧
      (∀ p cmd rest c q, strchr (cstr (row.files.stat.take 4095)) '(' = some p →
          strrchr p.tail ')' = some (cmd, rest) → skip_ws rest = c :: q →
          m.time = ((strtoul (skip_tokens 10 q)).1 +
            (strtoul (strtoul (skip_tokens 10 q)).2).1) % 2 ^ 64) ∧
      (¬ status_complete row.files → m.time = (upsert_record l.head_proc row.pid).time) ∧
      ((∀ e ∈ l.head_proc, e.pid ≠ row.pid) → (upsert_record l.head_proc row.pid).time = 0) ∧
      (store_sorted l.head_proc → ∀ e ∈ l.head_proc, e.pid = row.pid →
        (upsert_record l.head_proc row.pid).time = e.time) ∧
      (∃ n ∈ l1.head_proc, n.pid = row.pid) ∧
      (∀ n ∈ l1.head_proc, n.pid = row.pid →
        n.time = m.time ∧
        n.pcpu =
          (if cpu_quotient m.time (upsert_record l.head_proc row.pid).time
                (timediff * (env.HZ : ℚ)) < 1 / 10000 then 0
           else cpu_quotient m.time (upsert_record l.head_proc row.pid).time
                (timediff * (env.HZ : ℚ)))) ∧
      ((upsert_record l.head_proc row.pid).time ≤ m.time →
        cpu_quotient m.time (upsert_record l.head_proc row.pid).time
            (timediff * (env.HZ : ℚ)) =
          spec_cpu_fraction m.time (upsert_record l.head_proc row.pid).time timediff env.HZ) := by
  have htick : 0 < timediff * (env.HZ : ℚ) := mul_pos ht (by exact_mod_cast hz)
  obtain ⟨m, ps, n, hm, hn, _, hhead, _⟩ :=
    process_row_normal env sel mode _ l l1 row hmode hr
  have htime := read_one_proc_stat_time env _ m sel row.files hm
  obtain ⟨hpid, _, _, _, _⟩ := read_one_proc_stat_frame env _ m sel row.files hm
  have hnpid : n.pid = row.pid := by
    obtain ⟨x, hx⟩ := set_pcpu_frame (fill_process env sel m row)
      (upsert_record l.head_proc row.pid).time (timediff * (env.HZ : ℚ))
    rw [hn, hx]
    show (fill_process env sel m row).pid = row.pid
    unfold fill_process
    simp only
    split_ifs <;> simp [hpid, upsert_record_pid]
  have hntime : n.time = m.time := by
    obtain ⟨x, hx⟩ := set_pcpu_frame (fill_process env sel m row)
      (upsert_record l.head_proc row.pid).time (timediff * (env.HZ : ℚ))
    rw [hn, hx]
    show (fill_process env sel m row).time = m.time
    unfold fill_process
    simp only
    split_ifs <;> rfl
  have hfill : (fill_process env sel m row).time = m.time := by
    unfold fill_process
    simp only
    split_ifs <;> rfl
  have hnpcpu : n.pcpu =
      (if cpu_quotient m.time (upsert_record l.head_proc row.pid).time
            (timediff * (env.HZ : ℚ)) < 1 / 10000 then 0
       else cpu_quotient m.time (upsert_record l.head_proc row.pid).time
            (timediff * (env.HZ : ℚ))) := by
    rw [hn, set_pcpu_value _ _ _ htick, hfill]
  refine ⟨m, hm, ?_, ?_, ?_, ?_, ?_, ?_, ?_⟩
  · intro p cmd rest c q h1 h2 h3
    exact read_one_proc_stat_time_complete env _ m sel row.files p cmd rest q c h1 h2 h3 hm
  · intro hbad
    exact read_one_proc_stat_time_incomplete env _ m sel row.files hbad hm
  · intro hnew
    rw [upsert_record_new _ _ hnew]; rfl
  · intro hs e he hp
    rw [upsert_record_old _ _ e hs he hp]
  · refine ⟨flip n, ?_, hnpid⟩
    rw [hhead]
    apply write_back_has
    obtain ⟨e, he, hp⟩ := RB_INSERT_has l.head_proc { top_proc.zero with pid := row.pid }
    exact ⟨e, he, by rw [hp]; exact hnpid.symm⟩
  · intro x hx hxp
    rw [hhead] at hx
    have := write_back_mem _ (flip n) x hx (by rw [hxp]; exact hnpid.symm)
    subst this
    exact ⟨hntime, hnpcpu⟩
  · intro hle
    rcases htime with ⟨p, cmd, rest, c, q, _, _, _, hq⟩ | hsame
    · unfold spec_cpu_fraction
      apply cpu_quotient_no_wrap _ _ _ hle
      rw [hq]
      exact Nat.mod_lt _ (by norm_num)
    · unfold spec_cpu_fraction
      rw [hsame]
      exact cpu_quotient_same _ _

/-- A stored total of 10 ticks and a status line with 30 + 10 ticks, one second apart
at 100 ticks per second: the stored fraction is 3/10, the quotient of the
specification. -/
theorem cpu_fraction_example :
    process_row example_env example_sel 0 ((1 : ℚ) * (example_env.HZ : ℚ))
      (example_loop 10) example_row_40 = some (example_loop_after (3 / 10)) ∧
    ∀ n ∈ (example_loop_after (3 / 10)).head_proc, n.pid = example_row_40.pid →
      n.time = 40 ∧ n.pcpu = spec_cpu_fraction 40 10 1 example_env.HZ := by
  have hr : process_row example_env example_sel 0 ((1 : ℚ) * (example_env.HZ : ℚ))
      (example_loop 10) example_row_40 = some (example_loop_after (3 / 10)) := by
    with_unfolding_all rfl
  refine ⟨hr, ?_⟩
  obtain ⟨m, hm, _, _, _, _, _, h, hno⟩ := process_row_cpu_fraction example_env example_sel 0 1
    (example_loop 10) (example_loop_after (3 / 10)) example_row_40 (by decide) (by norm_num)
    (by decide) hr
  have hm40 : read_one_proc_stat example_env (upsert_record (example_loop 10).head_proc
      example_row_40.pid) example_sel example_row_40.files
      = some { top_proc.zero with pid := 5, name := some "postgres", size := 4, rss := 4,
                                  state := 1, time := 40, start_time := 777 } := by
    with_unfolding_all rfl
  rw [hm40] at hm
  injection hm with hm
  subst hm
  have hup : (upsert_record (example_loop 10).head_proc example_row_40.pid).time = 10 := by
    decide
  rw [hup] at h hno
  intro n hn hp
  have h1 := h n hn hp
  have h2 := hno (by decide)
  refine ⟨h1.1, ?_⟩
  rw [h1.2, h2]
  have : spec_cpu_fraction 40 10 1 example_env.HZ = 3 / 10 := by
    simp [spec_cpu_fraction, example_env]; norm_num
  simp only [example_env] at this ⊢
  rw [this]; norm_num

/-- A tick total read below the stored one (a pid met again with fewer ticks): with a
stored total of 100, a status line giving 30 + 10 ticks, one second elapsed and 100
ticks per second, the stored fraction is `(2 ^ 64 - 60) / 100`, neither the quotient
`(40 - 100) / (1 * 100)` nor its snapped value 0. -/
theorem cpu_fraction_wrap_example :
    (upsert_record (example_loop 100).head_proc example_row_40.pid).time = 100 ∧
    (read_one_proc_stat example_env (upsert_record (example_loop 100).head_proc
      example_row_40.pid) example_sel example_row_40.files).map top_proc.time = some 40 ∧
    (process_row example_env example_sel 0 ((1 : ℚ) * (example_env.HZ : ℚ))
      (example_loop 100) example_row_40).map
        (fun l => l.head_proc.map (fun n => (n.pid, n.time, n.pcpu)))
      = some [(5, 40, (2 ^ 64 - 60) / 100)] ∧
    ((2 ^ 64 - 60) / 100 : ℚ) ≠ spec_cpu_fraction 40 100 1 example_env.HZ ∧
    ((2 ^ 64 - 60) / 100 : ℚ) ≠
      (if spec_cpu_fraction 40 100 1 example_env.HZ < 1 / 10000 then 0
       else spec_cpu_fraction 40 100 1 example_env.HZ) := by
  have hm : read_one_proc_stat example_env (upsert_record (example_loop 100).head_proc
      example_row_40.pid) example_sel example_row_40.files
      = some { top_proc.zero with pid := 5, name := some "postgres", size := 4, rss := 4,
                                  state := 1, time := 40, start_time := 777 } := by
    with_unfolding_all rfl
  have hspec : spec_cpu_fraction 40 100 1 example_env.HZ = -(3 / 5) := by
    simp [spec_cpu_fraction, example_env]; norm_num
  refine ⟨by decide, by rw [hm]; rfl, ?_, ?_, ?_⟩
  · obtain ⟨l1, hl1, hhead, _⟩ := process_row_normal_intro example_env example_sel 0
      ((1 : ℚ) * (example_env.HZ : ℚ)) (example_loop 100) example_row_40 _
      [0, 1, 0, 0, 0, 0, 0, 0] (by decide) hm (by decide)
    rw [hl1]
    simp only [Option.map_some', hhead]
    have hq : cpu_quotient 40 100 ((1 : ℚ) * (example_env.HZ : ℚ)) = (2 ^ 64 - 60) / 100 := by
      simp [cpu_quotient, to_ulong, example_env]; norm_num
    have hins : (RB_INSERT (example_loop 100).head_proc
        { top_proc.zero with pid := example_row_40.pid }).1 =
        [{ top_proc.zero with pid := 5, time := 100 }] := by
      with_unfolding_all rfl
    have hup : (upsert_record (example_loop 100).head_proc example_row_40.pid).time = 100 := by
      decide
    rw [hins, hup]
    have hpid : (flip (set_pcpu (fill_process example_env example_sel
        { top_proc.zero with pid := 5, name := some "postgres", size := 4, rss := 4,
                             state := 1, time := 40, start_time := 777 } example_row_40)
        100 ((1 : ℚ) * (example_env.HZ : ℚ)))).pid = 5 := by
      obtain ⟨x, hx⟩ := set_pcpu_frame (fill_process example_env example_sel
        { top_proc.zero with pid := 5, name := some "postgres", size := 4, rss := 4,
                             state := 1, time := 40, start_time := 777 } example_row_40)
        100 ((1 : ℚ) * (example_env.HZ : ℚ))
      rw [hx]; rfl
    have htime : (flip (set_pcpu (fill_process example_env example_sel
        { top_proc.zero with pid := 5, name := some "postgres", size := 4, rss := 4,
                             state := 1, time := 40, start_time := 777 } example_row_40)
        100 ((1 : ℚ) * (example_env.HZ : ℚ)))).time = 40 := by
      obtain ⟨x, hx⟩ := set_pcpu_frame (fill_process example_env example_sel
        { top_proc.zero with pid := 5, name := some "postgres", size := 4, rss := 4,
                             state := 1, time := 40, start_time := 777 } example_row_40)
        100 ((1 : ℚ) * (example_env.HZ : ℚ))
      rw [hx]; rfl
    have hpcpu : (flip (set_pcpu (fill_process example_env example_sel
        { top_proc.zero with pid := 5, name := some "postgres", size := 4, rss := 4,
                             state := 1, time := 40, start_time := 777 } example_row_40)
        100 ((1 : ℚ) * (example_env.HZ : ℚ)))).pcpu = (2 ^ 64 - 60) / 100 := by
      show (set_pcpu _ 100 _).pcpu = _
      rw [set_pcpu_value _ _ _ (by simp [example_env])]
      have ht40 : (fill_process example_env example_sel
        { top_proc.zero with pid := 5, name := some "postgres", size := 4, rss := 4,
                             state := 1, time := 40, start_time := 777 } example_row_40).time
          = 40 := rfl
      rw [ht40, hq]
      norm_num
    simp only [write_back, List.map_cons, List.map_nil, hpid, if_true, htime, hpcpu]
  · rw [hspec]; norm_num
  · rw [hspec]; norm_num

/-- C3 fails on the code when the tick total read is below the stored one: `n->time`
and `otime` are `unsigned long`, so `n->time - otime` wraps to a value near `2 ^ 64`
instead of going negative.  With a stored total of 100 (the pid was met before with
more ticks), a status line giving `utime` 30 and `stime` 10, one second elapsed and 100
ticks per second, the stored fraction is `(2 ^ 64 - 60) / 100`, where the claim has
`(40 - 100) / (1 * 100)`; with a stored total of 10 it is 3/10, as the claim has it.
In general, in a normal-mode iteration with positive elapsed time, `ticks_now` is
`utime + stime` of the status line when the line is complete and `ticks_prev` when it
is not, `ticks_prev` is the stored total (0 for a record created by this row), the
stored fraction is the snapped value of `((ticks_now - ticks_prev) mod 2 ^ 64) /
(elapsed * HZ)`, and this is the quotient of the claim whenever
`ticks_prev ≤ ticks_now`. -/
theorem C3_cpu_fraction_wraps :
    ((upsert_record (example_loop 100).head_proc example_row_40.pid).time = 100 ∧
      (read_one_proc_stat example_env (upsert_record (example_loop 100).head_proc
        example_row_40.pid) example_sel example_row_40.files).map top_proc.time = some 40 ∧
      (process_row example_env example_sel 0 ((1 : ℚ) * (example_env.HZ : ℚ))
        (example_loop 100) example_row_40).map
          (fun l => l.head_proc.map (fun n => (n.pid, n.time, n.pcpu)))
        = some [(5, 40, (2 ^ 64 - 60) / 100)] ∧
      ((2 ^ 64 - 60) / 100 : ℚ) ≠ spec_cpu_fraction 40 100 1 example_env.HZ ∧
      ((2 ^ 64 - 60) / 100 : ℚ) ≠
        (if spec_cpu_fraction 40 100 1 example_env.HZ < 1 / 10000 then 0
         else spec_cpu_fraction 40 100 1 example_env.HZ)) ∧
    (process_row example_env example_sel 0 ((1 : ℚ) * (example_env.HZ : ℚ))
        (example_loop 10) example_row_40 = some (example_loop_after (3 / 10)) ∧
      ∀ n ∈ (example_loop_after (3 / 10)).head_proc, n.pid = example_row_40.pid →
        n.time = 40 ∧ n.pcpu = spec_cpu_fraction 40 10 1 example_env.HZ) ∧
    (∀ (env : Env) (sel : process_select) (mode : Int) (timediff : ℚ) (l l1 : Loop)
        (row : Row), mode ≠ env.MODE_REPLICATION → 0 < timediff → 0 < env.HZ →
      process_row env sel mode (timediff * (env.HZ : ℚ)) l row = some l1 →
      ∃ m, read_one_proc_stat env (upsert_record l.head_proc row.pid) sel row.files = some m ∧
        (∀ p cmd rest c q, strchr (cstr (row.files.stat.take 4095)) '(' = some p →
            strrchr p.tail ')' = some (cmd, rest) → skip_ws rest = c :: q →
            m.time = ((strtoul (skip_tokens 10 q)).1 +
              (strtoul (strtoul (skip_tokens 10 q)).2).1) % 2 ^ 64) ∧
        (¬ status_complete row.files → m.time = (upsert_record l.head_proc row.pid).time) ∧
        ((∀ e ∈ l.head_proc, e.pid ≠ row.pid) →
          (upsert_record l.head_proc row.pid).time = 0) ∧
        (store_sorted l.head_proc → ∀ e ∈ l.head_proc, e.pid = row.pid →
          (upsert_record l.head_proc row.pid).time = e.time) ∧
        (∃ n ∈ l1.head_proc, n.pid = row.pid) ∧
        (∀ n ∈ l1.head_proc, n.pid = row.pid →
          n.time = m.time ∧
          n.pcpu =
            (if cpu_quotient m.time (upsert_record l.head_proc row.pid).time
                  (timediff * (env.HZ : ℚ)) < 1 / 10000 then 0
             else cpu_quotient m.time (upsert_record l.head_proc row.pid).time
                  (timediff * (env.HZ : ℚ)))) ∧
        cpu_quotient m.time (upsert_record l.head_proc row.pid).time
            (timediff * (env.HZ : ℚ)) =
          ((((m.time : Int) - ((upsert_record l.head_proc row.pid).time : Int)) % 2 ^ 64 :
            Int) : ℚ) / (timediff * (env.HZ : ℚ)) ∧
        ((upsert_record l.head_proc row.pid).time ≤ m.time →
          cpu_quotient m.time (upsert_record l.head_proc row.pid).time
              (timediff * (env.HZ : ℚ)) =
            spec_cpu_fraction m.time (upsert_record l.head_proc row.pid).time timediff
              env.HZ)) := by
  refine ⟨cpu_fraction_wrap_example, cpu_fraction_example, ?_⟩
  intro env sel mode timediff l l1 row hmode ht hz hr
  obtain ⟨m, hm, a1, a2, a3, a4, a5, a6, a7⟩ :=
    process_row_cpu_fraction env sel mode timediff l l1 row hmode ht hz hr
  refine ⟨m, hm, a1, a2, a3, a4, a5, a6, ?_, a7⟩
  unfold cpu_quotient to_ulong
  congr 1
  have hnn : (0 : Int) ≤ ((m.time : Int) - ((upsert_record l.head_proc row.pid).time : Int))
      % 2 ^ 64 := Int.emod_nonneg _ (by norm_num)
  exact_mod_cast congrArg (fun z : Int => (z : ℚ)) (Int.toNat_of_nonneg hnn)

/-! ## The snap of small CPU fractions -/

theorem cpu_quotient_nonneg (a b : Nat) (tickdiff : ℚ) (ht : 0 < tickdiff) :
    0 ≤ cpu_quotient a b tickdiff := by
  unfold cpu_quotient
  exact div_nonneg (Nat.cast_nonneg _) (le_of_lt ht)

/-- C4: in a normal-mode iteration with positive elapsed time, the CPU fraction stored
in the record, and in the copy placed in the active buffer, is exactly 0 when the
quotient computed is below 0.0001 and is the quotient otherwise; so it is never
negative and never strictly between 0 and 0.0001.  A quotient of 0.00005 (one tick
over 200 seconds at 100 ticks per second) is stored as 0. -/
theorem C4_pcpu_snapped (env : Env) (sel : process_select) (mode : Int)
    (timediff : ℚ) (l l1 : Loop) (row : Row) (hmode : mode ≠ env.MODE_REPLICATION)
    (ht : 0 < timediff) (hz : 0 < env.HZ)
    (hr : process_row env sel mode (timediff * (env.HZ : ℚ)) l row = some l1) :
    ∃ m, read_one_proc_stat env (upsert_record l.head_proc row.pid) sel row.files = some m ∧
      (∃ n ∈ l1.head_proc, n.pid = row.pid) ∧
      (∀ n, (n ∈ l1.head_proc ∧ n.pid = row.pid) ∨ l1.pgtable = l.pgtable ++ [n] →
        (cpu_quotient m.time (upsert_record l.head_proc row.pid).time
            (timediff * (env.HZ : ℚ)) < 1 / 10000 → n.pcpu = 0) ∧
        (¬ cpu_quotient m.time (upsert_record l.head_proc row.pid).time
            (timediff * (env.HZ : ℚ)) < 1 / 10000 →
          n.pcpu = cpu_quotient m.time (upsert_record l.head_proc row.pid).time
            (timediff * (env.HZ : ℚ))) ∧
        0 ≤ n.pcpu ∧ ¬ (0 < n.pcpu ∧ n.pcpu < 1 / 10000)) ∧
      cpu_quotient 1 0 ((200 : ℚ) * 100) = 5 / 100000 ∧
      (set_pcpu { top_proc.zero with time := 1 } 0 ((200 : ℚ) * 100)).pcpu = 0 := by
  have htick : 0 < timediff * (env.HZ : ℚ) := mul_pos ht (by exact_mod_cast hz)
  obtain ⟨m, ps, n0, hm, hn0, _, hhead, hpg, _⟩ :=
    process_row_normal env sel mode _ l l1 row hmode hr
  obtain ⟨hpid, _, _, _, _⟩ := read_one_proc_stat_frame env _ m sel row.files hm
  have hfillpid : (fill_process env sel m row).pid = row.pid := by
    unfold fill_process
    simp only
    split_ifs <;> simp [hpid, upsert_record_pid]
  have hfill : (fill_process env sel m row).time = m.time := by
    unfold fill_process
    simp only
    split_ifs <;> rfl
  have hn0pid : n0.pid = row.pid := by
    obtain ⟨x, hx⟩ := set_pcpu_frame (fill_process env sel m row)
      (upsert_record l.head_proc row.pid).time (timediff * (env.HZ : ℚ))
    rw [hn0, hx]; exact hfillpid
  have hn0pcpu : n0.pcpu =
      (if cpu_quotient m.time (upsert_record l.head_proc row.pid).time
            (timediff * (env.HZ : ℚ)) < 1 / 10000 then 0
       else cpu_quotient m.time (upsert_record l.head_proc row.pid).time
            (timediff * (env.HZ : ℚ))) := by
    rw [hn0, set_pcpu_value _ _ _ htick, hfill]
  have hq0 := cpu_quotient_nonneg m.time (upsert_record l.head_proc row.pid).time _ htick
  have key : ∀ n : top_proc, n.pcpu = n0.pcpu →
      (cpu_quotient m.time (upsert_record l.head_proc row.pid).time
          (timediff * (env.HZ : ℚ)) < 1 / 10000 → n.pcpu = 0) ∧
      (¬ cpu_quotient m.time (upsert_record l.head_proc row.pid).time
          (timediff * (env.HZ : ℚ)) < 1 / 10000 →
        n.pcpu = cpu_quotient m.time (upsert_record l.head_proc row.pid).time
          (timediff * (env.HZ : ℚ))) ∧
      0 ≤ n.pcpu ∧ ¬ (0 < n.pcpu ∧ n.pcpu < 1 / 10000) := by
    intro n hn
    rw [hn, hn0pcpu]
    by_cases hlt : cpu_quotient m.time (upsert_record l.head_proc row.pid).time
        (timediff * (env.HZ : ℚ)) < 1 / 10000
    · rw [if_pos hlt]
      exact ⟨fun _ => rfl, fun h => absurd hlt h, le_refl _, fun h => lt_irrefl _ h.1⟩
    · rw [if_neg hlt]
      exact ⟨fun h => absurd h hlt, fun _ => rfl, hq0, fun h => hlt h.2⟩
  refine ⟨m, hm, ?_, ?_, ?_, ?_⟩
  · refine ⟨flip n0, ?_, hn0pid⟩
    rw [hhead]
    apply write_back_has
    obtain ⟨e, he, hp⟩ := RB_INSERT_has l.head_proc { top_proc.zero with pid := row.pid }
    exact ⟨e, he, by rw [hp]; exact hn0pid.symm⟩
  · intro n hn
    apply key
    rcases hn with ⟨hmem, hp⟩ | happ
    · rw [hhead] at hmem
      have := write_back_mem _ (flip n0) n hmem (by rw [hp]; exact hn0pid.symm)
      rw [this]; rfl
    · rw [hpg] at happ
      split_ifs at happ with hact
      · have := List.append_cancel_left happ
        simp at this
        rw [this]
      · have := congrArg List.length happ
        simp at this
  · simp [cpu_quotient, to_ulong]; norm_num
  · rw [set_pcpu_value _ _ _ (by norm_num)]
    have : cpu_quotient ({ top_proc.zero with time := 1 } : top_proc).time 0
        ((200 : ℚ) * 100) = 5 / 100000 := by
      simp [cpu_quotient, to_ulong]; norm_num
    rw [this]; norm_num

theorem C4_witness :
    process_row example_env example_sel 0 ((200 : ℚ) * (example_env.HZ : ℚ))
      (example_loop 39) example_row_40 = some (example_loop_after 0) ∧
    ∃ n ∈ (example_loop_after 0).head_proc, n.pid = example_row_40.pid :=
  have hr : process_row example_env example_sel 0 ((200 : ℚ) * (example_env.HZ : ℚ))
      (example_loop 39) example_row_40 = some (example_loop_after 0) := by
    with_unfolding_all rfl
  ⟨hr, (C4_pcpu_snapped example_env example_sel 0 200 (example_loop 39)
    (example_loop_after 0) example_row_40 (by decide) (by norm_num) (by decide) hr).elim
      (fun _ h => h.2.1)⟩

/-! ## The inclusion test -/

theorem strcmp_chars_eq_zero (a b : List Char) : strcmp_chars a b = 0 ↔ a = b := by
  induction a generalizing b with
  | nil => cases b <;> simp [strcmp_chars]
  | cons x xs ih =>
    cases b with
    | nil => simp [strcmp_chars]
    | cons y ys =>
      unfold strcmp_chars
      by_cases hxy : x = y
      · simp [hxy, ih]
      · simp only [hxy, if_false, List.cons.injEq, false_and, iff_false]
        split_ifs <;> simp

theorem strcmp_eq_zero (s t : String) : strcmp s t = 0 ↔ s = t := by
  unfold strcmp
  rw [strcmp_chars_eq_zero]
  exact ⟨fun h => String.ext h, fun h => by rw [h]⟩

theorem is_active_iff (env : Env) (sel : process_select) (n : top_proc) :
    is_active env sel n = true ↔ spec_included env sel n := by
  unfold is_active spec_included
  have hempty : sel.usename.data.head? = none ↔ sel.usename = "" := by
    constructor
    · intro h
      apply String.ext
      cases hd : sel.usename.data with
      | nil => rfl
      | cons c cs => rw [hd] at h; simp at h
    · intro h; rw [h]; rfl
  simp only [Bool.and_eq_true, Bool.or_eq_true, bne_iff_ne, ne_eq, beq_iff_eq,
    strcmp_eq_zero]
  rw [hempty]

theorem fill_process_fields (env : Env) (sel : process_select) (m : top_proc) (row : Row) :
    (fill_process env sel m row).pid = m.pid ∧
    (fill_process env sel m row).usename = row.usename ∧
    (fill_process env sel m row).pgstate = env.update_state m.pgstate row.state := by
  unfold fill_process
  refine ⟨?_, ?_, ?_⟩ <;> (simp only; try (split_ifs <;> rfl))

/-- C5: in normal mode the active buffer after the row loop is what it was before the
loop followed, in row order, by the records of exactly those rows that pass the
inclusion test: idle display is on or the database state is not idle, and the
username filter is empty or equals the username of the row.  With the filter alice and
active rows for alice and bob, only the row of alice is in the buffer. -/
theorem C5_active_filter (env : Env) (sel : process_select) (mode : Int) (tickdiff : ℚ)
    (rows : List Row) (l0 l1 : Loop) (hmode : mode ≠ env.MODE_REPLICATION)
    (hr : process_rows env sel mode tickdiff l0 rows = some l1) :
    (∃ recs : List top_proc,
      List.Forall₂ (fun n row => n.pid = row.pid ∧ n.usename = row.usename ∧
        ∃ old, n.pgstate = env.update_state old row.state) recs rows ∧
      l1.pgtable = l0.pgtable ++ recs.filter (fun n => decide (spec_included env sel n)) ∧
      l1.active_procs =
        l0.active_procs + (recs.filter (fun n => decide (spec_included env sel n))).length) ∧
    (process_rows example_env example_sel_alice 0 0 example_loop_start
        [example_row_40, { example_row_40 with pid := 6, usename := "bob" }]).map
      (fun l => l.pgtable.map (fun n => (n.pid, n.usename, n.pgstate))) =
        some [(5, "alice", 1)] := by
  refine ⟨?_, by with_unfolding_all decide⟩
  induction rows generalizing l0 with
  | nil =>
    simp only [process_rows] at hr
    injection hr with hr
    subst hr
    exact ⟨[], List.Forall₂.nil, by simp, by simp⟩
  | cons row rows ih =>
    unfold process_rows at hr
    split at hr
    · exact absurd hr (by simp)
    · next l2 h2 =>
      obtain ⟨m, ps, n, hm, hn, _, _, hpg, hact, _⟩ :=
        process_row_normal env sel mode tickdiff l0 l2 row hmode h2
      obtain ⟨recs, hall, hpg1, hact1⟩ := ih l2 hr
      obtain ⟨hpid, _, hpgs, _, _⟩ := read_one_proc_stat_frame env _ m sel row.files hm
      obtain ⟨f1, f2, f3⟩ := fill_process_fields env sel m row
      obtain ⟨x, hx⟩ := set_pcpu_frame (fill_process env sel m row)
        (upsert_record l0.head_proc row.pid).time tickdiff
      have hnp : n.pid = row.pid := by
        rw [hn, hx]; show (fill_process env sel m row).pid = _
        rw [f1, hpid, upsert_record_pid]
      have hnu : n.usename = row.usename := by
        rw [hn, hx]; exact f2
      have hns : n.pgstate = env.update_state m.pgstate row.state := by
        rw [hn, hx]; exact f3
      refine ⟨n :: recs, List.Forall₂.cons ⟨hnp, hnu, m.pgstate, hns⟩ hall, ?_, ?_⟩
      · rw [hpg1, hpg]
        by_cases ha : is_active env sel n = true
        · have hs := (is_active_iff env sel n).1 ha
          simp [ha, hs, List.filter_cons]
        · have hs : ¬ spec_included env sel n := fun h => ha ((is_active_iff env sel n).2 h)
          simp [ha, hs, List.filter_cons]
      · rw [hact1, hact]
        by_cases ha : is_active env sel n = true
        · have hs := (is_active_iff env sel n).1 ha
          simp [ha, hs, List.filter_cons]; omega
        · have hs : ¬ spec_included env sel n := fun h => ha ((is_active_iff env sel n).2 h)
          simp [ha, hs, List.filter_cons]

theorem C5_witness :
    ∃ recs : List top_proc,
      List.Forall₂ (fun n row => n.pid = row.pid ∧ n.usename = row.usename ∧
        ∃ old, n.pgstate = example_env.update_state old row.state) recs [example_row_40] ∧
      (example_loop_after 0).pgtable = (example_loop 39).pgtable ++
        recs.filter (fun n => decide (spec_included example_env example_sel n)) ∧
      (example_loop_after 0).active_procs = (example_loop 39).active_procs +
        (recs.filter (fun n => decide (spec_included example_env example_sel n))).length :=
  (C5_active_filter example_env example_sel 0 ((200 : ℚ) * (example_env.HZ : ℚ))
    [example_row_40] (example_loop 39) (example_loop_after 0) (by decide)
    (by with_unfolding_all rfl)).1

/-! ## The comparison chains -/

theorem trunc_small (x : ℚ) (h : |x| < 1) : trunc x = 0 := by
  unfold trunc
  rw [abs_lt] at h
  split_ifs with h0
  · rw [Int.floor_eq_zero_iff]
    exact ⟨h0, h.2⟩
  · rw [Int.ceil_eq_zero_iff]
    exact ⟨h.1, le_of_lt (not_le.1 h0)⟩

theorem double_to_int_small (x : ℚ) (h : |x| < 1) : double_to_int x = some 0 := by
  unfold double_to_int
  rw [trunc_small x h]
  rfl

/-- C6 fails on the code: `ORDERKEY_PCTCPU` casts the difference of two CPU fractions to
`int`, so the key is 0 whenever the fractions differ by less than 1.  With `pcpu` 1/2
against 1/4 and all else equal `compare_cpu` returns 0 in both directions, and with a
lower database state and a smaller resident size on the busier record it returns a
positive value, placing the record with the larger `pcpu` after the other. -/
theorem C6_compare_cpu_truncates_fraction :
    compare_cpu.call { top_proc.zero with pcpu := 1 / 2 } { top_proc.zero with pcpu := 1 / 4 }
      = some 0 ∧
    compare_cpu.call { top_proc.zero with pcpu := 1 / 4 } { top_proc.zero with pcpu := 1 / 2 }
      = some 0 ∧
    compare_cpu.call { top_proc.zero with pcpu := 1 / 2, pgstate := 1, rss := 10 }
      { top_proc.zero with pcpu := 1 / 4, pgstate := 2, rss := 20 } = some 10 ∧
    (∀ a b : top_proc, |b.pcpu - a.pcpu| < 1 → OrderKey.PCTCPU.result a b = some 0) := by
  refine ⟨by with_unfolding_all decide, by with_unfolding_all decide,
    by with_unfolding_all decide, ?_⟩
  intro a b h
  exact double_to_int_small _ h

theorem to_int_of_fits (x : Int) (h1 : -(2 ^ 31) ≤ x) (h2 : x < 2 ^ 31) : to_int x = x := by
  unfold to_int
  rw [Int.emod_eq_of_lt (by omega) (by omega)]
  omega

/-- C7 fails on the code: `ORDERKEY_STATE` is `if ((result = p1->pgstate < p2->pgstate))`,
without the `== 0` of the other keys, so the keys listed after it run only when the
first record has the lower state and `result` is 0 otherwise.  In the example of the
claim (equal `pcpu`, `pgstate` and `rss`, sizes 200 and 100) `compare_cpu` returns 0 in
both directions; in general it returns 0 whenever the fractions differ by less than 1
and the first state is not below the second.  Where the state is the last key
(`compare_res`), records that differ in it alone compare equal in one direction. -/
theorem C7_state_key_ends_chain :
    compare_cpu.call { top_proc.zero with pcpu := 1 / 2, pgstate := 1, rss := 50, size := 200 }
      { top_proc.zero with pcpu := 1 / 2, pgstate := 1, rss := 50, size := 100 } = some 0 ∧
    compare_cpu.call { top_proc.zero with pcpu := 1 / 2, pgstate := 1, rss := 50, size := 100 }
      { top_proc.zero with pcpu := 1 / 2, pgstate := 1, rss := 50, size := 200 } = some 0 ∧
    (∀ a b : top_proc, |b.pcpu - a.pcpu| < 1 → ¬ a.pgstate < b.pgstate →
      compare_cpu.call a b = some 0) ∧
    compare_res.call { top_proc.zero with pgstate := 2 } { top_proc.zero with pgstate := 1 }
      = some 0 ∧
    compare_res.call { top_proc.zero with pgstate := 1 } { top_proc.zero with pgstate := 2 }
      = some 1 := by
  refine ⟨by with_unfolding_all decide, by with_unfolding_all decide, ?_,
    by with_unfolding_all decide, by with_unfolding_all decide⟩
  intro a b h hs
  have hp : double_to_int (b.pcpu - a.pcpu) = some 0 := double_to_int_small _ h
  simp [Comparator.call, compare_cpu, run_keys, hp, OrderKey.test, OrderKey.result, hs]

/-- C8 fails on the code for 64-bit lags: `ORDERKEY_LAG_SENT` stores the `long long`
difference in the `int result`, which keeps its low 32 bits.  The example of the claim
holds (lags 100 and 50 give -50 and 50), and so does the claim whenever the two lags
differ by less than `2 ^ 31`; but a lag of 3221225472 against 0 gives a positive result,
so the larger lag sorts last, and a lag of 4294967296 against 0 gives 0. -/
theorem C8_lag_sent_truncated :
    compare_lag_sent.call { top_proc.zero with sent_lag := 100, write_lag := 80 }
      { top_proc.zero with sent_lag := 50 } = some (-50) ∧
    compare_lag_sent.call { top_proc.zero with sent_lag := 50 }
      { top_proc.zero with sent_lag := 100, write_lag := 80 } = some 50 ∧
    compare_lag_sent.call { top_proc.zero with sent_lag := 3221225472 } top_proc.zero
      = some 1073741824 ∧
    compare_lag_sent.call top_proc.zero { top_proc.zero with sent_lag := 3221225472 }
      = some (-1073741824) ∧
    compare_lag_sent.call { top_proc.zero with sent_lag := 4294967296 } top_proc.zero
      = some 0 ∧
    (∀ a b : top_proc, b.sent_lag < a.sent_lag → a.sent_lag - b.sent_lag < 2 ^ 31 →
      compare_lag_sent.call a b = some (b.sent_lag - a.sent_lag) ∧
      compare_lag_sent.call b a = some (a.sent_lag - b.sent_lag) ∧
      b.sent_lag - a.sent_lag < 0 ∧ a.sent_lag - b.sent_lag > 0) := by
  refine ⟨by with_unfolding_all rfl, by with_unfolding_all rfl,
    by with_unfolding_all rfl, by with_unfolding_all rfl,
    by with_unfolding_all rfl, ?_⟩
  intro a b hlt hfit
  have h1 : OrderKey.LAG_SENT.result a b = some (b.sent_lag - a.sent_lag) :=
    congrArg some (to_int_of_fits _ (by omega) (by omega))
  have h2 : OrderKey.LAG_SENT.result b a = some (a.sent_lag - b.sent_lag) :=
    congrArg some (to_int_of_fits _ (by omega) (by omega))
  have t1 : OrderKey.LAG_SENT.test (b.sent_lag - a.sent_lag) = false := by
    simp [OrderKey.test]; omega
  have t2 : OrderKey.LAG_SENT.test (a.sent_lag - b.sent_lag) = false := by
    simp [OrderKey.test]; omega
  refine ⟨?_, ?_, by omega, by omega⟩
  · simp only [Comparator.call, compare_lag_sent, run_keys, h1, t1]
    simp
  · simp only [Comparator.call, compare_lag_sent, run_keys, h2, t2]
    simp

/-- The last key of the I/O comparison functions: `strcmp` of the two names, with no
value when one of them is the null pointer of a record that was never named. -/
theorem NAME_result (a b : top_proc) :
    OrderKey.NAME.result a b =
      match a.name, b.name with
      | some s1, some s2 => some (strcmp s1 s2)
      | _, _ => none := rfl

/-- C9 fails on the code for large deltas: each numeric key of `compare_iops` stores a
`long long` difference of deltas in the `int result`, which keeps its low 32 bits.  Of
two records named `postgres`, one whose read-byte delta is 3221225472 (3 GiB), equal to
the other on the three keys before, compares greater than the other although the first
key on which they differ asks for it to come first; and one whose I/O-ops delta is
4294967296 compares equal to one whose delta is 0.  Whenever the five differences of
deltas fit in an `int`, the result is the first non-zero one of: I/O-ops, write-syscall,
read-syscall, read-byte and write-byte differences (second record minus first), and when
all five are zero it is `strcmp` of the names; the call then faults when one of the
names is still the null pointer. -/
theorem C9_compare_iops_chain_truncated :
    compare_iops.call
      { top_proc.zero with name := some "postgres", read_bytes := ⟨3221225472, 0⟩ }
      { top_proc.zero with name := some "postgres" } = some 1073741824 ∧
    compare_iops.call
      { top_proc.zero with name := some "postgres", iops := ⟨4294967296, 0⟩ }
      { top_proc.zero with name := some "postgres" } = some 0 ∧
    (∀ a b : top_proc,
      (-(2 ^ 31) ≤ diff_stat b.iops b.index - diff_stat a.iops a.index ∧
        diff_stat b.iops b.index - diff_stat a.iops a.index < 2 ^ 31) →
      (-(2 ^ 31) ≤ diff_stat b.syscw b.index - diff_stat a.syscw a.index ∧
        diff_stat b.syscw b.index - diff_stat a.syscw a.index < 2 ^ 31) →
      (-(2 ^ 31) ≤ diff_stat b.syscr b.index - diff_stat a.syscr a.index ∧
        diff_stat b.syscr b.index - diff_stat a.syscr a.index < 2 ^ 31) →
      (-(2 ^ 31) ≤ diff_stat b.read_bytes b.index - diff_stat a.read_bytes a.index ∧
        diff_stat b.read_bytes b.index - diff_stat a.read_bytes a.index < 2 ^ 31) →
      (-(2 ^ 31) ≤ diff_stat b.write_bytes b.index - diff_stat a.write_bytes a.index ∧
        diff_stat b.write_bytes b.index - diff_stat a.write_bytes a.index < 2 ^ 31) →
      compare_iops.call a b =
        if diff_stat b.iops b.index - diff_stat a.iops a.index ≠ 0 then
          some (diff_stat b.iops b.index - diff_stat a.iops a.index)
        else if diff_stat b.syscw b.index - diff_stat a.syscw a.index ≠ 0 then
          some (diff_stat b.syscw b.index - diff_stat a.syscw a.index)
        else if diff_stat b.syscr b.index - diff_stat a.syscr a.index ≠ 0 then
          some (diff_stat b.syscr b.index - diff_stat a.syscr a.index)
        else if diff_stat b.read_bytes b.index - diff_stat a.read_bytes a.index ≠ 0 then
          some (diff_stat b.read_bytes b.index - diff_stat a.read_bytes a.index)
        else if diff_stat b.write_bytes b.index - diff_stat a.write_bytes a.index ≠ 0 then
          some (diff_stat b.write_bytes b.index - diff_stat a.write_bytes a.index)
        else
          match a.name, b.name with
          | some s1, some s2 => some (strcmp s1 s2)
          | _, _ => none) := by
  refine ⟨by with_unfolding_all rfl, by with_unfolding_all rfl, ?_⟩
  intro a b h1 h2 h3 h4 h5
  rw [← NAME_result]
  simp only [Comparator.call, compare_iops, run_keys, OrderKey.result.eq_1,
    OrderKey.result.eq_14, OrderKey.result.eq_15, OrderKey.result.eq_11,
    OrderKey.result.eq_16, OrderKey.test]
  rw [to_int_of_fits _ h1.1 h1.2, to_int_of_fits _ h2.1 h2.2, to_int_of_fits _ h3.1 h3.2,
    to_int_of_fits _ h4.1 h4.2, to_int_of_fits _ h5.1 h5.2]
  clear h1 h2 h3 h4 h5
  generalize diff_stat b.iops b.index - diff_stat a.iops a.index = x1
  generalize diff_stat b.syscw b.index - diff_stat a.syscw a.index = x2
  generalize diff_stat b.syscr b.index - diff_stat a.syscr a.index = x3
  generalize diff_stat b.read_bytes b.index - diff_stat a.read_bytes a.index = x4
  generalize diff_stat b.write_bytes b.index - diff_stat a.write_bytes a.index = x5
  generalize OrderKey.NAME.result a b = x6
  by_cases e1 : x1 = 0
  · by_cases e2 : x2 = 0
    · by_cases e3 : x3 = 0
      · by_cases e4 : x4 = 0
        · by_cases e5 : x5 = 0
          · cases x6 with
            | none => simp [e1, e2, e3, e4, e5]
            | some r =>
              by_cases e6 : r = 0
              · simp [e1, e2, e3, e4, e5, e6]
              · simp [e1, e2, e3, e4, e5, e6]
          · simp [e1, e2, e3, e4, e5]
        · simp [e1, e2, e3, e4]
      · simp [e1, e2, e3]
    · simp [e1, e2]
  · simp [e1]

theorem run_keys_first (k : OrderKey) (ks : List OrderKey) (a b : top_proc) (r0 r : Int)
    (hr : k.result a b = some r) (h : k.test r = false) :
    run_keys (k :: ks) a b r0 = some r := by
  simp [run_keys, hr, h]

theorem run_keys_fault (k : OrderKey) (ks : List OrderKey) (a b : top_proc) (r0 : Int)
    (hr : k.result a b = none) : run_keys (k :: ks) a b r0 = none := by
  simp [run_keys, hr]

/-- C10: `ordernames` and `proc_compares` both have sixteen entries followed by `NULL`
at index 16, and are aligned: for every index below 16 the first key listed in the
comparison function at that index is the key the name at that index stands for, and
whenever that key does not lead into the rest of the chain the function returns the
value of that key (and it has no value when that key has none). -/
theorem C10_registry_aligned :
    ordernames.length = 17 ∧ proc_compares.length = 17 ∧
    ordernames.get? 16 = some none ∧ proc_compares.get? 16 = some none ∧
    (∀ i : Nat, i < 16 → ∃ name cmp k,
      ordernames.get? i = some (some name) ∧ proc_compares.get? i = some (some cmp) ∧
      spec_named_key name = some k ∧ cmp.keys.head? = some k ∧
      (∀ (a b : top_proc) (r : Int), k.result a b = some r → k.test r = false →
        cmp.call a b = some r) ∧
      (∀ a b : top_proc, k.result a b = none → cmp.call a b = none)) := by
  refine ⟨rfl, rfl, rfl, rfl, ?_⟩
  intro i hi
  interval_cases i
  all_goals
    refine ⟨_, _, _, rfl, rfl, by decide, rfl, ?_, ?_⟩
    · intro a b r hr h
      exact run_keys_first _ _ a b 0 r hr h
    · intro a b hr
      exact run_keys_fault _ _ a b 0 hr

/-! ## The slot index -/

theorem process_row_replication (env : Env) (sel : process_select) (mode : Int)
    (tickdiff : ℚ) (l : Loop) (row : Row) (hmode : mode = env.MODE_REPLICATION) :
    process_row env sel mode tickdiff l row =
      some { head_proc := write_back
               (RB_INSERT l.head_proc { top_proc.zero with pid := row.pid }).1
               (flip (fill_replication (upsert_record l.head_proc row.pid) row)),
             pgtable := l.pgtable ++ [fill_replication (upsert_record l.head_proc row.pid) row],
             process_states := l.process_states, total_procs := l.total_procs + 1,
             active_procs := l.active_procs + 1 } := by
  unfold process_row
  simp only [if_pos hmode]

theorem process_row_store (env : Env) (sel : process_select) (mode : Int) (tickdiff : ℚ)
    (l l1 : Loop) (row : Row) (hr : process_row env sel mode tickdiff l row = some l1) :
    ∃ n, l1.head_proc =
        write_back (RB_INSERT l.head_proc { top_proc.zero with pid := row.pid }).1 (flip n) ∧
      n.pid = row.pid ∧ n.index = (upsert_record l.head_proc row.pid).index := by
  by_cases hmode : mode = env.MODE_REPLICATION
  · rw [process_row_replication env sel mode tickdiff l row hmode] at hr
    injection hr with hr
    subst hr
    exact ⟨_, rfl, upsert_record_pid _ _, rfl⟩
  · obtain ⟨m, ps, n, hm, hn, _, hhead, _⟩ :=
      process_row_normal env sel mode tickdiff l l1 row hmode hr
    obtain ⟨hpid, hidx, _, _, _⟩ := read_one_proc_stat_frame env _ m sel row.files hm
    obtain ⟨x, hx⟩ := set_pcpu_frame (fill_process env sel m row)
      (upsert_record l.head_proc row.pid).time tickdiff
    refine ⟨n, hhead, ?_, ?_⟩
    · rw [hn, hx]
      show (fill_process env sel m row).pid = row.pid
      rw [(fill_process_fields env sel m row).1, hpid, upsert_record_pid]
    · rw [hn, hx]
      show (fill_process env sel m row).index = _
      rw [← hidx]
      unfold fill_process
      simp only
      split_ifs <;> rfl

theorem mem_RB_INSERT_of_mem (head : List top_proc) (n x : top_proc) (hx : x ∈ head) :
    x ∈ (RB_INSERT head n).1 := by
  induction head with
  | nil => simp at hx
  | cons e rest ih =>
    unfold RB_INSERT
    split_ifs
    · simp only [List.mem_cons]; exact Or.inr (List.mem_cons.1 hx)
    · rcases List.mem_cons.1 hx with h | h
      · simp [h]
      · simp [ih h]
    · exact hx

theorem mem_write_back_other (head : List top_proc) (y x : top_proc) (hx : x ∈ head)
    (hp : x.pid ≠ y.pid) : x ∈ write_back head y := by
  unfold write_back
  rw [List.mem_map]
  exact ⟨x, hx, by simp [hp]⟩

theorem mem_write_back_cases (head : List top_proc) (y x : top_proc)
    (hx : x ∈ write_back head y) : x = y ∨ (x ∈ head ∧ x.pid ≠ y.pid) := by
  unfold write_back at hx
  rw [List.mem_map] at hx
  obtain ⟨e, he, hxe⟩ := hx
  split_ifs at hxe with h
  · exact Or.inl hxe.symm
  · subst hxe; exact Or.inr ⟨he, h⟩

theorem sorted_unique (head : List top_proc) (a b : top_proc) (hs : store_sorted head)
    (ha : a ∈ head) (hb : b ∈ head) (hp : a.pid = b.pid) : a = b := by
  induction head with
  | nil => simp at ha
  | cons e rest ih =>
    unfold store_sorted at hs
    rw [List.pairwise_cons] at hs
    rcases List.mem_cons.1 ha with ha | ha <;> rcases List.mem_cons.1 hb with hb | hb
    · rw [ha, hb]
    · have := hs.1 b hb; rw [ha] at hp; omega
    · have := hs.1 a ha; rw [hb] at hp; omega
    · exact ih hs.2 ha hb

theorem flip_index (n : top_proc) (h : n.index = 0 ∨ n.index = 1) :
    (flip n).index = 1 - n.index ∧ ((flip n).index = 0 ∨ (flip n).index = 1) := by
  unfold flip
  rcases h with h | h <;> simp only [h] <;> decide

/-- What one iteration does to the store, for a store in pid order with slot indexes 0
or 1: the record of the row's pid is the old one with its index flipped, or a new one
with index 1; every other record is as before. -/
theorem process_row_index (env : Env) (sel : process_select) (mode : Int) (tickdiff : ℚ)
    (l l1 : Loop) (row : Row) (hs : store_sorted l.head_proc)
    (hi : ∀ e ∈ l.head_proc, e.index = 0 ∨ e.index = 1)
    (hr : process_row env sel mode tickdiff l row = some l1) :
    (∀ e ∈ l.head_proc, e.pid = row.pid →
      ∃ e1 ∈ l1.head_proc, e1.pid = e.pid ∧ e1.index = 1 - e.index) ∧
    (∀ e ∈ l.head_proc, e.pid ≠ row.pid → e ∈ l1.head_proc) ∧
    (∀ e1 ∈ l1.head_proc, e1.index = 0 ∨ e1.index = 1) ∧
    (∀ e1 ∈ l1.head_proc, e1 ∈ l.head_proc ∨
      (e1.pid = row.pid ∧ ((∀ e ∈ l.head_proc, e.pid ≠ row.pid) → e1.index = 1))) := by
  obtain ⟨n, hhead, hnp, hni⟩ := process_row_store env sel mode tickdiff l l1 row hr
  have hnidx : n.index = 0 ∨ n.index = 1 := by
    rw [hni]
    unfold upsert_record
    split
    · next p hp => exact hi p (RB_INSERT_some _ _ p hp).2
    · exact Or.inl rfl
  have hflip := flip_index n hnidx
  have hmemflip : flip n ∈ l1.head_proc := by
    rw [hhead]
    apply write_back_has
    obtain ⟨e, he, hp⟩ := RB_INSERT_has l.head_proc { top_proc.zero with pid := row.pid }
    exact ⟨e, he, by rw [hp]; exact hnp.symm⟩
  refine ⟨?_, ?_, ?_, ?_⟩
  · intro e he hp
    refine ⟨flip n, hmemflip, ?_, ?_⟩
    · show n.pid = e.pid
      rw [hnp, hp]
    · rw [hflip.1, hni, upsert_record_old _ _ e hs he hp]
  · intro e he hp
    rw [hhead]
    apply mem_write_back_other _ _ _ (mem_RB_INSERT_of_mem _ _ _ he)
    show e.pid ≠ n.pid
    rw [hnp]; exact hp
  · intro e1 he1
    rw [hhead] at he1
    rcases mem_write_back_cases _ _ _ he1 with h | ⟨h, _⟩
    · rw [h]; exact hflip.2
    · rcases mem_RB_INSERT _ _ _ h with h0 | h0
      · rw [h0]; exact Or.inl rfl
      · exact hi e1 h0
  · intro e1 he1
    rw [hhead] at he1
    rcases mem_write_back_cases _ _ _ he1 with h | ⟨h, hne⟩
    · right
      rw [h]
      refine ⟨hnp, ?_⟩
      intro hnew
      rw [hflip.1, hni, upsert_record_new _ _ hnew]
      rfl
    · rcases mem_RB_INSERT _ _ _ h with h0 | h0
      · exfalso
        apply hne
        rw [h0]
        show row.pid = n.pid
        exact hnp.symm
      · exact Or.inl h0

theorem process_rows_index_range (env : Env) (sel : process_select) (mode : Int)
    (tickdiff : ℚ) (rows : List Row) (l l1 : Loop) (hs : store_sorted l.head_proc)
    (hi : ∀ e ∈ l.head_proc, e.index = 0 ∨ e.index = 1)
    (hr : process_rows env sel mode tickdiff l rows = some l1) :
    ∀ e1 ∈ l1.head_proc, e1.index = 0 ∨ e1.index = 1 := by
  induction rows generalizing l with
  | nil => simp [process_rows] at hr; rw [← hr]; exact hi
  | cons row rows ih =>
    unfold process_rows at hr
    split at hr
    · exact absurd hr (by simp)
    · next l2 h2 =>
      exact ih l2 (process_row_sorted env sel mode tickdiff l l2 row hs h2)
        (process_row_index env sel mode tickdiff l l2 row hs hi h2).2.2.1 hr

theorem run_cycles_index_range (env : Env) (cycles : List Cycle) (st st1 : State)
    (hs : store_sorted st.head_proc) (hi : ∀ e ∈ st.head_proc, e.index = 0 ∨ e.index = 1)
    (hr : run_cycles env st cycles = some st1) :
    ∀ e1 ∈ st1.head_proc, e1.index = 0 ∨ e1.index = 1 := by
  induction cycles generalizing st with
  | nil => simp [run_cycles] at hr; rw [← hr]; exact hi
  | cons c cs ih =>
    unfold run_cycles at hr
    split at hr
    · exact absurd hr (by simp)
    · next st2 h2 =>
      obtain ⟨l, hl, hh, _⟩ := get_process_info_head env st st2 _ _ _ _ _ h2
      refine ih st2 (get_process_info_sorted env st st2 _ _ _ _ _ hs h2) ?_ hr
      rw [hh]
      exact process_rows_index_range env _ _ _ _ _ l hs hi hl

theorem process_rows_index (env : Env) (sel : process_select) (mode : Int) (tickdiff : ℚ)
    (rows : List Row) (l l1 : Loop) (hs : store_sorted l.head_proc)
    (hi : ∀ e ∈ l.head_proc, e.index = 0 ∨ e.index = 1)
    (hnd : (rows.map Row.pid).Nodup)
    (hr : process_rows env sel mode tickdiff l rows = some l1) :
    (∀ e ∈ l.head_proc, e.pid ∈ rows.map Row.pid →
      ∃ e1 ∈ l1.head_proc, e1.pid = e.pid ∧ e1.index = 1 - e.index) ∧
    (∀ e ∈ l.head_proc, e.pid ∉ rows.map Row.pid → e ∈ l1.head_proc) ∧
    (∀ e1 ∈ l1.head_proc, (∀ e ∈ l.head_proc, e.pid ≠ e1.pid) →
      e1.pid ∈ rows.map Row.pid ∧ e1.index = 1) := by
  induction rows generalizing l with
  | nil =>
    simp only [process_rows] at hr
    injection hr with hr
    subst hr
    refine ⟨fun e _ h => absurd h (by simp), fun e he _ => he, ?_⟩
    intro e1 he1 hnew
    exact absurd rfl (hnew e1 he1)
  | cons row rows ih =>
    unfold process_rows at hr
    split at hr
    · exact absurd hr (by simp)
    · next l2 h2 =>
      rw [List.map_cons, List.nodup_cons] at hnd
      have hs2 := process_row_sorted env sel mode tickdiff l l2 row hs h2
      obtain ⟨r1, r2, r3, r4⟩ := process_row_index env sel mode tickdiff l l2 row hs hi h2
      obtain ⟨i1, i2, i3⟩ := ih l2 hs2 r3 hnd.2 hr
      have hs1 := process_rows_sorted env sel mode tickdiff rows l2 l1 hs2 hr
      refine ⟨?_, ?_, ?_⟩
      · intro e he hp
        by_cases hrow : e.pid = row.pid
        · obtain ⟨e2, he2, hp2, hx2⟩ := r1 e he hrow
          have : e2 ∈ l1.head_proc := i2 e2 he2 (by rw [hp2, hrow]; exact hnd.1)
          exact ⟨e2, this, hp2, hx2⟩
        · have he2 := r2 e he hrow
          rw [List.map_cons, List.mem_cons] at hp
          rcases hp with hp | hp
          · exact absurd hp hrow
          · exact i1 e he2 hp
      · intro e he hp
        rw [List.map_cons, List.mem_cons, not_or] at hp
        exact i2 e (r2 e he hp.1) hp.2
      · intro e1 he1 hnew
        by_cases hB : ∃ e2 ∈ l2.head_proc, e2.pid = e1.pid
        · obtain ⟨e2, he2, hp2⟩ := hB
          rcases r4 e2 he2 with h | ⟨hp, hx⟩
          · exact absurd hp2 (hnew e2 h)
          · have hnone : ∀ e ∈ l.head_proc, e.pid ≠ row.pid := by
              intro e he
              rw [← hp, hp2]
              exact hnew e he
            have h21 : e2 ∈ l1.head_proc := i2 e2 he2 (by rw [hp]; exact hnd.1)
            have := sorted_unique _ _ _ hs1 he1 h21 hp2.symm
            rw [this]
            exact ⟨by simp [hp], hx hnone⟩
        · have hA : ∀ e2 ∈ l2.head_proc, e2.pid ≠ e1.pid :=
            fun e2 he2 hp => hB ⟨e2, he2, hp⟩
          obtain ⟨hm, hx⟩ := i3 e1 he1 hA
          exact ⟨by simp [hm], hx⟩

/-- C11: in a cycle of either mode over a row-set in which each pid occurs once, run on
a state reached from the initial one, every record whose pid is in the row-set has its
slot index flipped once (`1 - index`, and 1 for a record created in the cycle), every
other record is left as it was, and every index is 0 or 1 before and after. -/
theorem C11_slot_flips_once (env : Env) (cycles : List Cycle) (st st1 : State)
    (sel : process_select) (compare_index : Int) (conn : Option (List Row)) (mode : Int)
    (thistime : timeval)
    (hrun : run_cycles env (State.init env) cycles = some st)
    (hnd : ((conn.getD []).map Row.pid).Nodup)
    (hr : get_process_info env st sel compare_index conn mode thistime = some st1) :
    (∀ e ∈ st.head_proc, e.pid ∈ (conn.getD []).map Row.pid →
      ∃ e1 ∈ st1.head_proc, e1.pid = e.pid ∧ e1.index = 1 - e.index) ∧
    (∀ e ∈ st.head_proc, e.pid ∉ (conn.getD []).map Row.pid → e ∈ st1.head_proc) ∧
    (∀ e1 ∈ st1.head_proc, (∀ e ∈ st.head_proc, e.pid ≠ e1.pid) →
      e1.pid ∈ (conn.getD []).map Row.pid ∧ e1.index = 1) ∧
    (∀ e ∈ st.head_proc, e.index = 0 ∨ e.index = 1) ∧
    (∀ e1 ∈ st1.head_proc, e1.index = 0 ∨ e1.index = 1) := by
  have hs : store_sorted st.head_proc :=
    run_cycles_sorted env cycles (State.init env) st (by simp [State.init, store_sorted]) hrun
  have hi : ∀ e ∈ st.head_proc, e.index = 0 ∨ e.index = 1 :=
    run_cycles_index_range env cycles (State.init env) st
      (by simp [State.init, store_sorted]) (by simp [State.init]) hrun
  obtain ⟨l, hl, hh, _⟩ :=
    get_process_info_head env st st1 sel compare_index conn mode thistime hr
  obtain ⟨a, b, c⟩ := process_rows_index env sel mode _ _ _ l hs hi hnd hl
  rw [hh]
  exact ⟨a, b, c, hi, process_rows_index_range env sel mode _ _ _ l hs hi hl⟩

theorem C11_witness :
    get_process_info example_env example_state_replication example_cycle_next.sel
      example_cycle_next.compare_index example_cycle_next.conn example_cycle_next.mode
      example_cycle_next.thistime = some example_state_next ∧
    ∃ e1 ∈ example_state_next.head_proc,
      e1.pid = (example_record 7 0).pid ∧ e1.index = 1 - (example_record 7 0).index :=
  have hr : get_process_info example_env example_state_replication example_cycle_next.sel
      example_cycle_next.compare_index example_cycle_next.conn example_cycle_next.mode
      example_cycle_next.thistime = some example_state_next := by
    with_unfolding_all rfl
  ⟨hr, (C11_slot_flips_once example_env [example_cycle_replication]
    example_state_replication example_state_next example_cycle_next.sel
    example_cycle_next.compare_index example_cycle_next.conn example_cycle_next.mode
    example_cycle_next.thistime (by rfl) (by decide) hr).1 (example_record 7 0)
    (by simp [example_state_replication]) (by decide)⟩

/-! ## Records whose status could not be read -/

theorem fill_process_state (env : Env) (sel : process_select) (m : top_proc) (row : Row) :
    (fill_process env sel m row).state = m.state := by
  unfold fill_process
  simp only
  split_ifs <;> rfl

/-- C12 (as the code has it): the run state left by `read_one_proc_stat` plays no part
in the inclusion test of normal mode.  For a row whose record has state 0 after the
read, the record `n` the test is made on has the pid and the username of the row, the
database state `update_state` derives from the state text of the row, and state 0; it is
copied into the active buffer exactly when idle display is on or that database state is
not idle, and the username filter is empty or equals the username of the row; in either
case it is the record of its pid in the store, with state 0 and the index flipped. -/
theorem C12_state_zero_not_filtered (env : Env) (sel : process_select) (mode : Int)
    (tickdiff : ℚ) (l l1 : Loop) (row : Row) (m : top_proc)
    (hmode : mode ≠ env.MODE_REPLICATION)
    (hm : read_one_proc_stat env (upsert_record l.head_proc row.pid) sel row.files = some m)
    (hstate : m.state = 0)
    (hr : process_row env sel mode tickdiff l row = some l1) :
    ∃ n, n = set_pcpu (fill_process env sel m row) (upsert_record l.head_proc row.pid).time
        tickdiff ∧
      n.pid = row.pid ∧ n.state = 0 ∧ n.usename = row.usename ∧
      n.pgstate = env.update_state (upsert_record l.head_proc row.pid).pgstate row.state ∧
      (spec_included env sel n ↔
        (sel.idle ≠ 0 ∨
          env.update_state (upsert_record l.head_proc row.pid).pgstate row.state
            ≠ env.STATE_IDLE) ∧
        (sel.usename = "" ∨ row.usename = sel.usename)) ∧
      (spec_included env sel n → l1.pgtable = l.pgtable ++ [n]) ∧
      (¬ spec_included env sel n → l1.pgtable = l.pgtable) ∧
      flip n ∈ l1.head_proc ∧ (flip n).state = 0 ∧
      (∀ e ∈ l1.head_proc, e.pid = row.pid → e = flip n) := by
  obtain ⟨m1, ps, n, hm1, hn, _, hhead, hpg, _⟩ :=
    process_row_normal env sel mode tickdiff l l1 row hmode hr
  rw [hm] at hm1
  injection hm1 with hm1
  subst hm1
  obtain ⟨hpid, _, hpgs, _, _⟩ := read_one_proc_stat_frame env _ m sel row.files hm
  obtain ⟨x, hx⟩ := set_pcpu_frame (fill_process env sel m row)
    (upsert_record l.head_proc row.pid).time tickdiff
  obtain ⟨f1, f2, f3⟩ := fill_process_fields env sel m row
  have hnp : n.pid = row.pid := by
    rw [hn, hx]
    show (fill_process env sel m row).pid = row.pid
    rw [f1, hpid, upsert_record_pid]
  have hnu : n.usename = row.usename := by
    rw [hn, hx]
    exact f2
  have hng : n.pgstate =
      env.update_state (upsert_record l.head_proc row.pid).pgstate row.state := by
    rw [hn, hx]
    show (fill_process env sel m row).pgstate = _
    rw [f3, hpgs]
  have hns : n.state = 0 := by
    rw [hn, hx]
    show (fill_process env sel m row).state = 0
    rw [fill_process_state, hstate]
  refine ⟨n, hn, hnp, hns, hnu, hng, ?_, ?_, ?_, ?_, hns, ?_⟩
  · unfold spec_included
    rw [hng, hnu]
  · intro hinc
    rw [hpg, if_pos ((is_active_iff env sel n).2 hinc)]
  · intro hinc
    rw [hpg, if_neg (fun h => hinc ((is_active_iff env sel n).1 h))]
  · rw [hhead]
    apply write_back_has
    obtain ⟨e, he, hp⟩ := RB_INSERT_has l.head_proc { top_proc.zero with pid := row.pid }
    exact ⟨e, he, by rw [hp]; exact hnp.symm⟩
  · intro e he hp
    rw [hhead] at he
    exact write_back_mem _ (flip n) e he (by rw [hp]; exact hnp.symm)

theorem C12_witness :
    process_row example_env example_sel 0 0 example_loop_start example_row_unread
      = some example_loop_unread ∧
    ∃ n, n.pid = example_row_unread.pid ∧ n.state = 0 ∧
      n.usename = example_row_unread.usename ∧
      n.pgstate = example_env.update_state
        (upsert_record example_loop_start.head_proc example_row_unread.pid).pgstate
        example_row_unread.state ∧
      (spec_included example_env example_sel n →
        example_loop_unread.pgtable = example_loop_start.pgtable ++ [n]) ∧
      (¬ spec_included example_env example_sel n →
        example_loop_unread.pgtable = example_loop_start.pgtable) ∧
      flip n ∈ example_loop_unread.head_proc ∧ (flip n).state = 0 :=
  have hr : process_row example_env example_sel 0 0 example_loop_start example_row_unread
      = some example_loop_unread := by with_unfolding_all rfl
  ⟨hr, (C12_state_zero_not_filtered example_env example_sel 0 0 example_loop_start
    example_loop_unread example_row_unread
    { top_proc.zero with pid := 9 } (by decide) (by with_unfolding_all rfl) rfl hr).elim
    (fun n h => ⟨n, h.2.1, h.2.2.1, h.2.2.2.1, h.2.2.2.2.1, h.2.2.2.2.2.2.1,
      h.2.2.2.2.2.2.2.1, h.2.2.2.2.2.2.2.2.1, h.2.2.2.2.2.2.2.2.2.1⟩)⟩

/-- C12 as stated fails: a row whose status file could not be read (no parenthesis in
the text) leaves its record with state 0, and with idle display on and no username
filter that record is copied into the active buffer. -/
theorem C12_counterexample :
    (read_one_proc_stat example_env (upsert_record example_loop_start.head_proc 9)
      example_sel example_row_unread.files).map top_proc.state = some 0 ∧
    (process_row example_env example_sel 0 0 example_loop_start example_row_unread).map
      (fun l => l.pgtable.map (fun n => (n.pid, n.state))) = some [(9, 0)] ∧
    (process_row example_env example_sel 0 0 example_loop_start example_row_unread).map
      (fun l => l.head_proc.map (fun n => (n.pid, n.state))) = some [(9, 0)] := by
  refine ⟨by with_unfolding_all decide, by with_unfolding_all decide,
    by with_unfolding_all decide⟩

/-! ## Replication mode and empty row-sets -/

theorem upsert_record_os (head : List top_proc) (pid : Int) :
    (∃ e ∈ head, e.pid = pid ∧ upsert_record head pid = e) ∨
    os_fields (upsert_record head pid) = os_fields top_proc.zero := by
  unfold upsert_record
  split
  · next p hp =>
    have := RB_INSERT_some head _ p hp
    exact Or.inl ⟨p, this.2, this.1, rfl⟩
  · exact Or.inr rfl

/-- One replication iteration and the fields that come from the operating system. -/
theorem process_row_replication_os (env : Env) (sel : process_select) (mode : Int)
    (tickdiff : ℚ) (l l1 : Loop) (row : Row) (hmode : mode = env.MODE_REPLICATION)
    (hs : store_sorted l.head_proc)
    (hr : process_row env sel mode tickdiff l row = some l1) :
    (∀ e ∈ l.head_proc, ∃ e1 ∈ l1.head_proc, e1.pid = e.pid ∧ os_fields e1 = os_fields e) ∧
    (∀ e1 ∈ l1.head_proc,
      (∃ e ∈ l.head_proc, e.pid = e1.pid ∧ os_fields e1 = os_fields e) ∨
      os_fields e1 = os_fields top_proc.zero) := by
  rw [process_row_replication env sel mode tickdiff l row hmode] at hr
  injection hr with hr
  subst hr
  simp only
  have hnp : (flip (fill_replication (upsert_record l.head_proc row.pid) row)).pid = row.pid :=
    upsert_record_pid _ _
  have hos : os_fields (flip (fill_replication (upsert_record l.head_proc row.pid) row)) =
      os_fields (upsert_record l.head_proc row.pid) := rfl
  constructor
  · intro e he
    by_cases hp : e.pid = row.pid
    · refine ⟨_, write_back_has _ _ ?_, by rw [hnp, hp], ?_⟩
      · obtain ⟨x, hx, hxp⟩ := RB_INSERT_has l.head_proc { top_proc.zero with pid := row.pid }
        exact ⟨x, hx, by rw [hxp, hnp]⟩
      · rw [hos, upsert_record_old _ _ e hs he hp]
    · refine ⟨e, mem_write_back_other _ _ _ (mem_RB_INSERT_of_mem _ _ _ he) ?_, rfl, rfl⟩
      rw [hnp]; exact hp
  · intro e1 he1
    rcases mem_write_back_cases _ _ _ he1 with h | ⟨h, _⟩
    · rw [h, hos]
      rcases upsert_record_os l.head_proc row.pid with ⟨e, he, hp, heq⟩ | hz
      · left
        exact ⟨e, he, by rw [hnp, hp], by rw [heq]⟩
      · exact Or.inr hz
    · rcases mem_RB_INSERT _ _ _ h with h0 | h0
      · right; rw [h0]; rfl
      · exact Or.inl ⟨e1, h0, rfl, rfl⟩

/-- The row loop in replication mode: it always completes, copies a record for every
row, in row order, and leaves the fields that come from the operating system alone. -/
theorem process_rows_replication (env : Env) (sel : process_select) (mode : Int)
    (tickdiff : ℚ) (rows : List Row) (l : Loop) (hmode : mode = env.MODE_REPLICATION)
    (hs : store_sorted l.head_proc) :
    ∃ l1 recs, process_rows env sel mode tickdiff l rows = some l1 ∧
      List.Forall₂ (fun n row => n.pid = row.pid ∧ n.usename = row.usename ∧
        n.sent_lag = row.sent_lag ∧ n.write_lag = row.write_lag ∧
        n.flush_lag = row.flush_lag ∧ n.replay_lag = row.replay_lag) recs rows ∧
      l1.pgtable = l.pgtable ++ recs ∧
      l1.active_procs = l.active_procs + rows.length ∧
      l1.total_procs = l.total_procs + rows.length ∧
      l1.process_states = l.process_states ∧
      (∀ e ∈ l.head_proc, ∃ e1 ∈ l1.head_proc, e1.pid = e.pid ∧ os_fields e1 = os_fields e) ∧
      (∀ e1 ∈ l1.head_proc,
        (∃ e ∈ l.head_proc, e.pid = e1.pid ∧ os_fields e1 = os_fields e) ∨
        os_fields e1 = os_fields top_proc.zero) := by
  induction rows generalizing l with
  | nil =>
    exact ⟨l, [], rfl, List.Forall₂.nil, by simp, by simp, by simp, rfl,
      fun e he => ⟨e, he, rfl, rfl⟩, fun e1 he1 => Or.inl ⟨e1, he1, rfl, rfl⟩⟩
  | cons row rows ih =>
    have hrow := process_row_replication env sel mode tickdiff l row hmode
    obtain ⟨o1, o2⟩ := process_row_replication_os env sel mode tickdiff l _ row hmode hs hrow
    have hs2 := process_row_sorted env sel mode tickdiff l _ row hs hrow
    obtain ⟨l1, recs, h1, hall, hpg, hact, htot, hps, p1, p2⟩ := ih _ hs2
    refine ⟨l1, fill_replication (upsert_record l.head_proc row.pid) row :: recs, ?_,
      List.Forall₂.cons ⟨upsert_record_pid _ _, rfl, rfl, rfl, rfl, rfl⟩ hall, ?_, ?_, ?_,
      ?_, ?_, ?_⟩
    · unfold process_rows
      rw [hrow]
      exact h1
    · rw [hpg]; simp
    · rw [hact]; simp; omega
    · rw [htot]; simp; omega
    · rw [hps]
    · intro e he
      obtain ⟨e2, he2, hp2, ho2⟩ := o1 e he
      obtain ⟨e1, he1, hp1, ho1⟩ := p1 e2 he2
      exact ⟨e1, he1, by rw [hp1, hp2], by rw [ho1, ho2]⟩
    · intro e1 he1
      rcases p2 e1 he1 with ⟨e2, he2, hp2, ho2⟩ | hz
      · rcases o2 e2 he2 with ⟨e, he, hp, ho⟩ | hz2
        · exact Or.inl ⟨e, he, by rw [hp, hp2], by rw [ho2, ho]⟩
        · exact Or.inr (by rw [ho2, hz2])
      · exact Or.inr hz

theorem proc_compares_get (i : Int) (h0 : 0 ≤ i) (h1 : i < 16) :
    ∃ cmp, proc_compares.get? i.toNat = some (some cmp) := by
  have hlt : i.toNat < 16 := by omega
  generalize i.toNat = k at hlt
  interval_cases k <;> exact ⟨_, rfl⟩

/-- C13: in replication mode, from a state reached from the initial one, for every
row-set and every selection, the row loop completes; a record is copied into the active
buffer for every row, in row order, whatever the idle flag and the username filter are,
so the active count and the row count both equal the number of rows; the histogram
stays zero; and the fields that come from the operating system (name, sizes, state, tick
total, start time, CPU fraction, I/O slots) of every stored record are as before, those
of a record created in the cycle being zero.  The call returns with that buffer when no
sort is asked for or there is no row; with an order index it hands the buffer to `qsort`
and returns what `qsort` returns, and does not return when `qsort` does not (a record
that was never named has a null `name`, on which the functions that reach the name key
fault).  Whenever the call returns, `p_active` and `p_total` are the number of rows, the
histogram is zero and the store is the one the loop left. -/
theorem C13_replication_copies_all (env : Env) (cycles : List Cycle) (st : State)
    (sel : process_select) (compare_index : Int) (conn : Option (List Row)) (mode : Int)
    (thistime : timeval)
    (hrun : run_cycles env (State.init env) cycles = some st)
    (hmode : mode = env.MODE_REPLICATION) :
    ∃ l recs,
      process_rows env sel mode (elapsed st.lasttime thistime * (env.HZ : ℚ))
        { head_proc := st.head_proc, pgtable := [],
          process_states := List.replicate env.NPROCSTATES 0, total_procs := 0,
          active_procs := 0 } (conn.getD []) = some l ∧
      List.Forall₂ (fun n row => n.pid = row.pid ∧ n.usename = row.usename ∧
        n.sent_lag = row.sent_lag ∧ n.write_lag = row.write_lag ∧
        n.flush_lag = row.flush_lag ∧ n.replay_lag = row.replay_lag) recs (conn.getD []) ∧
      l.pgtable = recs ∧
      l.active_procs = (conn.getD []).length ∧ l.total_procs = (conn.getD []).length ∧
      l.process_states = List.replicate env.NPROCSTATES 0 ∧
      (∀ e ∈ st.head_proc, ∃ e1 ∈ l.head_proc, e1.pid = e.pid ∧ os_fields e1 = os_fields e) ∧
      (∀ e1 ∈ l.head_proc,
        (∃ e ∈ st.head_proc, e.pid = e1.pid ∧ os_fields e1 = os_fields e) ∨
        os_fields e1 = os_fields top_proc.zero) ∧
      (compare_index < 0 ∨ conn.getD [] = [] →
        ∃ st1, get_process_info env st sel compare_index conn mode thistime = some st1 ∧
          st1.pgtable = recs) ∧
      (∀ cmp, 0 ≤ compare_index → conn.getD [] ≠ [] →
        proc_compares.get? compare_index.toNat = some (some cmp) →
        (∀ sorted, env.qsort cmp.call recs = some sorted →
          ∃ st1, get_process_info env st sel compare_index conn mode thistime = some st1 ∧
            st1.pgtable = sorted) ∧
        (env.qsort cmp.call recs = none →
          get_process_info env st sel compare_index conn mode thistime = none)) ∧
      (∀ st1, get_process_info env st sel compare_index conn mode thistime = some st1 →
        st1.head_proc = l.head_proc ∧ st1.p_active = (conn.getD []).length ∧
        st1.p_total = (conn.getD []).length ∧
        st1.process_states = List.replicate env.NPROCSTATES 0 ∧
        (st1.pgtable = recs ∨
          ∃ cmp, proc_compares.get? compare_index.toNat = some (some cmp) ∧
            env.qsort cmp.call recs = some st1.pgtable)) := by
  have hs : store_sorted st.head_proc :=
    run_cycles_sorted env cycles (State.init env) st (by simp [State.init, store_sorted]) hrun
  obtain ⟨l1, recs, h1, hall, hpg, hact, htot, hps, p1, p2⟩ :=
    process_rows_replication env sel mode (elapsed st.lasttime thistime * (env.HZ : ℚ))
      (conn.getD [])
      { head_proc := st.head_proc, pgtable := [],
        process_states := List.replicate env.NPROCSTATES 0, total_procs := 0,
        active_procs := 0 } hmode hs
  simp only [List.nil_append, Nat.zero_add] at hpg hact htot hps
  refine ⟨l1, recs, h1, hall, hpg, hact, htot, hps, p1, p2, ?_, ?_, ?_⟩
  · intro h
    have hc : ¬ (0 ≤ compare_index ∧ l1.active_procs ≠ 0) := by
      rintro ⟨hc1, hc2⟩
      rcases h with h | h
      · omega
      · apply hc2
        rw [hact, h]
        rfl
    unfold get_process_info
    simp only [h1]
    rw [if_neg hc]
    exact ⟨_, rfl, hpg⟩
  · intro cmp h0 hne hcmp
    have hc : 0 ≤ compare_index ∧ l1.active_procs ≠ 0 := by
      refine ⟨h0, ?_⟩
      rw [hact]
      intro hz
      exact hne (List.length_eq_zero.1 hz)
    constructor
    · intro sorted hq
      unfold get_process_info
      simp only [h1]
      rw [if_pos hc]
      simp only [hcmp, hpg, hq]
      exact ⟨_, rfl, rfl⟩
    · intro hq
      unfold get_process_info
      simp only [h1]
      rw [if_pos hc]
      simp only [hcmp, hpg, hq]
  · intro st1 hr
    obtain ⟨l, hl, hh, ha, ht, hp, _⟩ :=
      get_process_info_head env st st1 sel compare_index conn mode thistime hr
    obtain ⟨l', hl', hcase⟩ :=
      get_process_info_cases env st st1 sel compare_index conn mode thistime hr
    rw [h1] at hl hl'
    injection hl with hl
    injection hl' with hl'
    subst hl
    subst hl'
    refine ⟨hh, by rw [ha, hact], by rw [ht, htot], by rw [hp, hps], ?_⟩
    rcases hcase with ⟨_, h⟩ | ⟨_, cmp, hcmp, hq⟩
    · exact Or.inl (by rw [h, hpg])
    · exact Or.inr ⟨cmp, hcmp, by rw [← hpg]; exact hq⟩

theorem C13_witness :
    ∃ (l : Loop) (recs : List top_proc),
      process_rows example_env example_cycle_next.sel 1
        (elapsed example_state_replication.lasttime example_cycle_next.thistime *
          (example_env.HZ : ℚ))
        { head_proc := example_state_replication.head_proc, pgtable := [],
          process_states := List.replicate example_env.NPROCSTATES 0, total_procs := 0,
          active_procs := 0 } (example_cycle_next.conn.getD []) = some l ∧
      List.Forall₂ (fun n row => n.pid = row.pid ∧ n.usename = row.usename ∧
        n.sent_lag = row.sent_lag ∧ n.write_lag = row.write_lag ∧
        n.flush_lag = row.flush_lag ∧ n.replay_lag = row.replay_lag) recs
        (example_cycle_next.conn.getD []) ∧
      l.pgtable = recs ∧
      l.active_procs = (example_cycle_next.conn.getD []).length ∧
      l.total_procs = (example_cycle_next.conn.getD []).length :=
  (C13_replication_copies_all example_env [example_cycle_replication]
    example_state_replication example_cycle_next.sel 3 example_cycle_next.conn 1
    example_cycle_next.thistime (by rfl) (by decide)).elim
    (fun l h => h.elim (fun recs h => ⟨l, recs, h.1, h.2.1, h.2.2.1, h.2.2.2.1, h.2.2.2.2.1⟩))

/-- A sort by command name in replication mode: the records of two rows met for the
first time have a null `name`, `compare_cmd` faults on them in `strcmp`, and with the
sort by insertion the call does not return; without a sort it does. -/
theorem replication_sort_by_name_faults :
    compare_cmd.call (example_record 3 0) (example_record 7 0) = none ∧
    get_process_info example_env (State.init example_env) example_sel 11
      (some [example_row 7 "rep" "streaming", example_row 3 "rep" "streaming"]) 1 ⟨100, 0⟩
      = none ∧
    (get_process_info example_env (State.init example_env) example_sel (-1)
      (some [example_row 7 "rep" "streaming", example_row 3 "rep" "streaming"]) 1
      ⟨100, 0⟩).map (fun s => (s.p_active, s.p_total)) = some (2, 2) := by
  refine ⟨by with_unfolding_all rfl, by with_unfolding_all rfl, by with_unfolding_all rfl⟩

/-- C14: when the data source yields no row (no connection, or an empty result) the
cycle completes for every mode and order index, `p_active` and `p_total` are 0, the
histogram is all zero, the result does not go through `qsort`, and the store is the
one before the cycle, record for record. -/
theorem C14_zero_rows (env : Env) (st : State) (sel : process_select) (compare_index : Int)
    (conn : Option (List Row)) (mode : Int) (thistime : timeval)
    (hc : conn = none ∨ conn = some []) :
    get_process_info env st sel compare_index conn mode thistime =
      some { head_proc := st.head_proc, timediff := elapsed st.lasttime thistime,
             lasttime := thistime, pgtable := [], proc_index := 0,
             process_states := List.replicate env.NPROCSTATES 0,
             fmt_header := st.fmt_header, p_active := 0, p_total := 0 } := by
  have hrows : conn.getD [] = [] := by
    rcases hc with h | h <;> rw [h] <;> rfl
  unfold get_process_info
  simp only [hrows, process_rows]
  simp

theorem C14_witness :
    get_process_info example_env example_state_replication example_sel 0 none 0 ⟨101, 0⟩ =
      some { head_proc := example_state_replication.head_proc,
             timediff := elapsed example_state_replication.lasttime ⟨101, 0⟩,
             lasttime := ⟨101, 0⟩, pgtable := [], proc_index := 0,
             process_states := List.replicate example_env.NPROCSTATES 0,
             fmt_header := example_state_replication.fmt_header, p_active := 0,
             p_total := 0 } :=
  C14_zero_rows example_env example_state_replication example_sel 0 none 0 ⟨101, 0⟩
    (Or.inl rfl)

/-! ## The status line -/

/-- The shape of `read_one_proc_stat`: three early returns that leave the record with
state 0 and at most a new name, or the full read of the status line followed by the
read of the I/O counters. -/
theorem read_one_proc_stat_eq (env : Env) (proc : top_proc) (sel : process_select)
    (f : ProcFiles) :
    ∃ (s : Option String) (g : List Char → Option String),
      read_one_proc_stat env proc sel f =
        match strchr (cstr (f.stat.take 4095)) '(' with
        | none => some { proc with state := 0, name := s }
        | some p =>
          match strrchr p.tail ')' with
          | none => some { proc with state := 0, name := s }
          | some (cmd, rest) =>
            match skip_ws rest with
            | [] => some { proc with state := 0, name := g cmd }
            | c :: q =>
              read_io (read_stat_fields env
                { proc with state := state_of_char c, name := g cmd } q) f := by
  obtain ⟨s0, hs0⟩ := read_cmdline_frame env { proc with state := 0 } sel f
  refine ⟨s0, fun cmd => if (read_cmdline env { proc with state := 0 } sel f).2 = 0
    then some (env.printable (String.mk cmd)) else s0, ?_⟩
  unfold read_one_proc_stat
  simp only
  rw [hs0]
  split
  · rfl
  · split
    · rfl
    · split
      · split_ifs <;> rfl
      · split_ifs <;> rfl

theorem read_io_none (proc : top_proc) (f : ProcFiles) (h : f.io = none) :
    read_io proc f = some proc := by
  unfold read_io
  rw [h]

theorem read_stat_fields_keeps (env : Env) (a : top_proc) (q : List Char) :
    (read_stat_fields env a q).state = a.state ∧
    (read_stat_fields env a q).iops = a.iops ∧ (read_stat_fields env a q).syscr = a.syscr ∧
    (read_stat_fields env a q).syscw = a.syscw ∧
    (read_stat_fields env a q).read_bytes = a.read_bytes ∧
    (read_stat_fields env a q).write_bytes = a.write_bytes := by
  simp only [read_stat_fields, and_self]

/-- C18: when the status text has no `(`, or no `)` after it, or nothing but blanks
after the command, `read_one_proc_stat` returns the record with state 0 and, apart from
the name, every other field as it was: tick total, start time, sizes and all I/O slots
are untouched.  A normal-mode iteration over such a row that completes leaves the
record of that pid in the store with state 0 and those fields as they were in the
record found (or created) for the row. -/
theorem C18_status_unreadable (env : Env) (sel : process_select) (mode : Int)
    (tickdiff : ℚ) (l l1 : Loop) (row : Row) (hmode : mode ≠ env.MODE_REPLICATION)
    (hbad : strchr (cstr (row.files.stat.take 4095)) '(' = none ∨
      ∃ p, strchr (cstr (row.files.stat.take 4095)) '(' = some p ∧
        (strrchr p.tail ')' = none ∨
         ∃ cmd rest, strrchr p.tail ')' = some (cmd, rest) ∧ skip_ws rest = []))
    (hr : process_row env sel mode tickdiff l row = some l1) :
    (∀ proc : top_proc, ∃ s,
      read_one_proc_stat env proc sel row.files = some { proc with state := 0, name := s }) ∧
    (∃ e ∈ l1.head_proc, e.pid = row.pid ∧ e.state = 0 ∧
      e.time = (upsert_record l.head_proc row.pid).time ∧
      e.start_time = (upsert_record l.head_proc row.pid).start_time ∧
      e.size = (upsert_record l.head_proc row.pid).size ∧
      e.rss = (upsert_record l.head_proc row.pid).rss ∧
      e.iops = (upsert_record l.head_proc row.pid).iops ∧
      e.syscr = (upsert_record l.head_proc row.pid).syscr ∧
      e.syscw = (upsert_record l.head_proc row.pid).syscw ∧
      e.read_bytes = (upsert_record l.head_proc row.pid).read_bytes ∧
      e.write_bytes = (upsert_record l.head_proc row.pid).write_bytes) := by
  have hread : ∀ proc : top_proc, ∃ s,
      read_one_proc_stat env proc sel row.files = some { proc with state := 0, name := s } := by
    intro proc
    obtain ⟨s, g, heq⟩ := read_one_proc_stat_eq env proc sel row.files
    rcases hbad with h1 | ⟨p, h1, h2 | ⟨cmd, rest, h2, h3⟩⟩
    · simp only [h1] at heq
      exact ⟨s, heq⟩
    · simp only [h1, h2] at heq
      exact ⟨s, heq⟩
    · simp only [h1, h2, h3] at heq
      exact ⟨g cmd, heq⟩
  refine ⟨hread, ?_⟩
  obtain ⟨m, ps, n, hm, hn, _, hhead, _⟩ :=
    process_row_normal env sel mode tickdiff l l1 row hmode hr
  obtain ⟨s, hs⟩ := hread (upsert_record l.head_proc row.pid)
  rw [hs] at hm
  injection hm with hm
  obtain ⟨x, hx⟩ := set_pcpu_frame (fill_process env sel m row)
    (upsert_record l.head_proc row.pid).time tickdiff
  have hnp : n.pid = row.pid := by
    rw [hn, hx]
    show (fill_process env sel m row).pid = row.pid
    rw [(fill_process_fields env sel m row).1, ← hm]
    exact upsert_record_pid _ _
  refine ⟨flip n, ?_, hnp, ?_⟩
  · rw [hhead]
    apply write_back_has
    obtain ⟨e, he, hp⟩ := RB_INSERT_has l.head_proc { top_proc.zero with pid := row.pid }
    exact ⟨e, he, by rw [hp]; exact hnp.symm⟩
  · rw [hn, hx, ← hm]
    unfold fill_process flip
    simp only
    split_ifs <;> simp only [and_self]

theorem C18_witness :
    ∃ e ∈ example_loop_unread.head_proc, e.pid = example_row_unread.pid ∧ e.state = 0 ∧
      e.time = (upsert_record example_loop_start.head_proc example_row_unread.pid).time :=
  (C18_status_unreadable example_env example_sel 0 0 example_loop_start example_loop_unread
    example_row_unread (by decide) (Or.inl (by decide))
    (by with_unfolding_all rfl)).2.elim
    (fun e h => ⟨e, h.1, h.2.1, h.2.2.1, h.2.2.2.1⟩)

/-- C15 fails on the code: the elapsed time has no floor.  It is 0 on the first call
(`lasttime.tv_sec` is 0), 0 for two calls with the same clock reading and negative when
the clock steps back; `format_next_io` divides by it nevertheless.  For the first cycle
over one row the elapsed time stored is 0 and the rates of the first entry are
quotients by zero. -/
theorem C15_elapsed_not_floored :
    (∀ t : timeval, elapsed ⟨0, 0⟩ t = 0) ∧
    (∀ t : timeval, elapsed t t = 0) ∧
    elapsed ⟨100, 0⟩ ⟨99, 0⟩ = -1 ∧
    (∀ d : Int, per_second d 0 = none) ∧
    (get_process_info example_env (State.init example_env) example_sel (-1)
      (some [example_row_40]) 0 ⟨100, 0⟩).map State.timediff = some 0 ∧
    ((get_process_info example_env (State.init example_env) example_sel (-1)
      (some [example_row_40]) 0 ⟨100, 0⟩).bind format_next_io).map
        (fun r => (r.1.pid, r.1.iops, r.1.syscr, r.1.syscw, r.1.reads, r.1.writes))
      = some (5, none, none, none, none, none) := by
  refine ⟨fun t => rfl, ?_, by with_unfolding_all decide, fun d => by simp [per_second],
    by with_unfolding_all decide, by with_unfolding_all rfl⟩
  intro t
  unfold elapsed
  split_ifs <;> simp

/-! ## The header -/

theorem getElem?_three (pre mid post : List Char) (i : Nat) :
    (i < pre.length → (pre ++ mid ++ post)[i]? = pre[i]?) ∧
    (pre.length + mid.length ≤ i →
      (pre ++ mid ++ post)[i]? = post[i - (pre.length + mid.length)]?) ∧
    (pre.length ≤ i → i < pre.length + mid.length →
      (pre ++ mid ++ post)[i]? = mid[i - pre.length]?) := by
  refine ⟨?_, ?_, ?_⟩
  · intro h
    rw [List.append_assoc, List.getElem?_append_left h]
  · intro h
    rw [List.getElem?_append_right (by simp; omega)]
    simp
  · intro h1 h2
    rw [List.append_assoc, List.getElem?_append_right h1,
      List.getElem?_append_left (by omega)]

/-- C20: on the first call, with `fmt_header` still the template, `format_header(f)`
returns the template with the first `min (length f) 8` characters of `f` written from
column 8, the column of the placeholder `X`, on: the columns before and after are
those of the template and the length is unchanged.  For `administrator` the header
shows `administ`. -/
theorem C20_header_first_call (st : State) (f : String)
    (hst : st.fmt_header = fmt_header_init) :
    strchr fmt_header_init 'X' = some (fmt_header_init.drop 8) ∧
    (∃ header st1, format_header st f = some (header, st1) ∧ st1.fmt_header = header ∧
      header = fmt_header_init.take 8 ++ f.data.take (min f.data.length 8) ++
        fmt_header_init.drop (8 + min f.data.length 8) ∧
      header.length = fmt_header_init.length ∧
      (∀ i, i < 8 → header[i]? = fmt_header_init[i]?) ∧
      (∀ i, 8 + min f.data.length 8 ≤ i → header[i]? = fmt_header_init[i]?) ∧
      (∀ i, i < min f.data.length 8 → header[8 + i]? = f.data[i]?)) ∧
    (format_header (State.init example_env) "administrator").map (fun r => String.mk r.1) =
      some "    PID administ    SIZE   RES STATE   XTIME  QTIME  %CPU LOCKS COMMAND" := by
  have hX : strchr fmt_header_init 'X' = some (fmt_header_init.drop 8) := by decide
  have hlen : fmt_header_init.length = 71 := by decide
  have hk : min f.data.length 8 ≤ 8 := Nat.min_le_right _ _
  have htake : (f.data.take (min f.data.length 8)).length = min f.data.length 8 := by
    rw [List.length_take]
    omega
  refine ⟨hX, ?_, by decide⟩
  refine ⟨fmt_header_init.take 8 ++ f.data.take (min f.data.length 8) ++
      fmt_header_init.drop (8 + min f.data.length 8),
    { st with fmt_header := fmt_header_init.take 8 ++ f.data.take (min f.data.length 8) ++
      fmt_header_init.drop (8 + min f.data.length 8) }, ?_, rfl, rfl, ?_, ?_, ?_, ?_⟩
  · unfold format_header
    simp only [hst, hX]
    have hd : (fmt_header_init.drop 8).length = 63 := by rw [List.length_drop, hlen]
    rw [if_neg (by rw [hd]; omega)]
    have h8 : fmt_header_init.length - (fmt_header_init.drop 8).length = 8 := by
      rw [hd, hlen]
    rw [h8, List.drop_drop]
  · simp only [List.length_append, htake, List.length_take, List.length_drop, hlen]
    omega
  · intro i hi
    have h := (getElem?_three (fmt_header_init.take 8)
      (f.data.take (min f.data.length 8))
      (fmt_header_init.drop (8 + min f.data.length 8)) i).1
    rw [h (by rw [List.length_take, hlen]; omega), List.getElem?_take_of_lt hi]
  · intro i hi
    have h := (getElem?_three (fmt_header_init.take 8)
      (f.data.take (min f.data.length 8))
      (fmt_header_init.drop (8 + min f.data.length 8)) i).2.1
    have hl : (fmt_header_init.take 8).length = 8 := by rw [List.length_take, hlen]; rfl
    rw [h (by rw [hl, htake]; exact hi), hl, htake, List.getElem?_drop]
    congr 1
    omega
  · intro i hi
    have h := (getElem?_three (fmt_header_init.take 8)
      (f.data.take (min f.data.length 8))
      (fmt_header_init.drop (8 + min f.data.length 8)) (8 + i)).2.2
    have hl : (fmt_header_init.take 8).length = 8 := by rw [List.length_take, hlen]; rfl
    have h8 : 8 + i - 8 = i := by omega
    rw [h (by rw [hl]; omega) (by rw [hl, htake]; omega), hl, h8,
      List.getElem?_take_of_lt hi]

theorem C20_witness :
    ∃ header st1, format_header (State.init example_env) "administrator" = some (header, st1) ∧
      st1.fmt_header = header ∧ header.length = fmt_header_init.length :=
  (C20_header_first_call (State.init example_env) "administrator" rfl).2.1.elim
    (fun header h => h.elim (fun st1 h => ⟨header, st1, h.1, h.2.1, h.2.2.2.1⟩))

/-! ## Membership does not depend on the store -/

theorem read_io_some_congr (p p1 : top_proc) (f : ProcFiles) (m : top_proc)
    (h : read_io p f = some m) : ∃ m1, read_io p1 f = some m1 := by
  unfold read_io at h ⊢
  cases hio : f.io with
  | none => exact ⟨p1, rfl⟩
  | some bytes =>
    simp only [hio] at h ⊢
    cases h1 : GET_VALUE (skip_token (skip_token (cstr (bytes.take 4095)))) with
    | none => simp [h1] at h
    | some r1 =>
      obtain ⟨v1, q1⟩ := r1
      simp only [h1] at h ⊢
      cases h2 : GET_VALUE q1 with
      | none => simp [h2] at h
      | some r2 =>
        obtain ⟨v2, q2⟩ := r2
        simp only [h2] at h ⊢
        cases h3 : GET_VALUE q2 with
        | none => simp [h3] at h
        | some r3 =>
          obtain ⟨v3, q3⟩ := r3
          simp only [h3] at h ⊢
          cases h4 : GET_VALUE q3 with
          | none => simp [h4] at h
          | some r4 =>
            obtain ⟨v4, q4⟩ := r4
            simp only [h4] at h ⊢
            cases h5 : GET_VALUE q4 with
            | none => simp [h5] at h
            | some r5 =>
              obtain ⟨v5, q5⟩ := r5
              exact ⟨_, rfl⟩

theorem read_one_proc_stat_some_congr (env : Env) (p p1 m : top_proc)
    (sel : process_select) (f : ProcFiles) (h : read_one_proc_stat env p sel f = some m) :
    ∃ m1, read_one_proc_stat env p1 sel f = some m1 := by
  obtain ⟨s, g, heq⟩ := read_one_proc_stat_eq env p sel f
  obtain ⟨s1, g1, heq1⟩ := read_one_proc_stat_eq env p1 sel f
  cases h1 : strchr (cstr (f.stat.take 4095)) '(' with
  | none =>
    simp only [h1] at heq1
    exact ⟨_, heq1⟩
  | some q =>
    cases h2 : strrchr q.tail ')' with
    | none =>
      simp only [h1, h2] at heq1
      exact ⟨_, heq1⟩
    | some pr =>
      obtain ⟨cmd, rest⟩ := pr
      cases h3 : skip_ws rest with
      | nil =>
        simp only [h1, h2, h3] at heq1
        exact ⟨_, heq1⟩
      | cons c r =>
        simp only [h1, h2, h3] at heq heq1
        rw [heq] at h
        rw [heq1]
        exact read_io_some_congr _ _ f _ h

theorem process_row_normal_full (env : Env) (sel : process_select) (mode : Int)
    (tickdiff : ℚ) (l : Loop) (row : Row) (m : top_proc) (ps : List Int)
    (hmode : mode ≠ env.MODE_REPLICATION)
    (hm : read_one_proc_stat env (upsert_record l.head_proc row.pid) sel row.files = some m)
    (hps : tally l.process_states (fill_process env sel m row).pgstate = some ps) :
    ∃ l1, process_row env sel mode tickdiff l row = some l1 ∧
      l1.pgtable =
        (if is_active env sel (set_pcpu (fill_process env sel m row)
            (upsert_record l.head_proc row.pid).time tickdiff)
         then l.pgtable ++ [set_pcpu (fill_process env sel m row)
            (upsert_record l.head_proc row.pid).time tickdiff]
         else l.pgtable) ∧
      l1.active_procs =
        (if is_active env sel (set_pcpu (fill_process env sel m row)
            (upsert_record l.head_proc row.pid).time tickdiff)
         then l.active_procs + 1 else l.active_procs) ∧
      l1.process_states = ps ∧ l1.total_procs = l.total_procs + 1 := by
  unfold process_row
  simp only [if_neg hmode, hm]
  obtain ⟨x, hx⟩ := set_pcpu_frame (fill_process env sel m row)
    (upsert_record l.head_proc row.pid).time tickdiff
  have hps1 : tally l.process_states (fill_process env sel m row).pgstate = some ps := hps
  simp only [hps1]
  exact ⟨_, rfl, rfl, rfl, rfl, rfl⟩

theorem tested_record_key (env : Env) (sel : process_select) (m : top_proc) (row : Row)
    (otime : Nat) (tickdiff : ℚ) :
    entry_key (set_pcpu (fill_process env sel m row) otime tickdiff) =
      (m.pid, row.usename, env.update_state m.pgstate row.state) := by
  obtain ⟨x, hx⟩ := set_pcpu_frame (fill_process env sel m row) otime tickdiff
  obtain ⟨f1, f2, f3⟩ := fill_process_fields env sel m row
  rw [hx]
  show ((fill_process env sel m row).pid, (fill_process env sel m row).usename,
    (fill_process env sel m row).pgstate) = _
  rw [f1, f2, f3]

theorem is_active_key (env : Env) (sel : process_select) (a b : top_proc)
    (h : entry_key a = entry_key b) : is_active env sel a = is_active env sel b := by
  unfold entry_key at h
  injection h with h1 h2
  injection h2 with h2 h3
  unfold is_active
  rw [h2, h3]

theorem process_rows_membership (env : Env) (sel : process_select) (mode : Int)
    (t1 t2 : ℚ) (rows : List Row) (l l' l1 : Loop) (hmode : mode ≠ env.MODE_REPLICATION)
    (hupd : ∀ a b s, env.update_state a s = env.update_state b s)
    (hps : l'.process_states = l.process_states)
    (hr : process_rows env sel mode t1 l rows = some l1) :
    ∃ l1' added added', process_rows env sel mode t2 l' rows = some l1' ∧
      l1.pgtable = l.pgtable ++ added ∧ l1'.pgtable = l'.pgtable ++ added' ∧
      added.map entry_key = added'.map entry_key ∧
      l1'.process_states = l1.process_states ∧
      l1.active_procs = l.active_procs + added.length ∧
      l1'.active_procs = l'.active_procs + added'.length ∧
      l1.total_procs = l.total_procs + rows.length ∧
      l1'.total_procs = l'.total_procs + rows.length := by
  induction rows generalizing l l' with
  | nil =>
    simp only [process_rows] at hr
    injection hr with hr
    subst hr
    exact ⟨l', [], [], rfl, by simp, by simp, rfl, hps, by simp, by simp, by simp, by simp⟩
  | cons row rows ih =>
    unfold process_rows at hr
    split at hr
    · exact absurd hr (by simp)
    · next l2 h2 =>
      obtain ⟨m, ps, n, hm, hn, htal, _, hpg, hact, hst, htot⟩ :=
        process_row_normal env sel mode t1 l l2 row hmode h2
      obtain ⟨m', hm'⟩ := read_one_proc_stat_some_congr env _
        (upsert_record l'.head_proc row.pid) m sel row.files hm
      obtain ⟨hpid, _, _, _, _⟩ := read_one_proc_stat_frame env _ m sel row.files hm
      obtain ⟨hpid', _, _, _, _⟩ := read_one_proc_stat_frame env _ m' sel row.files hm'
      have hkn : entry_key n = (row.pid, row.usename, env.update_state m.pgstate row.state) := by
        rw [hn, tested_record_key, hpid, upsert_record_pid]
      have hkn' : entry_key (set_pcpu (fill_process env sel m' row)
          (upsert_record l'.head_proc row.pid).time t2) =
          (row.pid, row.usename, env.update_state m.pgstate row.state) := by
        rw [tested_record_key, hpid', upsert_record_pid, hupd m'.pgstate m.pgstate]
      have hkey : entry_key (set_pcpu (fill_process env sel m' row)
          (upsert_record l'.head_proc row.pid).time t2) = entry_key n := by
        rw [hkn, hkn']
      have hpgs : (fill_process env sel m' row).pgstate = n.pgstate := by
        have h1 : n.pgstate = env.update_state m.pgstate row.state := by
          have := congrArg (fun k => k.2.2) hkn
          exact this
        rw [h1, (fill_process_fields env sel m' row).2.2, hupd m'.pgstate m.pgstate]
      have htal' : tally l'.process_states (fill_process env sel m' row).pgstate = some ps := by
        rw [hps, hpgs]; exact htal
      obtain ⟨l2', h2', hpg', hact', hst', htot'⟩ :=
        process_row_normal_full env sel mode t2 l' row m' ps hmode hm' htal'
      rw [is_active_key env sel _ n hkey] at hpg' hact'
      obtain ⟨l1', added, added', hr', a1, a2, a3, a4, a5, a6, a7, a8⟩ :=
        ih l2 l2' (by rw [hst', hst]) hr
      by_cases ha : is_active env sel n = true
      · rw [if_pos ha] at hpg hact hpg' hact'
        refine ⟨l1', n :: added, set_pcpu (fill_process env sel m' row)
          (upsert_record l'.head_proc row.pid).time t2 :: added',
          ?_, ?_, ?_, ?_, a4, ?_, ?_, ?_, ?_⟩
        · unfold process_rows
          rw [h2']
          exact hr'
        · rw [a1, hpg]; simp
        · rw [a2, hpg']; simp
        · simp only [List.map_cons, a3, hkey]
        · rw [a5, hact]; simp; omega
        · rw [a6, hact']; simp; omega
        · rw [a7, htot]; simp; omega
        · rw [a8, htot']; simp; omega
      · rw [if_neg ha] at hpg hact hpg' hact'
        refine ⟨l1', added, added', ?_, ?_, ?_, a3, a4, ?_, ?_, ?_, ?_⟩
        · unfold process_rows
          rw [h2']
          exact hr'
        · rw [a1, hpg]
        · rw [a2, hpg']
        · rw [a5, hact]
        · rw [a6, hact']
        · rw [a7, htot]; simp; omega
        · rw [a8, htot']; simp; omega

/-- C16: in normal mode, when a cycle over a row-set returns from one state, the row
loop of a cycle from any other state and at any other time, with the same selection,
rows and `/proc` data, completes too, and the two loops agree on the entries of the
active buffer before sorting (same pids, usernames and database states, in the same
order), on the active count, on the row count and on the state histogram.  The second
call returns with these when no sort is made, and through `qsort` when `qsort` returns;
whenever it returns, its `p_active`, `p_total` and histogram are those of the first
call.  `update_state` is not part of this file: it is taken to derive the database
state from the state text of the row alone, as the claim has it. -/
theorem C16_membership_repeatable (env : Env) (st st' st1 : State) (sel : process_select)
    (compare_index : Int) (conn : Option (List Row)) (mode : Int) (t1 t2 : timeval)
    (hmode : mode ≠ env.MODE_REPLICATION)
    (hupd : ∀ a b s, env.update_state a s = env.update_state b s)
    (hr : get_process_info env st sel compare_index conn mode t1 = some st1) :
    ∃ l1 l1',
      process_rows env sel mode (elapsed st.lasttime t1 * (env.HZ : ℚ))
        { head_proc := st.head_proc, pgtable := [],
          process_states := List.replicate env.NPROCSTATES 0, total_procs := 0,
          active_procs := 0 } (conn.getD []) = some l1 ∧
      process_rows env sel mode (elapsed st'.lasttime t2 * (env.HZ : ℚ))
        { head_proc := st'.head_proc, pgtable := [],
          process_states := List.replicate env.NPROCSTATES 0, total_procs := 0,
          active_procs := 0 } (conn.getD []) = some l1' ∧
      l1'.pgtable.map entry_key = l1.pgtable.map entry_key ∧
      l1'.active_procs = l1.active_procs ∧ l1'.total_procs = l1.total_procs ∧
      l1'.process_states = l1.process_states ∧
      st1.p_active = l1.active_procs ∧ st1.p_total = l1.total_procs ∧
      st1.process_states = l1.process_states ∧
      (¬ (0 ≤ compare_index ∧ l1.active_procs ≠ 0) →
        st1.pgtable = l1.pgtable ∧
        ∃ st1', get_process_info env st' sel compare_index conn mode t2 = some st1' ∧
          st1'.pgtable = l1'.pgtable) ∧
      (∀ cmp, 0 ≤ compare_index → l1.active_procs ≠ 0 →
        proc_compares.get? compare_index.toNat = some (some cmp) →
        ∀ sorted, env.qsort cmp.call l1'.pgtable = some sorted →
          ∃ st1', get_process_info env st' sel compare_index conn mode t2 = some st1' ∧
            st1'.pgtable = sorted) ∧
      (∀ st1', get_process_info env st' sel compare_index conn mode t2 = some st1' →
        st1'.p_active = st1.p_active ∧ st1'.p_total = st1.p_total ∧
        st1'.process_states = st1.process_states) := by
  obtain ⟨l1, hl, _, hact, htot, hps, _, _⟩ :=
    get_process_info_head env st st1 sel compare_index conn mode t1 hr
  obtain ⟨l0, hl0, hcase⟩ :=
    get_process_info_cases env st st1 sel compare_index conn mode t1 hr
  rw [hl] at hl0
  injection hl0 with hl0
  subst hl0
  obtain ⟨l1', added, added', hl', a1, a2, a3, a4, a5, a6, a7, a8⟩ :=
    process_rows_membership env sel mode (elapsed st.lasttime t1 * (env.HZ : ℚ))
      (elapsed st'.lasttime t2 * (env.HZ : ℚ)) (conn.getD [])
      { head_proc := st.head_proc, pgtable := [],
        process_states := List.replicate env.NPROCSTATES 0, total_procs := 0,
        active_procs := 0 }
      { head_proc := st'.head_proc, pgtable := [],
        process_states := List.replicate env.NPROCSTATES 0, total_procs := 0,
        active_procs := 0 } l1 hmode hupd rfl hl
  simp only [List.nil_append, Nat.zero_add] at a1 a2 a5 a6 a7 a8
  have hlen : added'.length = added.length := by
    have := congrArg List.length a3
    simp only [List.length_map] at this
    exact this.symm
  have hactive : l1'.active_procs = l1.active_procs := by rw [a5, a6, hlen]
  have hkeys : l1'.pgtable.map entry_key = l1.pgtable.map entry_key := by
    rw [a1, a2, a3]
  refine ⟨l1, l1', hl, hl', hkeys, hactive, by rw [a7, a8], a4, hact, htot, hps, ?_, ?_, ?_⟩
  · intro hc
    have hc' : ¬ (0 ≤ compare_index ∧ l1'.active_procs ≠ 0) := by rw [hactive]; exact hc
    refine ⟨?_, ?_⟩
    · rcases hcase with ⟨_, h⟩ | ⟨h, _⟩
      · exact h
      · exact absurd h hc
    · unfold get_process_info
      simp only [hl']
      rw [if_neg hc']
      exact ⟨_, rfl, rfl⟩
  · intro cmp h0 hne hcmp sorted hq
    have hc' : 0 ≤ compare_index ∧ l1'.active_procs ≠ 0 := by rw [hactive]; exact ⟨h0, hne⟩
    unfold get_process_info
    simp only [hl']
    rw [if_pos hc']
    simp only [hcmp, hq]
    exact ⟨_, rfl, rfl⟩
  · intro st1' hr'
    obtain ⟨l2, hl2, _, hact2, htot2, hps2, _, _⟩ :=
      get_process_info_head env st' st1' sel compare_index conn mode t2 hr'
    rw [hl'] at hl2
    injection hl2 with hl2
    subst hl2
    exact ⟨by rw [hact2, hact, hactive], by rw [htot2, htot, a7, a8], by rw [hps2, hps, a4]⟩

theorem C16_witness :
    ∃ l1 l1',
      process_rows example_env example_sel 0
        (elapsed (State.init example_env).lasttime ⟨100, 0⟩ * (example_env.HZ : ℚ))
        { head_proc := (State.init example_env).head_proc, pgtable := [],
          process_states := List.replicate example_env.NPROCSTATES 0, total_procs := 0,
          active_procs := 0 } ((some [example_row_40]).getD []) = some l1 ∧
      process_rows example_env example_sel 0
        (elapsed example_state_first.lasttime ⟨105, 0⟩ * (example_env.HZ : ℚ))
        { head_proc := example_state_first.head_proc, pgtable := [],
          process_states := List.replicate example_env.NPROCSTATES 0, total_procs := 0,
          active_procs := 0 } ((some [example_row_40]).getD []) = some l1' ∧
      l1'.pgtable.map entry_key = l1.pgtable.map entry_key ∧
      l1'.active_procs = l1.active_procs ∧ l1'.total_procs = l1.total_procs ∧
      l1'.process_states = l1.process_states ∧
      example_state_first.p_active = l1.active_procs ∧
      example_state_first.p_total = l1.total_procs ∧
      example_state_first.process_states = l1.process_states :=
  (C16_membership_repeatable example_env (State.init example_env) example_state_first
    example_state_first example_sel (-1) (some [example_row_40]) 0 ⟨100, 0⟩ ⟨105, 0⟩
    (by decide) (fun _ _ _ => rfl) (by with_unfolding_all rfl)).elim
    (fun l1 h => h.elim (fun l1' h =>
      ⟨l1, l1', h.1, h.2.1, h.2.2.1, h.2.2.2.1, h.2.2.2.2.1, h.2.2.2.2.2.1,
        h.2.2.2.2.2.2.1, h.2.2.2.2.2.2.2.1, h.2.2.2.2.2.2.2.2.1⟩))

/-! ## The I/O counters -/

theorem Slots.get_set_same (v : Slots) (i x : Int) : (v.set i x).get i = x := by
  unfold Slots.set Slots.get
  split_ifs <;> rfl

theorem Slots.get_set_other (v : Slots) (i j x : Int) (h : ¬ (i = 0 ↔ j = 0)) :
    (v.set i x).get j = v.get j := by
  unfold Slots.set Slots.get
  by_cases hi : i = 0 <;> by_cases hj : j = 0 <;> simp [hi, hj] at h ⊢

theorem Slots.set_set (v : Slots) (i x y : Int) : (v.set i x).set i y = v.set i y := by
  unfold Slots.set
  split_ifs <;> rfl

/-- A completed read of the I/O file: the values assigned and the slots they go to. -/
theorem read_io_values (proc m : top_proc) (f : ProcFiles) (bytes : List Char)
    (hio : f.io = some bytes) (h : read_io proc f = some m) :
    ∃ v1 v2 v3 v4 v5, io_values bytes = some (v1, v2, v3, v4, v5) ∧
      m.syscr = proc.syscr.set proc.index v1 ∧
      m.syscw = proc.syscw.set proc.index v2 ∧
      m.iops = proc.iops.set proc.index (v1 + v2) ∧
      m.read_bytes = proc.read_bytes.set proc.index v3 ∧
      m.write_bytes = proc.write_bytes.set proc.index (v4 - v5) ∧
      m.index = proc.index := by
  unfold read_io at h
  unfold io_values
  simp only [hio] at h
  cases h1 : GET_VALUE (skip_token (skip_token (cstr (bytes.take 4095)))) with
  | none => simp [h1] at h
  | some r1 =>
    obtain ⟨v1, q1⟩ := r1
    simp only [h1] at h ⊢
    cases h2 : GET_VALUE q1 with
    | none => simp [h2] at h
    | some r2 =>
      obtain ⟨v2, q2⟩ := r2
      simp only [h2] at h ⊢
      cases h3 : GET_VALUE q2 with
      | none => simp [h3] at h
      | some r3 =>
        obtain ⟨v3, q3⟩ := r3
        simp only [h3] at h ⊢
        cases h4 : GET_VALUE q3 with
        | none => simp [h4] at h
        | some r4 =>
          obtain ⟨v4, q4⟩ := r4
          simp only [h4] at h ⊢
          cases h5 : GET_VALUE q4 with
          | none => simp [h5] at h
          | some r5 =>
            obtain ⟨v5, q5⟩ := r5
            simp only [h5] at h ⊢
            injection h with h
            subst h
            refine ⟨v1, v2, v3, v4, v5, rfl, rfl, rfl, ?_, rfl, ?_, rfl⟩
            · simp only [Slots.set_set, Slots.get_set_same]
            · simp only [Slots.set_set, Slots.get_set_same]

/-- A read of the I/O file completes exactly when the five values can be taken. -/
theorem read_io_total (proc : top_proc) (f : ProcFiles) (bytes : List Char)
    (v : Int × Int × Int × Int × Int) (hio : f.io = some bytes)
    (hv : io_values bytes = some v) : ∃ m, read_io proc f = some m := by
  unfold io_values at hv
  unfold read_io
  simp only [hio]
  cases h1 : GET_VALUE (skip_token (skip_token (cstr (bytes.take 4095)))) with
  | none => simp [h1] at hv
  | some r1 =>
    obtain ⟨v1, q1⟩ := r1
    simp only [h1] at hv ⊢
    cases h2 : GET_VALUE q1 with
    | none => simp [h2] at hv
    | some r2 =>
      obtain ⟨v2, q2⟩ := r2
      simp only [h2] at hv ⊢
      cases h3 : GET_VALUE q2 with
      | none => simp [h3] at hv
      | some r3 =>
        obtain ⟨v3, q3⟩ := r3
        simp only [h3] at hv ⊢
        cases h4 : GET_VALUE q3 with
        | none => simp [h4] at hv
        | some r4 =>
          obtain ⟨v4, q4⟩ := r4
          simp only [h4] at hv ⊢
          cases h5 : GET_VALUE q4 with
          | none => simp [h5] at hv
          | some r5 =>
            obtain ⟨v5, q5⟩ := r5
            exact ⟨_, rfl⟩

theorem read_stat_fields_index (env : Env) (a : top_proc) (q : List Char) :
    (read_stat_fields env a q).index = a.index := by
  simp only [read_stat_fields]

/-- The slots after `read_one_proc_stat` when the status text is complete and the I/O
file is read. -/
theorem read_one_proc_stat_slots_io (env : Env) (proc m : top_proc) (sel : process_select)
    (f : ProcFiles) (bytes : List Char) (hc : status_complete f) (hio : f.io = some bytes)
    (h : read_one_proc_stat env proc sel f = some m) :
    ∃ v1 v2 v3 v4 v5, io_values bytes = some (v1, v2, v3, v4, v5) ∧
      m.syscr = proc.syscr.set proc.index v1 ∧
      m.syscw = proc.syscw.set proc.index v2 ∧
      m.iops = proc.iops.set proc.index (v1 + v2) ∧
      m.read_bytes = proc.read_bytes.set proc.index v3 ∧
      m.write_bytes = proc.write_bytes.set proc.index (v4 - v5) ∧
      m.index = proc.index := by
  obtain ⟨p, cmd, rest, c, q, h1, h2, h3⟩ := hc
  obtain ⟨s, g, heq⟩ := read_one_proc_stat_eq env proc sel f
  simp only [h1, h2, h3] at heq
  rw [heq] at h
  obtain ⟨v1, v2, v3, v4, v5, hv, e1, e2, e3, e4, e5, e6⟩ := read_io_values _ m f bytes hio h
  obtain ⟨_, k2, k3, k4, k5, k6⟩ := read_stat_fields_keeps env
    { proc with state := state_of_char c, name := g cmd } q
  have ki := read_stat_fields_index env { proc with state := state_of_char c, name := g cmd } q
  rw [k3, ki] at e1
  rw [k4, ki] at e2
  rw [k2, ki] at e3
  rw [k5, ki] at e4
  rw [k6, ki] at e5
  rw [ki] at e6
  exact ⟨v1, v2, v3, v4, v5, hv, e1, e2, e3, e4, e5, e6⟩

/-- The slots after `read_one_proc_stat` when the status text is incomplete or the I/O
file cannot be opened: none is written. -/
theorem read_one_proc_stat_slots_none (env : Env) (proc m : top_proc)
    (sel : process_select) (f : ProcFiles) (hbad : ¬ status_complete f ∨ f.io = none)
    (h : read_one_proc_stat env proc sel f = some m) :
    m.syscr = proc.syscr ∧ m.syscw = proc.syscw ∧ m.iops = proc.iops ∧
    m.read_bytes = proc.read_bytes ∧ m.write_bytes = proc.write_bytes ∧
    m.index = proc.index := by
  rcases read_one_proc_stat_cases env proc m sel f h with
    ⟨s, hm, _⟩ | ⟨p, cmd, rest, c, q, s, h1, h2, h3, hio⟩
  · subst hm; exact ⟨rfl, rfl, rfl, rfl, rfl, rfl⟩
  · rcases hbad with hb | hb
    · exact absurd ⟨p, cmd, rest, c, q, h1, h2, h3⟩ hb
    · rw [read_io_none _ _ hb] at hio
      injection hio with hio
      obtain ⟨_, k2, k3, k4, k5, k6⟩ := read_stat_fields_keeps env
        { proc with state := state_of_char c, name := s } q
      have ki := read_stat_fields_index env { proc with state := state_of_char c, name := s } q
      rw [← hio]
      exact ⟨k3, k4, k2, k5, k6, ki⟩

theorem tested_record_slots (env : Env) (sel : process_select) (m : top_proc) (row : Row)
    (otime : Nat) (tickdiff : ℚ) :
    (set_pcpu (fill_process env sel m row) otime tickdiff).index = m.index ∧
    (set_pcpu (fill_process env sel m row) otime tickdiff).syscr = m.syscr ∧
    (set_pcpu (fill_process env sel m row) otime tickdiff).syscw = m.syscw ∧
    (set_pcpu (fill_process env sel m row) otime tickdiff).iops = m.iops ∧
    (set_pcpu (fill_process env sel m row) otime tickdiff).read_bytes = m.read_bytes ∧
    (set_pcpu (fill_process env sel m row) otime tickdiff).write_bytes = m.write_bytes := by
  obtain ⟨x, hx⟩ := set_pcpu_frame (fill_process env sel m row) otime tickdiff
  rw [hx]
  unfold fill_process
  simp only
  split_ifs <;> simp only [and_self]

/-- One normal-mode iteration seen from the record of the row: the record `n` on which
the inclusion test is made, its copy in the active buffer and its flipped form in the
store. -/
theorem process_row_normal_record (env : Env) (sel : process_select) (mode : Int)
    (tickdiff : ℚ) (l l1 : Loop) (row : Row) (hmode : mode ≠ env.MODE_REPLICATION)
    (hr : process_row env sel mode tickdiff l row = some l1) :
    ∃ m n, read_one_proc_stat env (upsert_record l.head_proc row.pid) sel row.files = some m ∧
      n.pid = row.pid ∧ n.index = m.index ∧ n.syscr = m.syscr ∧ n.syscw = m.syscw ∧
      n.iops = m.iops ∧ n.read_bytes = m.read_bytes ∧ n.write_bytes = m.write_bytes ∧
      flip n ∈ l1.head_proc ∧ (∀ e ∈ l1.head_proc, e.pid = row.pid → e = flip n) ∧
      l1.pgtable = (if is_active env sel n then l.pgtable ++ [n] else l.pgtable) := by
  obtain ⟨m, ps, n, hm, hn, _, hhead, hpg, _⟩ :=
    process_row_normal env sel mode tickdiff l l1 row hmode hr
  obtain ⟨hpid, _, _, _, _⟩ := read_one_proc_stat_frame env _ m sel row.files hm
  obtain ⟨s1, s2, s3, s4, s5, s6⟩ := tested_record_slots env sel m row
    (upsert_record l.head_proc row.pid).time tickdiff
  have hnp : n.pid = row.pid := by
    have := congrArg (fun k => k.1) (tested_record_key env sel m row
      (upsert_record l.head_proc row.pid).time tickdiff)
    simp only [entry_key] at this
    rw [hn, this, hpid, upsert_record_pid]
  rw [← hn] at s1 s2 s3 s4 s5 s6
  refine ⟨m, n, hm, hnp, s1, s2, s3, s4, s5, s6, ?_, ?_, hpg⟩
  · rw [hhead]
    apply write_back_has
    obtain ⟨e, he, hp⟩ := RB_INSERT_has l.head_proc { top_proc.zero with pid := row.pid }
    exact ⟨e, he, by rw [hp]; exact hnp.symm⟩
  · intro e he hp
    rw [hhead] at he
    exact write_back_mem _ (flip n) e he (by rw [hp]; exact hnp.symm)

theorem Slots.two_sets (s : Slots) (j a b : Int) (hj : j = 0 ∨ j = 1) :
    ((s.set j a).set (1 - j) b).get (1 - j) = b ∧
    ((s.set j a).set (1 - j) b).get (1 - (1 - j)) = a := by
  rcases hj with h | h <;> subst h <;> exact ⟨rfl, rfl⟩

/-- Two consecutive normal-mode iterations over the same pid, both with a complete
status text and a completed I/O read: the record on which the second inclusion test is
made has, in the slot of its index, the values of the second read and, in the other
slot, the values of the first. -/
theorem two_reads (env : Env) (sel1 sel2 : process_select) (mode1 mode2 : Int) (t1 t2 : ℚ)
    (l0 l1 l1' l2 : Loop) (row1 row2 : Row) (b1 b2 : List Char)
    (hmode1 : mode1 ≠ env.MODE_REPLICATION) (hmode2 : mode2 ≠ env.MODE_REPLICATION)
    (hidx : (upsert_record l0.head_proc row1.pid).index = 0 ∨
      (upsert_record l0.head_proc row1.pid).index = 1)
    (hr1 : process_row env sel1 mode1 t1 l0 row1 = some l1)
    (hs : store_sorted l1'.head_proc)
    (hkeep : ∀ e ∈ l1.head_proc, e.pid = row1.pid → e ∈ l1'.head_proc)
    (hpid : row2.pid = row1.pid)
    (hr2 : process_row env sel2 mode2 t2 l1' row2 = some l2)
    (hc1 : status_complete row1.files) (hio1 : row1.files.io = some b1)
    (hc2 : status_complete row2.files) (hio2 : row2.files.io = some b2) :
    ∃ v1 v2 v3 v4 v5 w1 w2 w3 w4 w5 n2,
      io_values b1 = some (v1, v2, v3, v4, v5) ∧ io_values b2 = some (w1, w2, w3, w4, w5) ∧
      n2.pid = row2.pid ∧ n2.index = 1 - (upsert_record l0.head_proc row1.pid).index ∧
      (n2.syscr.get n2.index = w1 ∧ n2.syscr.get (1 - n2.index) = v1) ∧
      (n2.syscw.get n2.index = w2 ∧ n2.syscw.get (1 - n2.index) = v2) ∧
      (n2.iops.get n2.index = w1 + w2 ∧ n2.iops.get (1 - n2.index) = v1 + v2) ∧
      (n2.read_bytes.get n2.index = w3 ∧ n2.read_bytes.get (1 - n2.index) = v3) ∧
      (n2.write_bytes.get n2.index = w4 - w5 ∧
        n2.write_bytes.get (1 - n2.index) = v4 - v5) ∧
      flip n2 ∈ l2.head_proc ∧ (∀ e ∈ l2.head_proc, e.pid = row2.pid → e = flip n2) ∧
      l2.pgtable = (if is_active env sel2 n2 then l1'.pgtable ++ [n2] else l1'.pgtable) := by
  obtain ⟨m1, n1, hm1, hn1p, a1, a2, a3, a4, a5, a6, hmem1, _, _⟩ :=
    process_row_normal_record env sel1 mode1 t1 l0 l1 row1 hmode1 hr1
  obtain ⟨v1, v2, v3, v4, v5, hv, c1, c2, c3, c4, c5, c6⟩ :=
    read_one_proc_stat_slots_io env _ m1 sel1 row1.files b1 hc1 hio1 hm1
  obtain ⟨m2, n2, hm2, hn2p, d1, d2, d3, d4, d5, d6, hmem2, huniq2, hpg2⟩ :=
    process_row_normal_record env sel2 mode2 t2 l1' l2 row2 hmode2 hr2
  have hold2 : upsert_record l1'.head_proc row2.pid = flip n1 :=
    upsert_record_old _ _ (flip n1) hs (hkeep _ hmem1 hn1p) (by rw [hpid]; exact hn1p)
  rw [hold2] at hm2
  obtain ⟨w1, w2, w3, w4, w5, hw, e1, e2, e3, e4, e5, e6⟩ :=
    read_one_proc_stat_slots_io env _ m2 sel2 row2.files b2 hc2 hio2 hm2
  have hn1i : n1.index = (upsert_record l0.head_proc row1.pid).index := by rw [a1, c6]
  have hf := (flip_index n1 (by rw [hn1i]; exact hidx)).1
  have hfi : (flip n1).index = 1 - (upsert_record l0.head_proc row1.pid).index := by
    rw [hf, hn1i]
  have hn2i : n2.index = 1 - (upsert_record l0.head_proc row1.pid).index := by
    rw [d1, e6, hfi]
  have fs1 : (flip n1).syscr = n1.syscr := rfl
  have fs2 : (flip n1).syscw = n1.syscw := rfl
  have fs3 : (flip n1).iops = n1.iops := rfl
  have fs4 : (flip n1).read_bytes = n1.read_bytes := rfl
  have fs5 : (flip n1).write_bytes = n1.write_bytes := rfl
  refine ⟨v1, v2, v3, v4, v5, w1, w2, w3, w4, w5, n2, hv, hw, hn2p, hn2i, ?_, ?_, ?_, ?_, ?_,
    hmem2, huniq2, hpg2⟩
  · rw [d2, e1, fs1, a2, c1, hfi, hn2i]
    exact Slots.two_sets _ _ _ _ hidx
  · rw [d3, e2, fs2, a3, c2, hfi, hn2i]
    exact Slots.two_sets _ _ _ _ hidx
  · rw [d4, e3, fs3, a4, c3, hfi, hn2i]
    exact Slots.two_sets _ _ _ _ hidx
  · rw [d5, e4, fs4, a5, c4, hfi, hn2i]
    exact Slots.two_sets _ _ _ _ hidx
  · rw [d6, e5, fs5, a6, c5, hfi, hn2i]
    exact Slots.two_sets _ _ _ _ hidx

/-! ## Row-sets split around one row -/

theorem process_rows_append (env : Env) (sel : process_select) (mode : Int) (tickdiff : ℚ)
    (a b : List Row) (l l2 : Loop) :
    process_rows env sel mode tickdiff l (a ++ b) = some l2 ↔
      ∃ l1, process_rows env sel mode tickdiff l a = some l1 ∧
        process_rows env sel mode tickdiff l1 b = some l2 := by
  induction a generalizing l with
  | nil => simp [process_rows]
  | cons row rows ih =>
    simp only [List.cons_append, process_rows]
    cases h : process_row env sel mode tickdiff l row with
    | none => simp
    | some l1 => simpa using ih l1

theorem upsert_record_index_range (head : List top_proc) (pid : Int)
    (hs : store_sorted head) (hi : ∀ e ∈ head, e.index = 0 ∨ e.index = 1) :
    (upsert_record head pid).index = 0 ∨ (upsert_record head pid).index = 1 := by
  by_cases h : ∃ e ∈ head, e.pid = pid
  · obtain ⟨e, he, hp⟩ := h
    rw [upsert_record_old head pid e hs he hp]
    exact hi e he
  · rw [upsert_record_new head pid (by
      intro e he hp
      exact h ⟨e, he, hp⟩)]
    exact Or.inl rfl

/-- One iteration in either mode: the record `n` the iteration works on has the pid of
the row, is stored with its index flipped, and is the only thing the iteration may add
to the active buffer. -/
theorem process_row_entry (env : Env) (sel : process_select) (mode : Int) (tickdiff : ℚ)
    (l l1 : Loop) (row : Row) (hr : process_row env sel mode tickdiff l row = some l1) :
    ∃ n, n.pid = row.pid ∧ n.index = (upsert_record l.head_proc row.pid).index ∧
      flip n ∈ l1.head_proc ∧
      (l1.pgtable = l.pgtable ++ [n] ∧ l1.active_procs = l.active_procs + 1 ∨
        l1.pgtable = l.pgtable ∧ l1.active_procs = l.active_procs) ∧
      l1.total_procs = l.total_procs + 1 := by
  by_cases hmode : mode = env.MODE_REPLICATION
  · rw [process_row_replication env sel mode tickdiff l row hmode] at hr
    injection hr with hr
    subst hr
    have hp : (fill_replication (upsert_record l.head_proc row.pid) row).pid = row.pid := by
      simp only [fill_replication]
      exact upsert_record_pid _ _
    refine ⟨fill_replication (upsert_record l.head_proc row.pid) row, hp, rfl, ?_,
      Or.inl ⟨rfl, rfl⟩, rfl⟩
    apply write_back_has
    obtain ⟨e, he, hpe⟩ := RB_INSERT_has l.head_proc { top_proc.zero with pid := row.pid }
    exact ⟨e, he, by rw [hpe]; exact hp.symm⟩
  · obtain ⟨m, ps, n, hm, hn, _, hhead, hpg, hact, _, htot⟩ :=
      process_row_normal env sel mode tickdiff l l1 row hmode hr
    obtain ⟨hpid, hidx, _, _, _⟩ := read_one_proc_stat_frame env _ m sel row.files hm
    obtain ⟨s1, _, _, _, _, _⟩ := tested_record_slots env sel m row
      (upsert_record l.head_proc row.pid).time tickdiff
    have hnp : n.pid = row.pid := by
      have := congrArg (fun k => k.1) (tested_record_key env sel m row
        (upsert_record l.head_proc row.pid).time tickdiff)
      simp only [entry_key] at this
      rw [hn, this, hpid, upsert_record_pid]
    rw [← hn] at s1
    refine ⟨n, hnp, by rw [s1, hidx], ?_, ?_, htot⟩
    · rw [hhead]
      apply write_back_has
      obtain ⟨e, he, hp⟩ := RB_INSERT_has l.head_proc { top_proc.zero with pid := row.pid }
      exact ⟨e, he, by rw [hp]; exact hnp.symm⟩
    · by_cases ha : is_active env sel n = true
      · rw [if_pos ha] at hpg hact
        exact Or.inl ⟨hpg, hact⟩
      · rw [if_neg ha] at hpg hact
        exact Or.inr ⟨hpg, hact⟩

/-- The row loop over rows of distinct pids: what it adds to the active buffer are
records of pids of the row-set, each with an index that names a slot and each stored
with that index flipped; the counts grow by the number of rows and of additions. -/
theorem process_rows_snapshot (env : Env) (sel : process_select) (mode : Int) (tickdiff : ℚ)
    (rows : List Row) (l l1 : Loop) (hs : store_sorted l.head_proc)
    (hi : ∀ e ∈ l.head_proc, e.index = 0 ∨ e.index = 1)
    (hnd : (rows.map Row.pid).Nodup)
    (hr : process_rows env sel mode tickdiff l rows = some l1) :
    ∃ added, l1.pgtable = l.pgtable ++ added ∧
      l1.active_procs = l.active_procs + added.length ∧
      l1.total_procs = l.total_procs + rows.length ∧
      ∀ n ∈ added, n.pid ∈ rows.map Row.pid ∧ (n.index = 0 ∨ n.index = 1) ∧
        flip n ∈ l1.head_proc := by
  induction rows generalizing l with
  | nil =>
    simp only [process_rows] at hr
    injection hr with hr
    subst hr
    exact ⟨[], by simp, by simp, by simp, by simp⟩
  | cons row rows ih =>
    simp only [process_rows] at hr
    cases h : process_row env sel mode tickdiff l row with
    | none => rw [h] at hr; exact absurd hr (by simp)
    | some l2 =>
      rw [h] at hr
      simp only at hr
      rw [List.map_cons, List.nodup_cons] at hnd
      have hs2 := process_row_sorted env sel mode tickdiff l l2 row hs h
      have hi2 := (process_row_index env sel mode tickdiff l l2 row hs hi h).2.2.1
      obtain ⟨added, hpg, hact, htot, hall⟩ := ih l2 hs2 hi2 hnd.2 hr
      obtain ⟨n, hnp, hni, hmem, hcase, htot2⟩ :=
        process_row_entry env sel mode tickdiff l l2 row h
      have hkeep := (process_rows_index env sel mode tickdiff rows l2 l1 hs2 hi2 hnd.2 hr).2.1
      have hnr : n.index = 0 ∨ n.index = 1 := by
        rw [hni]
        exact upsert_record_index_range _ _ hs hi
      have hfn : flip n ∈ l1.head_proc := hkeep _ hmem (by
        show n.pid ∉ _
        rw [hnp]
        exact hnd.1)
      have hall2 : ∀ x ∈ added, x.pid ∈ (row :: rows).map Row.pid ∧
          (x.index = 0 ∨ x.index = 1) ∧ flip x ∈ l1.head_proc := by
        intro x hx
        obtain ⟨h1, h2, h3⟩ := hall x hx
        exact ⟨by rw [List.map_cons]; exact List.mem_cons_of_mem _ h1, h2, h3⟩
      rcases hcase with ⟨hp2, ha2⟩ | ⟨hp2, ha2⟩
      · refine ⟨n :: added, ?_, ?_, ?_, ?_⟩
        · rw [hpg, hp2]; simp
        · rw [hact, ha2]; simp; omega
        · rw [htot, htot2]; simp; omega
        · intro x hx
          rcases List.mem_cons.mp hx with hx | hx
          · subst hx
            exact ⟨by rw [List.map_cons, hnp]; exact List.mem_cons_self _ _, hnr, hfn⟩
          · exact hall2 x hx
      · refine ⟨added, ?_, ?_, ?_, hall2⟩
        · rw [hpg, hp2]
        · rw [hact, ha2]
        · rw [htot, htot2]; simp; omega

theorem example_insert_perm (cmp : top_proc → top_proc → Option Int) (x : top_proc)
    (l t : List top_proc) (h : example_insert cmp x l = some t) : t.Perm (x :: l) := by
  induction l generalizing t with
  | nil =>
    simp only [example_insert, Option.some.injEq] at h
    rw [← h]
  | cons y ys ih =>
    unfold example_insert at h
    split at h
    · exact absurd h (by simp)
    · split_ifs at h
      · injection h with h
        rw [← h]
      · cases hi : example_insert cmp x ys with
        | none => rw [hi] at h; exact absurd h (by simp)
        | some t1 =>
          rw [hi] at h
          simp only [Option.map_some', Option.some.injEq] at h
          rw [← h]
          exact ((ih t1 hi).cons y).trans (List.Perm.swap x y ys)

theorem example_qsort_perm (cmp : top_proc → top_proc → Option Int)
    (l t : List top_proc) (h : example_qsort cmp l = some t) : t.Perm l := by
  induction l generalizing t with
  | nil =>
    simp only [example_qsort, Option.some.injEq] at h
    rw [← h]
  | cons x xs ih =>
    unfold example_qsort at h
    cases hq : example_qsort cmp xs with
    | none => rw [hq] at h; exact absurd h (by simp)
    | some t1 =>
      rw [hq] at h
      simp only [Option.some_bind] at h
      exact (example_insert_perm cmp x t1 t h).trans ((ih t1 hq).cons x)

theorem get_process_info_pgtable (env : Env) (st st1 : State) (sel : process_select)
    (compare_index : Int) (conn : Option (List Row)) (mode : Int) (thistime : timeval)
    (hq : ∀ cmp (l sorted : List top_proc), env.qsort cmp l = some sorted → sorted.Perm l)
    (hr : get_process_info env st sel compare_index conn mode thistime = some st1) :
    ∃ l, process_rows env sel mode (elapsed st.lasttime thistime * (env.HZ : ℚ))
        { head_proc := st.head_proc, pgtable := [],
          process_states := List.replicate env.NPROCSTATES 0, total_procs := 0,
          active_procs := 0 } (conn.getD []) = some l
      ∧ st1.head_proc = l.head_proc ∧ st1.pgtable.Perm l.pgtable := by
  obtain ⟨l, hl, hh, _⟩ :=
    get_process_info_head env st st1 sel compare_index conn mode thistime hr
  obtain ⟨l', hl', hcase⟩ :=
    get_process_info_cases env st st1 sel compare_index conn mode thistime hr
  rw [hl] at hl'
  injection hl' with hl'
  subst hl'
  refine ⟨l, hl, hh, ?_⟩
  rcases hcase with ⟨_, h⟩ | ⟨_, cmp, _, hs⟩
  · rw [h]
  · exact hq _ _ _ hs

theorem nodup_split (pre post : List Row) (row : Row)
    (h : ((pre ++ row :: post).map Row.pid).Nodup) :
    (pre.map Row.pid).Nodup ∧ (post.map Row.pid).Nodup ∧
      row.pid ∉ pre.map Row.pid ∧ row.pid ∉ post.map Row.pid := by
  rw [List.map_append, List.map_cons, List.nodup_append, List.nodup_cons] at h
  obtain ⟨h1, ⟨h2, h3⟩, h4⟩ := h
  refine ⟨h1, h3, ?_, h2⟩
  intro hm
  exact h4 hm (List.mem_cons_self _ _)

theorem process_rows_split (env : Env) (sel : process_select) (mode : Int) (tickdiff : ℚ)
    (pre post : List Row) (row : Row) (l l3 : Loop)
    (hr : process_rows env sel mode tickdiff l (pre ++ row :: post) = some l3) :
    ∃ l1 l2, process_rows env sel mode tickdiff l pre = some l1 ∧
      process_row env sel mode tickdiff l1 row = some l2 ∧
      process_rows env sel mode tickdiff l2 post = some l3 := by
  obtain ⟨l1, h1, h2⟩ := (process_rows_append env sel mode tickdiff pre (row :: post) l l3).mp hr
  simp only [process_rows] at h2
  cases h : process_row env sel mode tickdiff l1 row with
  | none => rw [h] at h2; exact absurd h2 (by simp)
  | some l2 =>
    rw [h] at h2
    exact ⟨l1, l2, h1, h, h2⟩

/-- Two normal-mode row loops, the second starting from the store the first left, each
over rows of distinct pids, with a row of the same pid in both whose status text is
complete and whose I/O read completes: the record tested in the second loop has the
second read in the slot of its index and the first read in the other slot. -/
theorem two_cycles_reads (env : Env) (sel1 sel2 : process_select) (mode1 mode2 : Int)
    (t1 t2 : ℚ) (l0 la lb lc : Loop) (pre1 post1 pre2 post2 : List Row) (row1 row2 : Row)
    (b1 b2 : List Char)
    (hmode1 : mode1 ≠ env.MODE_REPLICATION) (hmode2 : mode2 ≠ env.MODE_REPLICATION)
    (hs : store_sorted l0.head_proc) (hi : ∀ e ∈ l0.head_proc, e.index = 0 ∨ e.index = 1)
    (hnd1 : ((pre1 ++ row1 :: post1).map Row.pid).Nodup)
    (hnd2 : ((pre2 ++ row2 :: post2).map Row.pid).Nodup)
    (hpid : row2.pid = row1.pid)
    (hr1 : process_rows env sel1 mode1 t1 l0 (pre1 ++ row1 :: post1) = some la)
    (hstore : lb.head_proc = la.head_proc)
    (hr2 : process_rows env sel2 mode2 t2 lb (pre2 ++ row2 :: post2) = some lc)
    (hc1 : status_complete row1.files) (hio1 : row1.files.io = some b1)
    (hc2 : status_complete row2.files) (hio2 : row2.files.io = some b2) :
    ∃ v1 v2 v3 v4 v5 w1 w2 w3 w4 w5 n2,
      io_values b1 = some (v1, v2, v3, v4, v5) ∧ io_values b2 = some (w1, w2, w3, w4, w5) ∧
      n2.pid = row2.pid ∧ (n2.index = 0 ∨ n2.index = 1) ∧
      (n2.syscr.get n2.index = w1 ∧ n2.syscr.get (1 - n2.index) = v1) ∧
      (n2.syscw.get n2.index = w2 ∧ n2.syscw.get (1 - n2.index) = v2) ∧
      (n2.iops.get n2.index = w1 + w2 ∧ n2.iops.get (1 - n2.index) = v1 + v2) ∧
      (n2.read_bytes.get n2.index = w3 ∧ n2.read_bytes.get (1 - n2.index) = v3) ∧
      (n2.write_bytes.get n2.index = w4 - w5 ∧
        n2.write_bytes.get (1 - n2.index) = v4 - v5) ∧
      flip n2 ∈ lc.head_proc ∧ (∀ e ∈ lc.head_proc, e.pid = row2.pid → e = flip n2) ∧
      (is_active env sel2 n2 = true → n2 ∈ lc.pgtable) := by
  obtain ⟨a1, a2, ha1, ha2, ha3⟩ := process_rows_split env sel1 mode1 t1 pre1 post1 row1 l0 la hr1
  obtain ⟨c1, c2, hb1, hb2, hb3⟩ := process_rows_split env sel2 mode2 t2 pre2 post2 row2 lb lc hr2
  obtain ⟨np1, nq1, nr1, ns1⟩ := nodup_split pre1 post1 row1 hnd1
  obtain ⟨np2, nq2, nr2, ns2⟩ := nodup_split pre2 post2 row2 hnd2
  have sa1 := process_rows_sorted env sel1 mode1 t1 pre1 l0 a1 hs ha1
  have ia1 := process_rows_index_range env sel1 mode1 t1 pre1 l0 a1 hs hi ha1
  have sa2 := process_row_sorted env sel1 mode1 t1 a1 a2 row1 sa1 ha2
  have ia2 := (process_row_index env sel1 mode1 t1 a1 a2 row1 sa1 ia1 ha2).2.2.1
  have sla := process_rows_sorted env sel1 mode1 t1 post1 a2 la sa2 ha3
  have ila := process_rows_index_range env sel1 mode1 t1 post1 a2 la sa2 ia2 ha3
  have slb : store_sorted lb.head_proc := by rw [hstore]; exact sla
  have ilb : ∀ e ∈ lb.head_proc, e.index = 0 ∨ e.index = 1 := by rw [hstore]; exact ila
  have sc1 := process_rows_sorted env sel2 mode2 t2 pre2 lb c1 slb hb1
  have ic1 := process_rows_index_range env sel2 mode2 t2 pre2 lb c1 slb ilb hb1
  have sc2 := process_row_sorted env sel2 mode2 t2 c1 c2 row2 sc1 hb2
  have ic2 := (process_row_index env sel2 mode2 t2 c1 c2 row2 sc1 ic1 hb2).2.2.1
  have slc := process_rows_sorted env sel2 mode2 t2 post2 c2 lc sc2 hb3
  have hkeep : ∀ e ∈ a2.head_proc, e.pid = row1.pid → e ∈ c1.head_proc := by
    intro e he hp
    have h1 := (process_rows_index env sel1 mode1 t1 post1 a2 la sa2 ia2 nq1 ha3).2.1 e he
      (by rw [hp]; exact ns1)
    rw [← hstore] at h1
    exact (process_rows_index env sel2 mode2 t2 pre2 lb c1 slb ilb np2 hb1).2.1 e h1
      (by rw [hp, ← hpid]; exact nr2)
  obtain ⟨v1, v2, v3, v4, v5, w1, w2, w3, w4, w5, n2, hv, hw, hn2p, hn2i, e1, e2, e3, e4, e5,
      hmem, _, hpg⟩ :=
    two_reads env sel1 sel2 mode1 mode2 t1 t2 a1 a2 c1 c2 row1 row2 b1 b2 hmode1 hmode2
      (upsert_record_index_range _ _ sa1 ia1) ha2 sc1 hkeep hpid hb2 hc1 hio1 hc2 hio2
  have hrange : n2.index = 0 ∨ n2.index = 1 := by
    rcases upsert_record_index_range a1.head_proc row1.pid sa1 ia1 with h | h
    · right; rw [hn2i, h]; rfl
    · left; rw [hn2i, h]; rfl
  have hfin : flip n2 ∈ lc.head_proc :=
    (process_rows_index env sel2 mode2 t2 post2 c2 lc sc2 ic2 nq2 hb3).2.1 _ hmem
      (by
        show n2.pid ∉ _
        rw [hn2p]
        exact ns2)
  refine ⟨v1, v2, v3, v4, v5, w1, w2, w3, w4, w5, n2, hv, hw, hn2p, hrange, e1, e2, e3, e4, e5,
    hfin, ?_, ?_⟩
  · intro e he hp
    exact sorted_unique lc.head_proc e (flip n2) slc he hfin (by rw [hp]; exact hn2p.symm)
  · intro hact
    obtain ⟨added, hadd, _⟩ :=
      process_rows_snapshot env sel2 mode2 t2 post2 c2 lc sc2 ic2 nq2 hb3
    rw [hadd, hpg, if_pos hact]
    simp

theorem entry_of_flip (n n2 : top_proc) (hn : n.index = 0 ∨ n.index = 1)
    (hn2 : n2.index = 0 ∨ n2.index = 1) (h : flip n = flip n2) :
    n.index = n2.index ∧ n.syscr = n2.syscr ∧ n.syscw = n2.syscw ∧ n.iops = n2.iops ∧
      n.read_bytes = n2.read_bytes ∧ n.write_bytes = n2.write_bytes := by
  have hi : (flip n).index = (flip n2).index := congrArg top_proc.index h
  rw [(flip_index n hn).1, (flip_index n2 hn2).1] at hi
  have a1 : (flip n).syscr = (flip n2).syscr := by rw [h]
  have a2 : (flip n).syscw = (flip n2).syscw := by rw [h]
  have a3 : (flip n).iops = (flip n2).iops := by rw [h]
  have a4 : (flip n).read_bytes = (flip n2).read_bytes := by rw [h]
  have a5 : (flip n).write_bytes = (flip n2).write_bytes := by rw [h]
  exact ⟨by omega, a1, a2, a3, a4, a5⟩

/-! ## The active buffer holds records as they were before the flip -/

/-- C24: after a normal-mode cycle over rows of distinct pids, every entry `n` of the
active buffer has an index that names a slot, and the store holds `flip n`: the same
record with the index naming the other slot and every other field, the counters
included, as in the entry.  When the cycle before was a normal-mode cycle too and the
I/O read of a pid completed in both (the status text complete, the `io` file read),
with `v1 .. v5` the five values the first read assigned and `w1 .. w5` those of the
second, an entry of that pid has the second read in the slot of its index, and
`diff_stat` at the entry's index is the second value stored minus the first for each of
`iops`, `syscr`, `syscw`, `read_bytes` and `write_bytes`.  The library `qsort` is taken
to permute the buffer. -/
theorem C24_entry_is_snapshot (env : Env) (cycles : List Cycle) (st st1 st2 : State)
    (sel1 sel2 : process_select) (ci1 ci2 mode1 mode2 : Int) (time1 time2 : timeval)
    (pre1 post1 pre2 post2 : List Row) (row1 row2 : Row) (b1 b2 : List Char)
    (hq : ∀ cmp (l sorted : List top_proc), env.qsort cmp l = some sorted → sorted.Perm l)
    (hrun : run_cycles env (State.init env) cycles = some st)
    (hmode1 : mode1 ≠ env.MODE_REPLICATION) (hmode2 : mode2 ≠ env.MODE_REPLICATION)
    (hnd1 : ((pre1 ++ row1 :: post1).map Row.pid).Nodup)
    (hnd2 : ((pre2 ++ row2 :: post2).map Row.pid).Nodup)
    (hpid : row2.pid = row1.pid)
    (hg1 : get_process_info env st sel1 ci1 (some (pre1 ++ row1 :: post1)) mode1 time1
      = some st1)
    (hg2 : get_process_info env st1 sel2 ci2 (some (pre2 ++ row2 :: post2)) mode2 time2
      = some st2)
    (hc1 : status_complete row1.files) (hio1 : row1.files.io = some b1)
    (hc2 : status_complete row2.files) (hio2 : row2.files.io = some b2) :
    (∀ n ∈ st2.pgtable, (n.index = 0 ∨ n.index = 1) ∧ flip n ∈ st2.head_proc ∧
      (flip n).index = 1 - n.index) ∧
    ∃ v1 v2 v3 v4 v5 w1 w2 w3 w4 w5,
      io_values b1 = some (v1, v2, v3, v4, v5) ∧ io_values b2 = some (w1, w2, w3, w4, w5) ∧
      ∀ n ∈ st2.pgtable, n.pid = row2.pid →
        (n.syscr.get n.index = w1 ∧ n.syscw.get n.index = w2 ∧
          n.iops.get n.index = w1 + w2 ∧ n.read_bytes.get n.index = w3 ∧
          n.write_bytes.get n.index = w4 - w5) ∧
        diff_stat n.iops n.index = (w1 + w2) - (v1 + v2) ∧
        diff_stat n.syscr n.index = w1 - v1 ∧
        diff_stat n.syscw n.index = w2 - v2 ∧
        diff_stat n.read_bytes n.index = w3 - v3 ∧
        diff_stat n.write_bytes n.index = (w4 - w5) - (v4 - v5) := by
  have hs : store_sorted st.head_proc :=
    run_cycles_sorted env cycles (State.init env) st (by simp [State.init, store_sorted]) hrun
  have hi : ∀ e ∈ st.head_proc, e.index = 0 ∨ e.index = 1 :=
    run_cycles_index_range env cycles (State.init env) st
      (by simp [State.init, store_sorted]) (by simp [State.init]) hrun
  obtain ⟨la, hla, hh1, _⟩ := get_process_info_pgtable env st st1 sel1 ci1 _ mode1 time1 hq hg1
  obtain ⟨lc, hlc, hh2, hperm⟩ :=
    get_process_info_pgtable env st1 st2 sel2 ci2 _ mode2 time2 hq hg2
  simp only [Option.getD_some] at hla hlc
  have hs1 : store_sorted st1.head_proc := by
    rw [hh1]
    exact process_rows_sorted env sel1 mode1 _ _ _ la hs hla
  have hi1 : ∀ e ∈ st1.head_proc, e.index = 0 ∨ e.index = 1 := by
    rw [hh1]
    exact process_rows_index_range env sel1 mode1 _ _ _ la hs hi hla
  obtain ⟨added, hadd, _, _, hall⟩ := process_rows_snapshot env sel2 mode2 _ _ _ lc hs1 hi1 hnd2 hlc
  simp only [List.nil_append] at hadd
  have hsnap : ∀ n ∈ st2.pgtable, (n.index = 0 ∨ n.index = 1) ∧ flip n ∈ st2.head_proc ∧
      (flip n).index = 1 - n.index := by
    intro n hn
    have hn1 : n ∈ added := by
      rw [← hadd]
      exact hperm.subset hn
    obtain ⟨_, hr, hf⟩ := hall n hn1
    exact ⟨hr, by rw [hh2]; exact hf, (flip_index n hr).1⟩
  refine ⟨hsnap, ?_⟩
  obtain ⟨v1, v2, v3, v4, v5, w1, w2, w3, w4, w5, n2, hv, hw, hn2p, hn2i, e1, e2, e3, e4, e5,
      _, huniq, _⟩ :=
    two_cycles_reads env sel1 sel2 mode1 mode2 _ _ _ la _ lc pre1 post1 pre2 post2 row1 row2
      b1 b2 hmode1 hmode2 hs hi hnd1 hnd2 hpid hla hh1 hlc hc1 hio1 hc2 hio2
  refine ⟨v1, v2, v3, v4, v5, w1, w2, w3, w4, w5, hv, hw, ?_⟩
  intro n hn hp
  obtain ⟨hr, hf, _⟩ := hsnap n hn
  rw [hh2] at hf
  obtain ⟨x0, x1, x2, x3, x4, x5⟩ := entry_of_flip n n2 hr hn2i (huniq (flip n) hf hp)
  rw [diff_stat_other _ _ hr, diff_stat_other _ _ hr, diff_stat_other _ _ hr,
    diff_stat_other _ _ hr, diff_stat_other _ _ hr, x0, x1, x2, x3, x4, x5, e1.1, e1.2, e2.1,
    e2.2, e3.1, e3.2, e4.1, e4.2, e5.1, e5.2]
  exact ⟨⟨rfl, rfl, rfl, rfl, rfl⟩, rfl, rfl, rfl, rfl, rfl⟩

set_option maxRecDepth 100000 in
theorem C24_witness :
    get_process_info example_env
      (example_state_of 100 0
        (example_record_io 1 ⟨2000, 0⟩ ⟨10, 0⟩ ⟨2010, 0⟩ ⟨20, 0⟩ ⟨-4096, 0⟩)
        (example_record_io 0 ⟨2000, 0⟩ ⟨10, 0⟩ ⟨2010, 0⟩ ⟨20, 0⟩ ⟨-4096, 0⟩))
      example_sel (-1) (some [example_row_io (some example_io_text_next)]) 0 ⟨101, 0⟩ =
      some (example_state_of 101 1
        (example_record_io 0 ⟨2000, 2600⟩ ⟨10, 15⟩ ⟨2010, 2615⟩ ⟨20, 27⟩ ⟨-4096, -4097⟩)
        (example_record_io 1 ⟨2000, 2600⟩ ⟨10, 15⟩ ⟨2010, 2615⟩ ⟨20, 27⟩ ⟨-4096, -4097⟩)) ∧
    ∃ v1 v2 v3 v4 v5 w1 w2 w3 w4 w5,
      io_values example_io_text = some (v1, v2, v3, v4, v5) ∧
      io_values example_io_text_next = some (w1, w2, w3, w4, w5) ∧
      diff_stat (⟨2010, 2615⟩ : Slots) 1 = (w1 + w2) - (v1 + v2) ∧
      diff_stat (⟨2000, 2600⟩ : Slots) 1 = w1 - v1 ∧
      diff_stat (⟨10, 15⟩ : Slots) 1 = w2 - v2 ∧
      diff_stat (⟨20, 27⟩ : Slots) 1 = w3 - v3 ∧
      diff_stat (⟨-4096, -4097⟩ : Slots) 1 = (w4 - w5) - (v4 - v5) := by
  have hg1 : get_process_info example_env (State.init example_env) example_sel (-1)
      (some ([] ++ example_row_io (some example_io_text) :: [])) 0 ⟨100, 0⟩ =
      some (example_state_of 100 0
        (example_record_io 1 ⟨2000, 0⟩ ⟨10, 0⟩ ⟨2010, 0⟩ ⟨20, 0⟩ ⟨-4096, 0⟩)
        (example_record_io 0 ⟨2000, 0⟩ ⟨10, 0⟩ ⟨2010, 0⟩ ⟨20, 0⟩ ⟨-4096, 0⟩)) := by
    with_unfolding_all rfl
  have hg2 : get_process_info example_env
      (example_state_of 100 0
        (example_record_io 1 ⟨2000, 0⟩ ⟨10, 0⟩ ⟨2010, 0⟩ ⟨20, 0⟩ ⟨-4096, 0⟩)
        (example_record_io 0 ⟨2000, 0⟩ ⟨10, 0⟩ ⟨2010, 0⟩ ⟨20, 0⟩ ⟨-4096, 0⟩))
      example_sel (-1) (some ([] ++ example_row_io (some example_io_text_next) :: [])) 0
      ⟨101, 0⟩ =
      some (example_state_of 101 1
        (example_record_io 0 ⟨2000, 2600⟩ ⟨10, 15⟩ ⟨2010, 2615⟩ ⟨20, 27⟩ ⟨-4096, -4097⟩)
        (example_record_io 1 ⟨2000, 2600⟩ ⟨10, 15⟩ ⟨2010, 2615⟩ ⟨20, 27⟩ ⟨-4096, -4097⟩)) := by
    with_unfolding_all rfl
  have hc : status_complete (example_row_io (some example_io_text)).files :=
    ⟨"(postgres) R 1 2 3 4 5 6 7 8 9 10 30 10 0 0 20 0 1 0 777 4096 1".data, "postgres".data,
      " R 1 2 3 4 5 6 7 8 9 10 30 10 0 0 20 0 1 0 777 4096 1".data, 'R',
      " 1 2 3 4 5 6 7 8 9 10 30 10 0 0 20 0 1 0 777 4096 1".data,
      by with_unfolding_all rfl, by with_unfolding_all rfl, by with_unfolding_all rfl⟩
  obtain ⟨_, v1, v2, v3, v4, v5, w1, w2, w3, w4, w5, hv, hw, hall⟩ :=
    C24_entry_is_snapshot example_env [] (State.init example_env) _ _ example_sel example_sel
      (-1) (-1) 0 0 ⟨100, 0⟩ ⟨101, 0⟩ [] [] [] [] (example_row_io (some example_io_text))
      (example_row_io (some example_io_text_next)) example_io_text example_io_text_next
      example_qsort_perm rfl (by decide) (by decide) (by decide) (by decide) rfl
      hg1 hg2 hc rfl hc rfl
  exact ⟨hg2, v1, v2, v3, v4, v5, w1, w2, w3, w4, w5, hv, hw,
    (hall _ (List.mem_singleton_self _) rfl).2⟩

/-! ## What the two slots of a counter hold -/

theorem flip_fields (n : top_proc) :
    (flip n).pid = n.pid ∧ (flip n).syscr = n.syscr ∧ (flip n).syscw = n.syscw ∧
      (flip n).iops = n.iops ∧ (flip n).read_bytes = n.read_bytes ∧
      (flip n).write_bytes = n.write_bytes :=
  ⟨rfl, rfl, rfl, rfl, rfl, rfl⟩

/-- C21 (as the code has it): the slots hold two successive observations when the I/O
read completed in both of two successive normal-mode cycles.  For a pid that is in the
row-sets of two successive normal-mode cycles (pids distinct within a row-set), with the
status text complete and the `io` file read in both, the stored record `e` of that pid
has, after the second cycle, the values of the second read in the slot its index does
not name (the slot written last) and the values of the first read in the slot its index
names.  An iteration whose read does not reach the I/O counters (status text
incomplete, or no `io` file) writes neither slot and flips the index all the same.  A
record created for a new pid has index 0 and zero slots, and a completed read on it
writes slot 0 and leaves slot 1 zero. -/
theorem C21_slots_after_two_reads (env : Env) (cycles : List Cycle) (st st1 st2 : State)
    (sel1 sel2 : process_select) (ci1 ci2 mode1 mode2 : Int) (time1 time2 : timeval)
    (pre1 post1 pre2 post2 : List Row) (row1 row2 : Row) (b1 b2 : List Char)
    (hrun : run_cycles env (State.init env) cycles = some st)
    (hmode1 : mode1 ≠ env.MODE_REPLICATION) (hmode2 : mode2 ≠ env.MODE_REPLICATION)
    (hnd1 : ((pre1 ++ row1 :: post1).map Row.pid).Nodup)
    (hnd2 : ((pre2 ++ row2 :: post2).map Row.pid).Nodup)
    (hpid : row2.pid = row1.pid)
    (hg1 : get_process_info env st sel1 ci1 (some (pre1 ++ row1 :: post1)) mode1 time1
      = some st1)
    (hg2 : get_process_info env st1 sel2 ci2 (some (pre2 ++ row2 :: post2)) mode2 time2
      = some st2)
    (hc1 : status_complete row1.files) (hio1 : row1.files.io = some b1)
    (hc2 : status_complete row2.files) (hio2 : row2.files.io = some b2) :
    (∃ v1 v2 v3 v4 v5 w1 w2 w3 w4 w5,
      io_values b1 = some (v1, v2, v3, v4, v5) ∧ io_values b2 = some (w1, w2, w3, w4, w5) ∧
      ∃ e ∈ st2.head_proc, e.pid = row2.pid ∧
        (∀ x ∈ st2.head_proc, x.pid = row2.pid → x = e) ∧ (e.index = 0 ∨ e.index = 1) ∧
        (e.syscr.get (1 - e.index) = w1 ∧ e.syscr.get e.index = v1) ∧
        (e.syscw.get (1 - e.index) = w2 ∧ e.syscw.get e.index = v2) ∧
        (e.iops.get (1 - e.index) = w1 + w2 ∧ e.iops.get e.index = v1 + v2) ∧
        (e.read_bytes.get (1 - e.index) = w3 ∧ e.read_bytes.get e.index = v3) ∧
        (e.write_bytes.get (1 - e.index) = w4 - w5 ∧
          e.write_bytes.get e.index = v4 - v5)) ∧
    (∀ (sel : process_select) (mode : Int) (tickdiff : ℚ) (l l1 : Loop) (row : Row),
      mode ≠ env.MODE_REPLICATION →
      (¬ status_complete row.files ∨ row.files.io = none) →
      process_row env sel mode tickdiff l row = some l1 →
      ∃ e ∈ l1.head_proc, e.pid = row.pid ∧
        e.index = Int.tmod ((upsert_record l.head_proc row.pid).index + 1) 2 ∧
        e.syscr = (upsert_record l.head_proc row.pid).syscr ∧
        e.syscw = (upsert_record l.head_proc row.pid).syscw ∧
        e.iops = (upsert_record l.head_proc row.pid).iops ∧
        e.read_bytes = (upsert_record l.head_proc row.pid).read_bytes ∧
        e.write_bytes = (upsert_record l.head_proc row.pid).write_bytes) ∧
    (∀ (head : List top_proc) (pid : Int), (∀ e ∈ head, e.pid ≠ pid) →
      (upsert_record head pid).index = 0 ∧
      (upsert_record head pid).syscr = ⟨0, 0⟩ ∧ (upsert_record head pid).syscw = ⟨0, 0⟩ ∧
      (upsert_record head pid).iops = ⟨0, 0⟩ ∧ (upsert_record head pid).read_bytes = ⟨0, 0⟩ ∧
      (upsert_record head pid).write_bytes = ⟨0, 0⟩ ∧
      ∀ (sel : process_select) (f : ProcFiles) (b : List Char) (m : top_proc),
        status_complete f → f.io = some b →
        read_one_proc_stat env (upsert_record head pid) sel f = some m →
        ∃ v1 v2 v3 v4 v5, io_values b = some (v1, v2, v3, v4, v5) ∧
          m.index = 0 ∧ m.syscr = ⟨v1, 0⟩ ∧ m.syscw = ⟨v2, 0⟩ ∧ m.iops = ⟨v1 + v2, 0⟩ ∧
          m.read_bytes = ⟨v3, 0⟩ ∧ m.write_bytes = ⟨v4 - v5, 0⟩) := by
  refine ⟨?_, ?_, ?_⟩
  · have hs : store_sorted st.head_proc :=
      run_cycles_sorted env cycles (State.init env) st (by simp [State.init, store_sorted]) hrun
    have hi : ∀ e ∈ st.head_proc, e.index = 0 ∨ e.index = 1 :=
      run_cycles_index_range env cycles (State.init env) st
        (by simp [State.init, store_sorted]) (by simp [State.init]) hrun
    obtain ⟨la, hla, hh1, _⟩ :=
      get_process_info_head env st st1 sel1 ci1 _ mode1 time1 hg1
    obtain ⟨lc, hlc, hh2, _⟩ :=
      get_process_info_head env st1 st2 sel2 ci2 _ mode2 time2 hg2
    simp only [Option.getD_some] at hla hlc
    obtain ⟨v1, v2, v3, v4, v5, w1, w2, w3, w4, w5, n2, hv, hw, hn2p, hn2i, e1, e2, e3, e4,
        e5, hmem, huniq, _⟩ :=
      two_cycles_reads env sel1 sel2 mode1 mode2 _ _ _ la _ lc pre1 post1 pre2 post2 row1 row2
        b1 b2 hmode1 hmode2 hs hi hnd1 hnd2 hpid hla hh1 hlc hc1 hio1 hc2 hio2
    obtain ⟨f0, f1, f2, f3, f4, f5⟩ := flip_fields n2
    obtain ⟨hfi, hfr⟩ := flip_index n2 hn2i
    have hback : 1 - (flip n2).index = n2.index := by omega
    rw [← hh2] at hmem huniq
    refine ⟨v1, v2, v3, v4, v5, w1, w2, w3, w4, w5, hv, hw, flip n2, hmem, by rw [f0, hn2p],
      huniq, hfr, ?_, ?_, ?_, ?_, ?_⟩
    · rw [hback, f1, hfi]; exact e1
    · rw [hback, f2, hfi]; exact e2
    · rw [hback, f3, hfi]; exact e3
    · rw [hback, f4, hfi]; exact e4
    · rw [hback, f5, hfi]; exact e5
  · intro sel mode tickdiff l l1 row hmode hbad hr
    obtain ⟨m, n, hm, hnp, a1, a2, a3, a4, a5, a6, hmem, _, _⟩ :=
      process_row_normal_record env sel mode tickdiff l l1 row hmode hr
    obtain ⟨c1, c2, c3, c4, c5, c6⟩ :=
      read_one_proc_stat_slots_none env _ m sel row.files hbad hm
    refine ⟨flip n, hmem, hnp, ?_, ?_, ?_, ?_, ?_, ?_⟩
    · show Int.tmod (n.index + 1) 2 = _
      rw [a1, c6]
    · show n.syscr = _
      rw [a2, c1]
    · show n.syscw = _
      rw [a3, c2]
    · show n.iops = _
      rw [a4, c3]
    · show n.read_bytes = _
      rw [a5, c4]
    · show n.write_bytes = _
      rw [a6, c5]
  · intro head pid hnew
    rw [upsert_record_new head pid hnew]
    refine ⟨rfl, rfl, rfl, rfl, rfl, rfl, ?_⟩
    intro sel f b m hc hio hm
    obtain ⟨v1, v2, v3, v4, v5, hv, c1, c2, c3, c4, c5, c6⟩ :=
      read_one_proc_stat_slots_io env _ m sel f b hc hio hm
    exact ⟨v1, v2, v3, v4, v5, hv, c6, c1, c2, c3, c4, c5⟩

set_option maxRecDepth 100000 in
theorem C21_witness :
    ∃ v1 v2 v3 v4 v5 w1 w2 w3 w4 w5,
      io_values example_io_text = some (v1, v2, v3, v4, v5) ∧
      io_values example_io_text_next = some (w1, w2, w3, w4, w5) ∧
      ∃ e ∈ (example_state_of 101 1
          (example_record_io 0 ⟨2000, 2600⟩ ⟨10, 15⟩ ⟨2010, 2615⟩ ⟨20, 27⟩ ⟨-4096, -4097⟩)
          (example_record_io 1 ⟨2000, 2600⟩ ⟨10, 15⟩ ⟨2010, 2615⟩ ⟨20, 27⟩
            ⟨-4096, -4097⟩)).head_proc,
        e.pid = (example_row_io (some example_io_text_next)).pid ∧
        (∀ x ∈ (example_state_of 101 1
            (example_record_io 0 ⟨2000, 2600⟩ ⟨10, 15⟩ ⟨2010, 2615⟩ ⟨20, 27⟩ ⟨-4096, -4097⟩)
            (example_record_io 1 ⟨2000, 2600⟩ ⟨10, 15⟩ ⟨2010, 2615⟩ ⟨20, 27⟩
              ⟨-4096, -4097⟩)).head_proc,
          x.pid = (example_row_io (some example_io_text_next)).pid → x = e) ∧
        (e.index = 0 ∨ e.index = 1) ∧
        (e.syscr.get (1 - e.index) = w1 ∧ e.syscr.get e.index = v1) ∧
        (e.syscw.get (1 - e.index) = w2 ∧ e.syscw.get e.index = v2) ∧
        (e.iops.get (1 - e.index) = w1 + w2 ∧ e.iops.get e.index = v1 + v2) ∧
        (e.read_bytes.get (1 - e.index) = w3 ∧ e.read_bytes.get e.index = v3) ∧
        (e.write_bytes.get (1 - e.index) = w4 - w5 ∧
          e.write_bytes.get e.index = v4 - v5) := by
  have hg1 : get_process_info example_env (State.init example_env) example_sel (-1)
      (some ([] ++ example_row_io (some example_io_text) :: [])) 0 ⟨100, 0⟩ =
      some (example_state_of 100 0
        (example_record_io 1 ⟨2000, 0⟩ ⟨10, 0⟩ ⟨2010, 0⟩ ⟨20, 0⟩ ⟨-4096, 0⟩)
        (example_record_io 0 ⟨2000, 0⟩ ⟨10, 0⟩ ⟨2010, 0⟩ ⟨20, 0⟩ ⟨-4096, 0⟩)) := by
    with_unfolding_all rfl
  have hg2 : get_process_info example_env
      (example_state_of 100 0
        (example_record_io 1 ⟨2000, 0⟩ ⟨10, 0⟩ ⟨2010, 0⟩ ⟨20, 0⟩ ⟨-4096, 0⟩)
        (example_record_io 0 ⟨2000, 0⟩ ⟨10, 0⟩ ⟨2010, 0⟩ ⟨20, 0⟩ ⟨-4096, 0⟩))
      example_sel (-1) (some ([] ++ example_row_io (some example_io_text_next) :: [])) 0
      ⟨101, 0⟩ =
      some (example_state_of 101 1
        (example_record_io 0 ⟨2000, 2600⟩ ⟨10, 15⟩ ⟨2010, 2615⟩ ⟨20, 27⟩ ⟨-4096, -4097⟩)
        (example_record_io 1 ⟨2000, 2600⟩ ⟨10, 15⟩ ⟨2010, 2615⟩ ⟨20, 27⟩ ⟨-4096, -4097⟩)) := by
    with_unfolding_all rfl
  have hc : status_complete (example_row_io (some example_io_text)).files :=
    ⟨"(postgres) R 1 2 3 4 5 6 7 8 9 10 30 10 0 0 20 0 1 0 777 4096 1".data, "postgres".data,
      " R 1 2 3 4 5 6 7 8 9 10 30 10 0 0 20 0 1 0 777 4096 1".data, 'R',
      " 1 2 3 4 5 6 7 8 9 10 30 10 0 0 20 0 1 0 777 4096 1".data,
      by with_unfolding_all rfl, by with_unfolding_all rfl, by with_unfolding_all rfl⟩
  exact (C21_slots_after_two_reads example_env [] (State.init example_env) _ _ example_sel
      example_sel (-1) (-1) 0 0 ⟨100, 0⟩ ⟨101, 0⟩ [] [] [] []
      (example_row_io (some example_io_text)) (example_row_io (some example_io_text_next))
      example_io_text example_io_text_next rfl (by decide) (by decide) (by decide)
      (by decide) rfl hg1 hg2 hc rfl hc rfl).1

set_option maxRecDepth 100000 in
/-- C21 fails as stated when a read is unavailable in between: three normal-mode cycles
over pid 5 whose `io` file gives 2000 in the first, cannot be opened in the second and
gives 2600 in the third leave the `syscr` slots (2600, 0).  The second cycle wrote no
slot and flipped the index, so the third read overwrote the first; slot 1 holds no
value that was read. -/
theorem C21_counterexample :
    io_values example_io_text = some (2000, 10, 20, 4096, 8192) ∧
    io_values example_io_text_next = some (2600, 15, 27, 8192, 12289) ∧
    run_cycles example_env (State.init example_env)
      [example_cycle_io 100 (some example_io_text), example_cycle_io 101 none,
       example_cycle_io 102 (some example_io_text_next)] =
    some (example_state_of 102 1
      (example_record_io 1 ⟨2600, 0⟩ ⟨15, 0⟩ ⟨2615, 0⟩ ⟨27, 0⟩ ⟨-4097, 0⟩)
      (example_record_io 0 ⟨2600, 0⟩ ⟨15, 0⟩ ⟨2615, 0⟩ ⟨27, 0⟩ ⟨-4097, 0⟩)) := by
  refine ⟨by with_unfolding_all rfl, by with_unfolding_all rfl, by with_unfolding_all rfl⟩

/-! ## The I/O-ops counter is the sum of the two syscall counters -/

theorem slots_sum_set (a b c : Slots) (i x y : Int)
    (h : ∀ s : Int, c.get s = a.get s + b.get s) :
    ∀ s : Int, (c.set i (x + y)).get s = (a.set i x).get s + (b.set i y).get s := by
  intro s
  have h0 := h 0
  have h1 := h 1
  unfold Slots.get at h0 h1
  simp only [if_true] at h0
  rw [if_neg (by decide)] at h1
  rw [if_neg (by decide), if_neg (by decide)] at h1
  unfold Slots.get Slots.set
  by_cases hi : i = 0 <;> by_cases hs : s = 0 <;> simp [hi, hs, h0, h1]

theorem read_one_proc_stat_sum (env : Env) (proc m : top_proc) (sel : process_select)
    (f : ProcFiles) (hp : iops_is_sum proc)
    (h : read_one_proc_stat env proc sel f = some m) : iops_is_sum m := by
  by_cases hc : status_complete f
  · cases hio : f.io with
    | none =>
      obtain ⟨c1, c2, c3, _⟩ := read_one_proc_stat_slots_none env proc m sel f (Or.inr hio) h
      intro s
      rw [c1, c2, c3]
      exact hp s
    | some b =>
      obtain ⟨v1, v2, v3, v4, v5, _, c1, c2, c3, _⟩ :=
        read_one_proc_stat_slots_io env proc m sel f b hc hio h
      intro s
      rw [c1, c2, c3]
      exact slots_sum_set _ _ _ _ _ _ hp s
  · obtain ⟨c1, c2, c3, _⟩ := read_one_proc_stat_slots_none env proc m sel f (Or.inl hc) h
    intro s
    rw [c1, c2, c3]
    exact hp s

theorem upsert_record_sum (head : List top_proc) (pid : Int)
    (h : ∀ e ∈ head, iops_is_sum e) : iops_is_sum (upsert_record head pid) := by
  unfold upsert_record
  cases hq : (RB_INSERT head { top_proc.zero with pid := pid }).2 with
  | none =>
    intro s
    simp only [top_proc.zero, Slots.get]
    split_ifs <;> rfl
  | some p => exact h p (RB_INSERT_some head _ p hq).2

/-- One iteration keeps the sum relation, in the store and in the active buffer. -/
theorem process_row_sum (env : Env) (sel : process_select) (mode : Int) (tickdiff : ℚ)
    (l l1 : Loop) (row : Row) (hh : ∀ e ∈ l.head_proc, iops_is_sum e)
    (hp : ∀ e ∈ l.pgtable, iops_is_sum e)
    (hr : process_row env sel mode tickdiff l row = some l1) :
    (∀ e ∈ l1.head_proc, iops_is_sum e) ∧ (∀ e ∈ l1.pgtable, iops_is_sum e) := by
  have hold : ∀ (n : top_proc), iops_is_sum n → l1.head_proc =
        write_back (RB_INSERT l.head_proc { top_proc.zero with pid := row.pid }).1 (flip n) →
      ∀ e ∈ l1.head_proc, iops_is_sum e := by
    intro n hn hhead e he
    rw [hhead] at he
    rcases mem_write_back_cases _ _ _ he with h | ⟨h, _⟩
    · rw [h]
      exact hn
    · rcases mem_RB_INSERT _ _ _ h with h2 | h2
      · rw [h2]
        intro s
        simp only [top_proc.zero, Slots.get]
        split_ifs <;> rfl
      · exact hh e h2
  have hup := upsert_record_sum l.head_proc row.pid hh
  by_cases hmode : mode = env.MODE_REPLICATION
  · rw [process_row_replication env sel mode tickdiff l row hmode] at hr
    injection hr with hr
    subst hr
    have hn : iops_is_sum (fill_replication (upsert_record l.head_proc row.pid) row) := hup
    refine ⟨hold _ hn rfl, ?_⟩
    intro e he
    simp only [List.mem_append, List.mem_singleton] at he
    rcases he with he | he
    · exact hp e he
    · rw [he]
      exact hn
  · obtain ⟨m, ps, n, hm, hn, _, hhead, hpg, _⟩ :=
      process_row_normal env sel mode tickdiff l l1 row hmode hr
    obtain ⟨_, s2, s3, s4, _, _⟩ := tested_record_slots env sel m row
      (upsert_record l.head_proc row.pid).time tickdiff
    rw [← hn] at s2 s3 s4
    have hm2 := read_one_proc_stat_sum env _ m sel row.files hup hm
    have hn2 : iops_is_sum n := by
      intro s
      rw [s2, s3, s4]
      exact hm2 s
    refine ⟨hold n hn2 hhead, ?_⟩
    intro e he
    rw [hpg] at he
    split_ifs at he
    · simp only [List.mem_append, List.mem_singleton] at he
      rcases he with he | he
      · exact hp e he
      · rw [he]
        exact hn2
    · exact hp e he

theorem process_rows_sum (env : Env) (sel : process_select) (mode : Int) (tickdiff : ℚ)
    (rows : List Row) (l l1 : Loop) (hh : ∀ e ∈ l.head_proc, iops_is_sum e)
    (hp : ∀ e ∈ l.pgtable, iops_is_sum e)
    (hr : process_rows env sel mode tickdiff l rows = some l1) :
    (∀ e ∈ l1.head_proc, iops_is_sum e) ∧ (∀ e ∈ l1.pgtable, iops_is_sum e) := by
  induction rows generalizing l with
  | nil =>
    simp only [process_rows] at hr
    injection hr with hr
    subst hr
    exact ⟨hh, hp⟩
  | cons row rows ih =>
    simp only [process_rows] at hr
    cases h : process_row env sel mode tickdiff l row with
    | none => rw [h] at hr; exact absurd hr (by simp)
    | some l2 =>
      rw [h] at hr
      obtain ⟨a, b⟩ := process_row_sum env sel mode tickdiff l l2 row hh hp h
      exact ih l2 a b hr

theorem get_process_info_sum (env : Env) (st st1 : State) (sel : process_select)
    (compare_index : Int) (conn : Option (List Row)) (mode : Int) (thistime : timeval)
    (hq : ∀ cmp (l sorted : List top_proc), env.qsort cmp l = some sorted → sorted.Perm l)
    (hh : ∀ e ∈ st.head_proc, iops_is_sum e)
    (hr : get_process_info env st sel compare_index conn mode thistime = some st1) :
    (∀ e ∈ st1.head_proc, iops_is_sum e) ∧ (∀ e ∈ st1.pgtable, iops_is_sum e) := by
  obtain ⟨l, hl, hh1, hperm⟩ :=
    get_process_info_pgtable env st st1 sel compare_index conn mode thistime hq hr
  obtain ⟨a, b⟩ := process_rows_sum env sel mode _ _ _ l hh (by simp) hl
  rw [hh1]
  exact ⟨a, fun e he => b e (hperm.subset he)⟩

theorem run_cycles_sum (env : Env) (cycles : List Cycle) (st st1 : State)
    (hq : ∀ cmp (l sorted : List top_proc), env.qsort cmp l = some sorted → sorted.Perm l)
    (hh : ∀ e ∈ st.head_proc, iops_is_sum e) (hp : ∀ e ∈ st.pgtable, iops_is_sum e)
    (hr : run_cycles env st cycles = some st1) :
    (∀ e ∈ st1.head_proc, iops_is_sum e) ∧ (∀ e ∈ st1.pgtable, iops_is_sum e) := by
  induction cycles generalizing st with
  | nil =>
    simp only [run_cycles] at hr
    injection hr with hr
    subst hr
    exact ⟨hh, hp⟩
  | cons c cs ih =>
    simp only [run_cycles] at hr
    cases h : get_process_info env st c.sel c.compare_index c.conn c.mode c.thistime with
    | none => rw [h] at hr; exact absurd hr (by simp)
    | some st2 =>
      rw [h] at hr
      obtain ⟨a, b⟩ := get_process_info_sum env st st2 _ _ _ _ _ hq hh h
      exact ih st2 a b hr

theorem diff_stat_sum (n : top_proc) (h : iops_is_sum n) (i : Int) :
    diff_stat n.iops i = diff_stat n.syscr i + diff_stat n.syscw i := by
  unfold diff_stat
  rw [h i, h (Int.tmod (i + 1) 2)]
  ring

theorem run_cycles_sum_store (env : Env) (cycles : List Cycle) (st st1 : State)
    (hh : ∀ e ∈ st.head_proc, iops_is_sum e)
    (hr : run_cycles env st cycles = some st1) : ∀ e ∈ st1.head_proc, iops_is_sum e := by
  induction cycles generalizing st with
  | nil =>
    simp only [run_cycles] at hr
    injection hr with hr
    subst hr
    exact hh
  | cons c cs ih =>
    simp only [run_cycles] at hr
    cases h : get_process_info env st c.sel c.compare_index c.conn c.mode c.thistime with
    | none => rw [h] at hr; exact absurd hr (by simp)
    | some st2 =>
      rw [h] at hr
      obtain ⟨l, hl, hh1, _⟩ := get_process_info_head env st st2 _ _ _ _ _ h
      have a := (process_rows_sum env c.sel c.mode _ _ _ l hh (by simp) hl).1
      rw [← hh1] at a
      exact ih st2 a hr

set_option maxRecDepth 100000 in
/-- C22 fails on the code for the byte counters and holds for the sum.  `read_io` skips
two tokens, `rchar:` and its number, so the first `GET_VALUE` reads the `wchar` line
although its comment says `syscr`, and every field is taken from the line before its
own.  For the text `example_io_text`, which reports wchar 2000, syscr 10, syscw 20,
read_bytes 4096, write_bytes 8192 and cancelled_write_bytes 100, a completed read
stores syscr 2000, syscw 10, iops 2010, read_bytes 20 and write_bytes 4096 - 8192 =
-4096 in slot 0, where the claim has write_bytes 8192 - 100 = 8092.  What the claim
says of the sum holds: in every state reached from the initial one each stored record
has `iops[s] = syscr[s] + syscw[s]` in both slots, and so has each entry of the active
buffer when `qsort` permutes it; for such a record the `iops` delta is the sum of the
`syscr` and `syscw` deltas. -/
theorem C22_io_fields_shifted :
    (spec_io_field "wchar" example_io_text = some 2000 ∧
      spec_io_field "syscr" example_io_text = some 10 ∧
      spec_io_field "syscw" example_io_text = some 20 ∧
      spec_io_field "read_bytes" example_io_text = some 4096 ∧
      spec_io_field "write_bytes" example_io_text = some 8192 ∧
      spec_io_field "cancelled_write_bytes" example_io_text = some 100) ∧
    (read_one_proc_stat example_env top_proc.zero example_sel
        (example_row_io (some example_io_text)).files).map
      (fun m => (m.index, m.syscr, m.syscw, m.iops, m.read_bytes, m.write_bytes))
      = some (0, ⟨2000, 0⟩, ⟨10, 0⟩, ⟨2010, 0⟩, ⟨20, 0⟩, ⟨-4096, 0⟩) ∧
    (∀ (env : Env) (cycles : List Cycle) (st : State),
      run_cycles env (State.init env) cycles = some st →
      (∀ e ∈ st.head_proc, ∀ s : Int, e.iops.get s = e.syscr.get s + e.syscw.get s) ∧
      (∀ e ∈ st.head_proc, ∀ i : Int,
        diff_stat e.iops i = diff_stat e.syscr i + diff_stat e.syscw i) ∧
      ((∀ cmp (l sorted : List top_proc), env.qsort cmp l = some sorted → sorted.Perm l) →
        ∀ e ∈ st.pgtable, (∀ s : Int, e.iops.get s = e.syscr.get s + e.syscw.get s) ∧
          ∀ i : Int, diff_stat e.iops i = diff_stat e.syscr i + diff_stat e.syscw i)) := by
  refine ⟨⟨?_, ?_, ?_, ?_, ?_, ?_⟩, ?_, ?_⟩
  · with_unfolding_all rfl
  · with_unfolding_all rfl
  · with_unfolding_all rfl
  · with_unfolding_all rfl
  · with_unfolding_all rfl
  · with_unfolding_all rfl
  · with_unfolding_all rfl
  · intro env cycles st hrun
    have hst := run_cycles_sum_store env cycles (State.init env) st (by simp [State.init]) hrun
    refine ⟨hst, fun e he i => diff_stat_sum e (hst e he) i, ?_⟩
    intro hq e he
    have hpg := (run_cycles_sum env cycles (State.init env) st hq (by simp [State.init])
      (by simp [State.init]) hrun).2 e he
    exact ⟨hpg, fun i => diff_stat_sum e hpg i⟩

/-! ## The comparison functions in both directions -/

theorem trunc_neg (x : ℚ) : trunc (-x) = -trunc x := by
  unfold trunc
  by_cases h : 0 ≤ x
  · by_cases h2 : 0 ≤ -x
    · have hx : x = 0 := le_antisymm (by linarith) h
      subst hx
      simp
    · rw [if_neg h2, if_pos h, Int.ceil_neg]
  · have h2 : 0 ≤ -x := by linarith [not_le.1 h]
    rw [if_pos h2, if_neg h, Int.floor_neg]

theorem trunc_bound (x : ℚ) (h : |x| < 2 ^ 31) : -2 ^ 31 < trunc x ∧ trunc x < 2 ^ 31 := by
  unfold trunc
  rw [abs_lt] at h
  split_ifs with h0
  · constructor
    · have : (0 : Int) ≤ ⌊x⌋ := Int.floor_nonneg.mpr h0
      omega
    · rw [Int.floor_lt]
      push_cast
      exact h.2
  · constructor
    · rw [Int.lt_ceil]
      push_cast
      exact h.1
    · have : ⌈x⌉ ≤ (0 : Int) := by
        rw [Int.ceil_le]
        push_cast
        exact le_of_lt (not_le.1 h0)
      omega

theorem double_to_int_neg (x : ℚ) (h : |x| < 2 ^ 31) :
    double_to_int x = some (trunc x) ∧ double_to_int (-x) = some (-trunc x) := by
  obtain ⟨h1, h2⟩ := trunc_bound x h
  unfold double_to_int
  rw [trunc_neg]
  constructor
  · rw [if_pos ⟨by omega, h2⟩]
  · rw [if_pos ⟨by omega, by omega⟩]

/-- C23 fails on the code: none of the sixteen registered comparison functions is
antisymmetric.  `ORDERKEY_STATE` assigns `p1->pgstate < p2->pgstate` and goes on to the
later keys only when that is 1, so in the example of the claim (equal `pcpu`, states 1
and 2, resident sizes 10 and 20, both records named `postgres`) `compare_cpu(a, b)` is
10 and `compare_cpu(b, a)` is 0, and the same holds for the eight other functions that
have the state key before the size keys; `compare_res` and `compare_size`, which end in
the state key, give 1 and 0 for records that differ in the state alone.  The five I/O
functions store a `long long` difference in the `int result`: for a first sample with
each counter at `2 ^ 31` against a record with zero counters they are negative in both
directions.  These are all the registered functions.  For records of the same database
state whose CPU fractions differ by less than `2 ^ 31`, `compare_cpu` does change sign
with the order of its arguments. -/
theorem C23_comparators_not_antisymmetric :
    (compare_cpu.call (example_proc 1 10) (example_proc 2 20) = some 10 ∧
      compare_cpu.call (example_proc 2 20) (example_proc 1 10) = some 0) ∧
    (∀ c ∈ [compare_cmd, compare_cpu, compare_lag_flush, compare_lag_replay,
        compare_lag_sent, compare_lag_write, compare_locks, compare_qtime, compare_xtime],
      c.call (example_proc 1 10) (example_proc 2 20) = some 10 ∧
      c.call (example_proc 2 20) (example_proc 1 10) = some 0) ∧
    (∀ c ∈ [compare_res, compare_size],
      c.call (example_proc 1 10) (example_proc 2 10) = some 1 ∧
      c.call (example_proc 2 10) (example_proc 1 10) = some 0) ∧
    (∀ c ∈ [compare_iops, compare_reads, compare_syscr, compare_syscw, compare_writes],
      c.call (example_proc_io (2 ^ 31)) (example_proc_io 0) = some (-2 ^ 31) ∧
      c.call (example_proc_io 0) (example_proc_io (2 ^ 31)) = some (-2 ^ 31)) ∧
    (∀ c, some c ∈ proc_compares →
      c ∈ [compare_cmd, compare_cpu, compare_lag_flush, compare_lag_replay,
        compare_lag_sent, compare_lag_write, compare_locks, compare_qtime, compare_xtime,
        compare_res, compare_size,
        compare_iops, compare_reads, compare_syscr, compare_syscw, compare_writes]) ∧
    (∀ a b : top_proc, a.pgstate = b.pgstate → |b.pcpu - a.pcpu| < 2 ^ 31 →
      ∃ r, compare_cpu.call a b = some r ∧ compare_cpu.call b a = some (-r)) := by
  refine ⟨⟨by with_unfolding_all rfl, by with_unfolding_all rfl⟩, ?_, ?_, ?_, ?_, ?_⟩
  · intro c hc
    simp only [List.mem_cons, List.mem_singleton, List.not_mem_nil, or_false] at hc
    rcases hc with h | h | h | h | h | h | h | h | h <;> subst h <;>
      exact ⟨by with_unfolding_all rfl, by with_unfolding_all rfl⟩
  · intro c hc
    simp only [List.mem_cons, List.mem_singleton, List.not_mem_nil, or_false] at hc
    rcases hc with h | h <;> subst h <;>
      exact ⟨by with_unfolding_all rfl, by with_unfolding_all rfl⟩
  · intro c hc
    simp only [List.mem_cons, List.mem_singleton, List.not_mem_nil, or_false] at hc
    rcases hc with h | h | h | h | h <;> subst h <;>
      exact ⟨by with_unfolding_all rfl, by with_unfolding_all rfl⟩
  · intro c hc
    simp only [proc_compares, List.mem_cons, List.mem_singleton, Option.some.injEq,
      List.not_mem_nil, or_false] at hc
    simp only [List.mem_cons, List.mem_singleton, List.not_mem_nil, or_false]
    tauto
  · intro a b hs hb
    obtain ⟨hp, hn⟩ := double_to_int_neg (b.pcpu - a.pcpu) hb
    have hn2 : double_to_int (a.pcpu - b.pcpu) = some (-trunc (b.pcpu - a.pcpu)) := by
      rw [← hn]
      congr 1
      ring
    have h1 : ¬ a.pgstate < b.pgstate := by omega
    have h2 : ¬ b.pgstate < a.pgstate := by omega
    refine ⟨if trunc (b.pcpu - a.pcpu) = 0 then 0 else trunc (b.pcpu - a.pcpu), ?_, ?_⟩
    · by_cases h0 : trunc (b.pcpu - a.pcpu) = 0
      · simp [Comparator.call, compare_cpu, run_keys, OrderKey.test, OrderKey.result, hp, h0,
          h1]
      · simp [Comparator.call, compare_cpu, run_keys, OrderKey.test, OrderKey.result, hp, h0]
    · by_cases h0 : trunc (b.pcpu - a.pcpu) = 0
      · simp [Comparator.call, compare_cpu, run_keys, OrderKey.test, OrderKey.result, hn2, h0,
          h2]
      · simp [Comparator.call, compare_cpu, run_keys, OrderKey.test, OrderKey.result, hn2,
          h0]

/-! ## The header on later calls -/

theorem strchr_append_of_not_mem (a b : List Char) (c : Char) (h : c ∉ a) :
    strchr (a ++ b) c = strchr b c := by
  induction a with
  | nil => rfl
  | cons x xs ih =>
    rw [List.mem_cons, not_or] at h
    rw [List.cons_append, strchr, if_neg (fun hx => h.1 hx.symm)]
    exact ih h.2

/-- C25 fails on the code: `format_header` looks for the first `X` of `fmt_header` on
every call, and the first call has overwritten the placeholder.  With `USERNAME` the
second call finds the `X` of `XTIME` in column 39 and returns a header that reads
`USERNAMETIME` there; on the third call no `X` is left, `strchr` returns `NULL` and the
copy has no destination.  The same holds for every field that is not empty and has no
`X` among its first 8 characters: the second call returns a header that has the first
character of the field in column 39, where the first header has the `X` of `XTIME`. -/
theorem C25_header_second_call :
    (format_header (State.init example_env) "USERNAME").map (fun r => String.mk r.1) =
      some "    PID USERNAME    SIZE   RES STATE   XTIME  QTIME  %CPU LOCKS COMMAND" ∧
    ((format_header (State.init example_env) "USERNAME").bind
        (fun r => format_header r.2 "USERNAME")).map (fun r => String.mk r.1) =
      some "    PID USERNAME    SIZE   RES STATE   USERNAMETIME  %CPU LOCKS COMMAND" ∧
    (((format_header (State.init example_env) "USERNAME").bind
        (fun r => format_header r.2 "USERNAME")).bind
        (fun r => format_header r.2 "USERNAME")).map (fun r => String.mk r.1) = none ∧
    (∀ (st : State) (f : String), st.fmt_header = fmt_header_init → f.data ≠ [] →
      'X' ∉ f.data.take 8 →
      ∃ h1 st1 h2 st2, format_header st f = some (h1, st1) ∧
        format_header st1 f = some (h2, st2) ∧
        h1[39]? = some 'X' ∧ h2[39]? = f.data[0]? ∧ h2 ≠ h1) := by
  refine ⟨by decide, by decide, by decide, ?_⟩
  intro st f hst hne hX
  have hlen : fmt_header_init.length = 71 := by decide
  have hk8 : min f.data.length 8 ≤ 8 := Nat.min_le_right _ _
  have hk1 : 1 ≤ min f.data.length 8 := by
    have : 0 < f.data.length := List.length_pos.mpr hne
    omega
  have htk : f.data.take (min f.data.length 8) = f.data.take 8 := by
    rw [List.take_eq_take]
    omega
  have htake : (f.data.take (min f.data.length 8)).length = min f.data.length 8 := by
    rw [List.length_take]
    omega
  have hX0 : strchr fmt_header_init 'X' = some (fmt_header_init.drop 8) := by decide
  have hd : (fmt_header_init.drop 8).length = 63 := by rw [List.length_drop, hlen]
  have hcall1 : ∃ h1 st1, format_header st f = some (h1, st1) ∧ st1.fmt_header = h1 ∧
      h1 = fmt_header_init.take 8 ++ f.data.take (min f.data.length 8) ++
        fmt_header_init.drop (8 + min f.data.length 8) := by
    unfold format_header
    simp only [hst, hX0]
    rw [if_neg (by rw [hd]; omega)]
    refine ⟨_, _, rfl, rfl, ?_⟩
    have h8 : fmt_header_init.length - (fmt_header_init.drop 8).length = 8 := by
      rw [hd, hlen]
    rw [h8, List.drop_drop]
  obtain ⟨h1, st1, hcall1, hst1, hh⟩ := hcall1
  subst hh
  have hl1 : (fmt_header_init.take 8 ++ f.data.take (min f.data.length 8) ++
      fmt_header_init.drop (8 + min f.data.length 8)).length = 71 := by
    simp only [List.length_append, htake, List.length_take, List.length_drop, hlen]
    omega
  have hX1 : strchr (fmt_header_init.take 8 ++ f.data.take (min f.data.length 8) ++
      fmt_header_init.drop (8 + min f.data.length 8)) 'X' =
      some (fmt_header_init.drop 39) := by
    rw [List.append_assoc, strchr_append_of_not_mem _ _ _ (by decide),
      strchr_append_of_not_mem _ _ _ (by rw [htk]; exact hX)]
    generalize min f.data.length 8 = k at hk1 hk8
    interval_cases k <;> decide
  have hd40 : (fmt_header_init.drop 39).length = 32 := by rw [List.length_drop, hlen]
  have hcall2 : ∃ st2, format_header st1 f = some
      ((fmt_header_init.take 8 ++ f.data.take (min f.data.length 8) ++
          fmt_header_init.drop (8 + min f.data.length 8)).take 39 ++
        f.data.take (min f.data.length 8) ++
        (fmt_header_init.drop 39).drop (min f.data.length 8), st2) := by
    have h40 : (fmt_header_init.take 8 ++ f.data.take (min f.data.length 8) ++
        fmt_header_init.drop (8 + min f.data.length 8)).length -
        (fmt_header_init.drop 39).length = 39 := by
      rw [hd40, hl1]
    unfold format_header
    simp only [hst1, hX1]
    rw [if_neg (by rw [hd40]; omega), h40]
    exact ⟨_, rfl⟩
  obtain ⟨st2, hcall2⟩ := hcall2
  have hh1 : (fmt_header_init.take 8 ++ f.data.take (min f.data.length 8) ++
      fmt_header_init.drop (8 + min f.data.length 8))[39]? = some 'X' := by
    have h := (getElem?_three (fmt_header_init.take 8)
      (f.data.take (min f.data.length 8))
      (fmt_header_init.drop (8 + min f.data.length 8)) 39).2.1
    have hl : (fmt_header_init.take 8).length = 8 := by rw [List.length_take, hlen]; rfl
    rw [h (by rw [hl, htake]; omega), hl, htake, List.getElem?_drop]
    have : 8 + min f.data.length 8 + (39 - (8 + min f.data.length 8)) = 39 := by omega
    rw [this]
    decide
  have hh2 : ((fmt_header_init.take 8 ++ f.data.take (min f.data.length 8) ++
        fmt_header_init.drop (8 + min f.data.length 8)).take 39 ++
      f.data.take (min f.data.length 8) ++
      (fmt_header_init.drop 39).drop (min f.data.length 8))[39]? = f.data[0]? := by
    have h := (getElem?_three ((fmt_header_init.take 8 ++
        f.data.take (min f.data.length 8) ++
        fmt_header_init.drop (8 + min f.data.length 8)).take 39)
      (f.data.take (min f.data.length 8))
      ((fmt_header_init.drop 39).drop (min f.data.length 8)) 39).2.2
    have hl : ((fmt_header_init.take 8 ++ f.data.take (min f.data.length 8) ++
        fmt_header_init.drop (8 + min f.data.length 8)).take 39).length = 39 := by
      rw [List.length_take, hl1]
      rfl
    rw [h (by rw [hl]) (by rw [hl, htake]; omega), hl, Nat.sub_self,
      List.getElem?_take_of_lt (by omega)]
  refine ⟨_, st1, _, st2, hcall1, hcall2, hh1, hh2, ?_⟩
  intro heq
  have h0 : f.data[0]? = some 'X' := by rw [← hh2, heq, hh1]
  apply hX
  cases hf : f.data with
  | nil => exact absurd hf hne
  | cons c cs =>
    rw [hf] at h0
    simp only [List.getElem?_cons_zero, Option.some.injEq] at h0
    rw [h0]
    simp

/-! ## The counts and the histogram of a cycle -/

theorem modify_succ_sum (ps : List Int) (i : Nat) (h : i < ps.length) :
    (ps.modify (fun c => c + 1) i).sum = ps.sum + 1 := by
  induction ps generalizing i with
  | nil => simp at h
  | cons a rest ih =>
    cases i with
    | zero => simp only [List.modify_zero_cons, List.sum_cons]; ring
    | succ j =>
      simp only [List.modify_succ_cons, List.sum_cons]
      rw [ih j (by simpa using h)]
      ring

theorem tally_some (ps ps1 : List Int) (k : Int) (h : tally ps k = some ps1) :
    0 ≤ k ∧ k.toNat < ps.length ∧ ps1.length = ps.length ∧ ps1.sum = ps.sum + 1 ∧
    ∀ j : Nat, ps1[j]? = (ps[j]?).map (fun c => if k = (j : Int) then c + 1 else c) := by
  unfold tally at h
  split_ifs at h with hk
  injection h with h
  subst h
  refine ⟨hk.1, hk.2, List.length_modify _ _ _, modify_succ_sum ps _ hk.2, ?_⟩
  intro j
  rw [List.getElem?_modify]
  have hiff : k.toNat = j ↔ k = (j : Int) := by omega
  cases ps[j]? with
  | none => rfl
  | some c =>
    simp only [Option.map_some', Functor.map, Option.map]
    by_cases hj : k = (j : Int)
    · rw [if_pos (hiff.mpr hj), if_pos hj]
    · rw [if_neg (fun hh => hj (hiff.mp hh)), if_neg hj]

/-- The normal-mode row loop, row by row: `recs` are the records the inclusion test is
made on, one for each row; each is tallied under its database state, and the ones the
test accepts are appended to the active buffer in the order of the rows. -/
theorem process_rows_tally (env : Env) (sel : process_select) (mode : Int) (tickdiff : ℚ)
    (rows : List Row) (l l1 : Loop) (hmode : mode ≠ env.MODE_REPLICATION)
    (hr : process_rows env sel mode tickdiff l rows = some l1) :
    ∃ recs : List top_proc,
      List.Forall₂ (fun n row => n.pid = row.pid ∧ n.usename = row.usename ∧
        ∃ old, n.pgstate = env.update_state old row.state) recs rows ∧
      (∀ n ∈ recs, 0 ≤ n.pgstate ∧ n.pgstate.toNat < l.process_states.length) ∧
      l1.process_states.length = l.process_states.length ∧
      l1.process_states.sum = l.process_states.sum + rows.length ∧
      (∀ j : Nat, l1.process_states[j]? = (l.process_states[j]?).map
        (fun (c : Int) => c + ((recs.countP (fun n => decide (n.pgstate = (j : Int))) : Nat) : Int))) ∧
      l1.pgtable = l.pgtable ++ recs.filter (fun n => is_active env sel n) ∧
      l1.active_procs = l.active_procs + (recs.filter (fun n => is_active env sel n)).length ∧
      l1.total_procs = l.total_procs + rows.length := by
  induction rows generalizing l with
  | nil =>
    simp only [process_rows] at hr
    injection hr with hr
    subst hr
    refine ⟨[], List.Forall₂.nil, by simp, rfl, by simp, ?_, by simp, by simp, by simp⟩
    intro j
    cases l.process_states[j]? <;> simp
  | cons row rows ih =>
    simp only [process_rows] at hr
    cases h : process_row env sel mode tickdiff l row with
    | none => rw [h] at hr; exact absurd hr (by simp)
    | some l2 =>
      rw [h] at hr
      simp only at hr
      obtain ⟨m, ps, n, hm, hn, htal, _, hpg, hact, hps, htot⟩ :=
        process_row_normal env sel mode tickdiff l l2 row hmode h
      obtain ⟨hk0, hk1, hlen, hsum, hget⟩ := tally_some _ _ _ htal
      obtain ⟨hmp, _, _, _, _⟩ := read_one_proc_stat_frame env _ m sel row.files hm
      have hkey := tested_record_key env sel m row (upsert_record l.head_proc row.pid).time
        tickdiff
      rw [← hn] at hkey
      simp only [entry_key, Prod.mk.injEq] at hkey
      obtain ⟨recs, hall, hrange, hlen2, hsum2, hget2, hpg2, hact2, htot2⟩ := ih l2 hr
      rw [hps] at hlen2 hsum2 hget2 hrange
      refine ⟨n :: recs, List.Forall₂.cons ⟨?_, hkey.2.1, ⟨_, hkey.2.2⟩⟩ hall, ?_, ?_, ?_, ?_,
        ?_, ?_, ?_⟩
      · rw [hkey.1, hmp, upsert_record_pid]
      · intro x hx
        rcases List.mem_cons.mp hx with hx | hx
        · rw [hx]
          exact ⟨hk0, hk1⟩
        · rw [← hlen]
          exact hrange x hx
      · rw [hlen2, hlen]
      · rw [hsum2, hsum, List.length_cons]
        push_cast
        ring
      · intro j
        rw [hget2 j, hget j, List.countP_cons]
        cases l.process_states[j]? with
        | none => rfl
        | some c =>
          simp only [Option.map_some', Option.some.injEq]
          by_cases hj : n.pgstate = (j : Int)
          · simp only [hj, if_true, decide_True]
            push_cast
            ring
          · simp only [hj, if_false, decide_False]
            push_cast
            ring
      · rw [hpg2, hpg, List.filter_cons]
        by_cases ha : is_active env sel n = true
        · simp [ha]
        · simp [ha]
      · rw [hact2, hact, List.filter_cons]
        by_cases ha : is_active env sel n = true
        · simp [ha]; omega
        · simp [ha]
      · rw [htot2, htot, List.length_cons]
        omega

/-- The row loop in either mode: the row count grows by the number of rows, and the
active count by the number of records appended to the active buffer, which is at most
the number of rows. -/
theorem process_rows_counts (env : Env) (sel : process_select) (mode : Int) (tickdiff : ℚ)
    (rows : List Row) (l l1 : Loop)
    (hr : process_rows env sel mode tickdiff l rows = some l1) :
    l1.total_procs = l.total_procs + rows.length ∧
    ∃ added, l1.pgtable = l.pgtable ++ added ∧
      l1.active_procs = l.active_procs + added.length ∧ added.length ≤ rows.length := by
  induction rows generalizing l with
  | nil =>
    simp only [process_rows] at hr
    injection hr with hr
    subst hr
    exact ⟨by simp, [], by simp, by simp, by simp⟩
  | cons row rows ih =>
    simp only [process_rows] at hr
    cases h : process_row env sel mode tickdiff l row with
    | none => rw [h] at hr; exact absurd hr (by simp)
    | some l2 =>
      rw [h] at hr
      simp only at hr
      obtain ⟨htot, added, hpg, hact, hle⟩ := ih l2 hr
      obtain ⟨n, _, _, _, hcase, htot2⟩ := process_row_entry env sel mode tickdiff l l2 row h
      refine ⟨by rw [htot, htot2, List.length_cons]; omega, ?_⟩
      rcases hcase with ⟨hp2, ha2⟩ | ⟨hp2, ha2⟩
      · refine ⟨n :: added, ?_, ?_, ?_⟩
        · rw [hpg, hp2]; simp
        · rw [hact, ha2, List.length_cons]; omega
        · simp only [List.length_cons]; omega
      · refine ⟨added, ?_, ?_, ?_⟩
        · rw [hpg, hp2]
        · rw [hact, ha2]
        · simp only [List.length_cons]; omega

theorem process_rows_replication_states (env : Env) (sel : process_select) (mode : Int)
    (tickdiff : ℚ) (rows : List Row) (l l1 : Loop) (hmode : mode = env.MODE_REPLICATION)
    (hr : process_rows env sel mode tickdiff l rows = some l1) :
    l1.process_states = l.process_states := by
  induction rows generalizing l with
  | nil =>
    simp only [process_rows] at hr
    injection hr with hr
    subst hr
    rfl
  | cons row rows ih =>
    simp only [process_rows] at hr
    rw [process_row_replication env sel mode tickdiff l row hmode] at hr
    simp only at hr
    have h2 := ih _ hr
    exact h2

/-- C26: when a call of `get_process_info` returns, the row count is the number of rows
of the row-set and the histogram has its `NPROCSTATES` entries.  In normal mode the
entries sum to the row count: with `recs` the records the inclusion test is made on,
one for each row in order, with the pid and the username of the row and the database
state `update_state` derives from its state text, entry `j` of the histogram is the
number of records of `recs` whose database state is `j`, whether the test accepts them
or not; the active count is the number of records the test accepts, and these are the
active buffer when no sort is asked for.  In replication mode every entry of the
histogram is zero. -/
theorem C26_histogram_counts_rows (env : Env) (st st1 : State) (sel : process_select)
    (compare_index : Int) (conn : Option (List Row)) (mode : Int) (thistime : timeval)
    (hr : get_process_info env st sel compare_index conn mode thistime = some st1) :
    st1.p_total = (conn.getD []).length ∧
    st1.process_states.length = env.NPROCSTATES ∧
    (mode ≠ env.MODE_REPLICATION →
      st1.process_states.sum = st1.p_total ∧
      ∃ recs : List top_proc,
        List.Forall₂ (fun n row => n.pid = row.pid ∧ n.usename = row.usename ∧
          ∃ old, n.pgstate = env.update_state old row.state) recs (conn.getD []) ∧
        (∀ n ∈ recs, 0 ≤ n.pgstate ∧ n.pgstate.toNat < env.NPROCSTATES) ∧
        (∀ j : Nat, j < env.NPROCSTATES → st1.process_states[j]? =
          some ((recs.countP (fun n => decide (n.pgstate = (j : Int))) : Nat) : Int)) ∧
        st1.p_active = (recs.filter (fun n => is_active env sel n)).length ∧
        (compare_index < 0 → st1.pgtable = recs.filter (fun n => is_active env sel n))) ∧
    (mode = env.MODE_REPLICATION →
      st1.process_states = List.replicate env.NPROCSTATES 0) := by
  obtain ⟨l, hl, _, hact, htot, hps, _, hpg⟩ :=
    get_process_info_head env st st1 sel compare_index conn mode thistime hr
  have hcount := (process_rows_counts env sel mode _ _ _ l hl).1
  simp only [Nat.zero_add] at hcount
  have hlen : st1.process_states.length = env.NPROCSTATES := by
    by_cases hmode : mode = env.MODE_REPLICATION
    · rw [hps, process_rows_replication_states env sel mode _ _ _ l hmode hl]
      simp
    · obtain ⟨_, _, _, h3, _⟩ := process_rows_tally env sel mode _ _ _ l hmode hl
      rw [hps, h3]
      simp
  refine ⟨by rw [htot, hcount], hlen, ?_, ?_⟩
  · intro hmode
    obtain ⟨recs, hall, hrange, _, hsum, hget, hpg2, hact2, _⟩ :=
      process_rows_tally env sel mode _ _ _ l hmode hl
    simp only [List.sum_replicate, smul_zero, zero_add, List.length_replicate,
      List.nil_append, Nat.zero_add] at hsum hrange hpg2 hact2
    refine ⟨by rw [hps, hsum, htot, hcount], recs, hall, hrange, ?_, by rw [hact, hact2], ?_⟩
    · intro j hj
      rw [hps, hget j]
      simp [List.getElem?_replicate, hj]
    · intro hc
      rw [hpg hc, hpg2]
  · intro hmode
    rw [hps, process_rows_replication_states env sel mode _ _ _ l hmode hl]

theorem C26_witness :
    get_process_info example_env (State.init example_env) example_sel_alice (-1)
      (some example_rows_two) 0 ⟨100, 0⟩ = some example_state_two ∧
    example_state_two.p_total = example_rows_two.length ∧
    example_state_two.process_states.length = example_env.NPROCSTATES ∧
    example_state_two.process_states.sum = example_state_two.p_total :=
  have hr : get_process_info example_env (State.init example_env) example_sel_alice (-1)
      (some example_rows_two) 0 ⟨100, 0⟩ = some example_state_two := by
    with_unfolding_all rfl
  ⟨hr, (C26_histogram_counts_rows example_env (State.init example_env) example_state_two
      example_sel_alice (-1) (some example_rows_two) 0 ⟨100, 0⟩ hr).1,
    (C26_histogram_counts_rows example_env (State.init example_env) example_state_two
      example_sel_alice (-1) (some example_rows_two) 0 ⟨100, 0⟩ hr).2.1,
    ((C26_histogram_counts_rows example_env (State.init example_env) example_state_two
      example_sel_alice (-1) (some example_rows_two) 0 ⟨100, 0⟩ hr).2.2.1 (by decide)).1⟩

/-! ## The active buffer stays within its capacity -/

/-- C27: when a call of `get_process_info` returns, in either mode, the active count is
at most the row count, which is the number of rows the buffer was sized to.  At every
iteration, that is for every split of the row-set into the rows before, the row of the
iteration and the rows after, the loop has counted the rows before, the active buffer
holds `active_procs` records, at most as many as the rows before, and the iteration
leaves the buffer as it is or writes one record at index `active_procs`, which is below
the number of rows. -/
theorem C27_active_within_rows (env : Env) (st st1 : State) (sel : process_select)
    (compare_index : Int) (conn : Option (List Row)) (mode : Int) (thistime : timeval)
    (hr : get_process_info env st sel compare_index conn mode thistime = some st1) :
    st1.p_active ≤ st1.p_total ∧ st1.p_total = (conn.getD []).length ∧
    ∀ pre row post, conn.getD [] = pre ++ row :: post →
      ∃ l l2,
        process_rows env sel mode (elapsed st.lasttime thistime * (env.HZ : ℚ))
          { head_proc := st.head_proc, pgtable := [],
            process_states := List.replicate env.NPROCSTATES 0, total_procs := 0,
            active_procs := 0 } pre = some l ∧
        process_row env sel mode (elapsed st.lasttime thistime * (env.HZ : ℚ)) l row
          = some l2 ∧
        l.total_procs = pre.length ∧ l.pgtable.length = l.active_procs ∧
        l.active_procs ≤ l.total_procs ∧ l.active_procs < (conn.getD []).length ∧
        (l2.pgtable = l.pgtable ∧ l2.active_procs = l.active_procs ∨
          ∃ n, l2.pgtable = l.pgtable ++ [n] ∧ l2.active_procs = l.active_procs + 1 ∧
            l2.pgtable[l.active_procs]? = some n) := by
  obtain ⟨lf, hl, _, hact, htot, _⟩ :=
    get_process_info_head env st st1 sel compare_index conn mode thistime hr
  obtain ⟨hcount, added, _, hadd, hle⟩ := process_rows_counts env sel mode _ _ _ lf hl
  simp only [Nat.zero_add] at hcount hadd
  refine ⟨by rw [hact, htot, hadd, hcount]; exact hle, by rw [htot, hcount], ?_⟩
  intro pre row post hsplit
  rw [hsplit] at hl
  obtain ⟨l, l2, h1, h2, _⟩ := process_rows_split env sel mode _ pre post row _ lf hl
  obtain ⟨hc1, added1, hpg1, hadd1, hle1⟩ := process_rows_counts env sel mode _ _ _ l h1
  simp only [Nat.zero_add, List.nil_append] at hc1 hadd1 hpg1
  obtain ⟨n, _, _, _, hcase, _⟩ := process_row_entry env sel mode _ l l2 row h2
  have hlen : l.pgtable.length = l.active_procs := by rw [hpg1, hadd1]
  refine ⟨l, l2, h1, h2, hc1, hlen, by rw [hadd1, hc1]; exact hle1, ?_, ?_⟩
  · rw [hsplit, hadd1, List.length_append, List.length_cons]
    omega
  · rcases hcase with ⟨hp, ha⟩ | ⟨hp, ha⟩
    · refine Or.inr ⟨n, hp, ha, ?_⟩
      rw [hp, ← hlen, List.getElem?_append_right (le_refl _)]
      simp
    · exact Or.inl ⟨hp, ha⟩

theorem C27_witness :
    get_process_info example_env (State.init example_env) example_sel_alice (-1)
      (some example_rows_two) 0 ⟨100, 0⟩ = some example_state_two ∧
    example_state_two.p_active ≤ example_state_two.p_total ∧
    example_state_two.p_total = example_rows_two.length :=
  have hr : get_process_info example_env (State.init example_env) example_sel_alice (-1)
      (some example_rows_two) 0 ⟨100, 0⟩ = some example_state_two := by
    with_unfolding_all rfl
  ⟨hr, (C27_active_within_rows example_env (State.init example_env) example_state_two
      example_sel_alice (-1) (some example_rows_two) 0 ⟨100, 0⟩ hr).1,
    (C27_active_within_rows example_env (State.init example_env) example_state_two
      example_sel_alice (-1) (some example_rows_two) 0 ⟨100, 0⟩ hr).2.1⟩
